import Mathlib

/-!
xdcrDiffer: the DCP driver and the DCP client.

A shallow embedding of `dcp/DcpDriver.go` and `dcp/DcpClient.go`.

The driver and its clients form one heap: the driver owns the slice of clients and every
client holds a pointer back to the driver.  The embedding keeps that heap in a single
value of type `DcpDriver`; a method of the client at index `i` is a function of `i` and
the driver value.  Execution is sequential, so the mutexes of the source are not
represented.  A result `none` stands for a call that does not return normally: a Go
panic, or a call that blocks forever.  Console and logger output is not represented.
Calls made on collaborators (the transport, the checkpoint manager, the handlers, the
wait groups, the error channel) are recorded, in order, in the `trace` of the driver.
-/

namespace XdcrDiffer

/-- A Go `error`, represented by its text; `none` is `nil`. -/
abbrev GoError := Option String

/-- The lifecycle state of the driver (`DriverState` in `DcpDriver.go`). -/
inductive DriverState where
  | DriverStateNew
  | DriverStateStarted
  | DriverStateStopped
  deriving DecidableEq, Repr

/-- The integer value of a `DriverState` (`iota`: 0, 1, 2). -/
def DriverState.toNat : DriverState → Nat
  | .DriverStateNew => 0
  | .DriverStateStarted => 1
  | .DriverStateStopped => 2

/-- Modelled from the spec: the type `VBState`, whose declaration is not among the sources
(`DcpClient.go` names `VBStateCompleted` and `VBStateStreamClosed`).  The spec lists the
states `Pending, StreamOpenRequested, StreamOpen, Completed, StreamClosed, Failed`. -/
inductive VBState where
  | VBStatePending
  | VBStateStreamOpenRequested
  | VBStateStreamOpen
  | VBStateCompleted
  | VBStateStreamClosed
  | VBStateFailed
  deriving DecidableEq, Repr

/-- A buffered Go channel of errors with no receiver: its capacity and its queued
values, oldest first. -/
structure ErrChan where
  cap : Nat
  buf : List GoError
  deriving DecidableEq, Repr

/-- The tasks the client starts with a `go` statement. -/
inductive Task where
  | handleDcpStreams
  | closeCompletedStreams
  | reportActiveStreams
  deriving DecidableEq, Repr

/-- The calls on collaborators that the embedding records. -/
inductive Event where
  /-- `DcpDriver.Stop` is entered. -/
  | driverStop
  /-- `d.waitGroup.Done()` on the parent wait group. -/
  | waitGroupDone
  /-- `checkpointManager.initialize()`. -/
  | checkpointManagerInitialize
  /-- `checkpointManager.Start()`. -/
  | checkpointManagerStart
  /-- `checkpointManager.Stop()`. -/
  | checkpointManagerStop
  /-- `Start` of the client with this index is entered. -/
  | clientStart (client : Nat)
  /-- `Stop` of the client with this index is entered. -/
  | clientStop (client : Nat)
  /-- `Stop` of the client with this index has returned. -/
  | clientStopped (client : Nat)
  /-- `close(c.finChan)`. -/
  | finClose (client : Nat)
  /-- A value is offered to the error channel by a non-blocking send. -/
  | errOffer (err : GoError)
  /-- An `OpenStream` request to the transport. -/
  | openStream (client vbno vbuuid startSeqno endSeqno snapStart snapEnd : Nat)
      (handler : Option Nat)
  /-- A `CloseStream` request to the transport. -/
  | closeStream (client vbno : Nat)
  /-- `Start` of a handler of a client. -/
  | handlerStart (client handler : Nat)
  /-- `Stop` of a handler of a client. -/
  | handlerStop (client handler : Nat)
  /-- A `go` statement of a client. -/
  | go (client : Nat) (task : Task)
  deriving DecidableEq, Repr

/-- Modelled from the spec: `DcpHandler`, whose source file is not among the sources.  A
handler is constructed from its index and the vbuckets it owns; the client refers to a
handler by its index in `dcpHandlers`. -/
structure DcpHandler where
  index : Nat
  vbList : List Nat
  deriving DecidableEq, Repr

/-- A Go map with `uint16` keys. -/
abbrev VbMap (β : Type) := AList (fun _ : Nat => β)

/-- The fields of `DcpClient` (`DcpClient.go`).  `bucketOpen` is `c.bucket != nil`,
`clusterSet` is `c.cluster != nil`, `finClosed` tells whether `finChan` has been closed.
The back pointer `dcpDriver` and the wait group pointer are the enclosing driver value and
its `childWaitGroup`. -/
structure DcpClient where
  Name : String
  vbList : List Nat
  clusterSet : Bool
  bucketOpen : Bool
  dcpHandlers : List (Option DcpHandler)
  vbHandlerMap : VbMap Nat
  numberClosing : Nat
  activeStreams : Nat
  finClosed : Bool

/-- The fields of `DcpDriver` (`DcpDriver.go`) that the operations below read or write.
`waitGroup` is the counter of the parent's wait group, which `NewDcpDriver` is given;
`childWaitGroup` is the counter of the wait group the driver creates for its clients.  `completeBySeqno` and `vbStates` are read by `DcpClient.go` through the driver
and have no declaration among the sources. -/
structure DcpDriver where
  Name : String
  rbacSupported : Bool
  bucketPassword : String
  errChan : ErrChan
  waitGroup : Nat
  childWaitGroup : Nat
  numberOfClients : Nat
  numberOfWorkers : Nat
  clients : List (Option DcpClient)
  vbState : VbMap Bool
  state : DriverState
  completeBySeqno : Bool
  vbStates : Nat → VBState
  trace : List Event

/-- Modelled from the spec: the start cursor `GetStartVBTS` returns for a vbucket (the
checkpoint manager is not among the sources); `DcpClient.go` reads these three fields. -/
structure VBTS where
  NoNeedToStartDcpStream : Bool
  Vbuuid : Nat
  Seqno : Nat
  deriving DecidableEq, Repr

/-- Constants and pure helpers of the repository that are not among the sources:
`base.NumberOfVbuckets` and `utils.BalanceLoad`, which returns one `[low, high]` pair of
indices per worker. -/
structure Env where
  NumberOfVbuckets : Nat
  BalanceLoad : Nat → Nat → List (Nat × Nat)

/-- What the collaborators answer during one call: credential discovery, the checkpoint
manager, the cluster library (per client index), the handlers (per client and handler
index), the shuffle of `utils.ShuffleVbList`, and the transport (per client and vbucket). -/
structure Outcomes where
  getRBACSupportedAndBucketPassword : Bool × String × GoError
  cmInitialize : GoError
  cmStart : GoError
  cmStop : GoError
  connect : Nat → GoError
  authenticate : Nat → GoError
  openStreamingBucket : Nat → GoError
  newDcpHandler : Nat → Nat → GoError
  handlerStart : Nat → Nat → GoError
  getStartVBTS : Nat → VBTS
  shuffleVbList : List Nat → List Nat
  openStream : Nat → Nat → GoError
  closeStream : Nat → Nat → GoError

/-- A Go `for` loop over `xs` whose body may end the enclosing function with an error
(`some e`), or not return at all (`none`). -/
def forErr {α σ : Type} (body : α → σ → Option (σ × GoError)) :
    List α → σ → Option (σ × GoError)
  | [], s => some (s, none)
  | a :: as, s =>
    match body a s with
    | none => none
    | some (s1, some e) => some (s1, some e)
    | some (s1, none) => forErr body as s1

/-- A Go `for` loop over `xs` whose body returns nothing, or does not return at all. -/
def forEach {α σ : Type} (body : α → σ → Option σ) : List α → σ → Option σ
  | [], s => some s
  | a :: as, s =>
    match body a s with
    | none => none
    | some s1 => forEach body as s1

/-- A send on a channel without receiver: the value is queued when the buffer has room;
otherwise the send blocks (`none`). -/
def ErrChan.send (ch : ErrChan) (err : GoError) : Option ErrChan :=
  if ch.buf.length < ch.cap then some { ch with buf := ch.buf ++ [err] } else none

/-- A non-blocking send, `select { case ch <- err: default: }`: the send case is taken
when it can proceed, the empty `default` case otherwise. -/
def ErrChan.offer (ch : ErrChan) (err : GoError) : ErrChan :=
  match ch.send err with
  | some ch1 => ch1
  | none => ch

/-- Modelled from the spec: `utils.AddToErrorChan`, which is not among the sources.  The
error channel is "bounded, non-blocking", its sender "drops on full". -/
def AddToErrorChan (ch : ErrChan) (err : GoError) : ErrChan :=
  ch.offer err

namespace DcpDriver

/-- Append one event to the trace. -/
def record (d : DcpDriver) (e : Event) : DcpDriver :=
  { d with trace := d.trace ++ [e] }

/-- The client `d.clients[i]`; `none` for an index out of range or a nil pointer. -/
def client (d : DcpDriver) (i : Nat) : Option DcpClient :=
  (d.clients[i]?).join

/-- Write through the pointer `d.clients[i]`. -/
def setClient (d : DcpDriver) (i : Nat) (c : DcpClient) : DcpDriver :=
  { d with clients := d.clients.set i (some c) }

/-- `DcpDriver.getState`. -/
def getState (d : DcpDriver) : DriverState :=
  d.state

/-- `DcpDriver.setState`. -/
def setState (d : DcpDriver) (state : DriverState) : DcpDriver :=
  { d with state := state }

/-- Modelled from the spec: `DcpDriver.getVbState`, called by `DcpClient.go` and not
declared among the sources: "VB state is read/written only through the driver's
lock-protected map". -/
def getVbState (d : DcpDriver) (vbno : Nat) : VBState :=
  d.vbStates vbno

/-- Modelled from the spec: `DcpDriver.setVbState`, see `getVbState`. -/
def setVbState (d : DcpDriver) (vbno : Nat) (s : VBState) : DcpDriver :=
  { d with vbStates := fun v => if v = vbno then s else d.vbStates v }

/-- `DcpDriver.reportError`: the error is handed to `utils.AddToErrorChan`. -/
def reportError (d : DcpDriver) (err : GoError) : DcpDriver :=
  { d with errChan := AddToErrorChan d.errChan err, trace := d.trace ++ [Event.errOffer err] }

end DcpDriver

namespace DcpClient

/-- `DcpClient.reportError`: a `select` with one send case on `c.dcpDriver.errChan` and a
`default` case. -/
def reportError (d : DcpDriver) (err : GoError) : DcpDriver :=
  { d with errChan := d.errChan.offer err, trace := d.trace ++ [Event.errOffer err] }

/-- `DcpClient.closeStream`: with a bucket, one `CloseStream` request whose error is
returned; without a bucket, `nil`. -/
def closeStream (o : Outcomes) (i vbno : Nat) (d : DcpDriver) : Option (DcpDriver × GoError) :=
  match d.client i with
  | none => none
  | some c =>
    if c.bucketOpen then some (d.record (Event.closeStream i vbno), o.closeStream i vbno)
    else some (d, none)

/-- `DcpClient.closeStreamIfCompleted`. -/
def closeStreamIfCompleted (o : Outcomes) (i vbno : Nat) (d : DcpDriver) : Option DcpDriver :=
  if d.getVbState vbno = VBState.VBStateCompleted then
    match closeStream o i vbno d with
    | none => none
    | some (d1, none) => some (d1.setVbState vbno VBState.VBStateStreamClosed)
    | some (d1, some _) => some d1
  else some d

/-- `DcpClient.closeStreamIfOpen`. -/
def closeStreamIfOpen (o : Outcomes) (i vbno : Nat) (d : DcpDriver) : Option DcpDriver :=
  if d.getVbState vbno ≠ VBState.VBStateStreamClosed then
    match closeStream o i vbno d with
    | none => none
    | some (d1, none) => some (d1.setVbState vbno VBState.VBStateStreamClosed)
    | some (d1, some _) => some d1
  else some d

/-- The loop of `DcpClient.Stop` over `c.dcpHandlers`: `Stop` of every non-nil handler. -/
def stopHandlers (i : Nat) (hs : List (Option DcpHandler)) (d : DcpDriver) : DcpDriver :=
  { d with trace := d.trace ++ (hs.filterMap id).map (fun h => Event.handlerStop i h.index) }

/-- `DcpClient.Stop`.  Closing `finChan` a second time panics; the deferred
`c.waitGroup.Done()` panics on a counter that is already zero. -/
def Stop (o : Outcomes) (i : Nat) (d : DcpDriver) : Option (DcpDriver × GoError) :=
  match d.client i with
  | none => none
  | some c =>
    let d0 := d.record (Event.clientStop i)
    if c.finClosed then none
    else
      let d1 := (d0.setClient i { c with finClosed := true }).record (Event.finClose i)
      let d2 := d1.setClient i
        { c with finClosed := true, numberClosing := c.vbList.length % 2 ^ 32 }
      match forEach (closeStreamIfOpen o i) c.vbList d2 with
      | none => none
      | some d3 =>
        let d4 := stopHandlers i c.dcpHandlers d3
        if d4.childWaitGroup = 0 then none
        else some (({ d4 with childWaitGroup := d4.childWaitGroup - 1 }).record
          (Event.clientStopped i), none)

end DcpClient

namespace DcpDriver

/-- `DcpDriver.Stop`.  A nil client makes the loop panic, `childWaitGroup.Wait()` does not
return while the counter is not zero; the errors of the clients and of the checkpoint
manager are only printed.  The deferred `d.waitGroup.Done()`, registered after the guard,
runs when the body is through and panics on a counter that is already zero. -/
def Stop (o : Outcomes) (d : DcpDriver) : Option (DcpDriver × GoError) :=
  let d0 := d.record Event.driverStop
  if d0.state ≠ DriverState.DriverStateStarted then some (d0, none)
  else
    match forEach (fun i s => (DcpClient.Stop o i s).map Prod.fst)
        (List.range d0.clients.length) d0 with
    | none => none
    | some d1 =>
      if d1.childWaitGroup ≠ 0 then none
      else
        let d2 := d1.record Event.checkpointManagerStop
        let d3 := { d2 with state := DriverState.DriverStateStopped }
        if d3.waitGroup = 0 then none
        else some (({ d3 with waitGroup := d3.waitGroup - 1 }).record Event.waitGroupDone, none)

/-- `DcpDriver.handleVbucketCompletion`. -/
def handleVbucketCompletion (env : Env) (o : Outcomes) (vbno : Nat) (err : GoError)
    (d : DcpDriver) : Option DcpDriver :=
  match err with
  | some e => some (d.reportError (some e))
  | none =>
    let d1 := { d with vbState := d.vbState.insert vbno true }
    let numOfCompletedVb := d1.vbState.keys.length
    if numOfCompletedVb = env.NumberOfVbuckets then (Stop o d1).map Prod.fst
    else some d1

end DcpDriver

/-- `NewDcpClient`: the name is `fmt.Sprintf("%v_%v", dcpDriver.Name, i)`; the other fields
have their zero values. -/
def NewDcpClient (d : DcpDriver) (i : Nat) (vbList : List Nat) : DcpClient :=
  { Name := d.Name ++ "_" ++ toString i
    vbList := vbList
    clusterSet := false
    bucketOpen := false
    dcpHandlers := List.replicate d.numberOfWorkers none
    vbHandlerMap := ∅
    numberClosing := 0
    activeStreams := 0
    finClosed := false }

namespace DcpClient

/-- `DcpClient.initializeCluster`. -/
def initializeCluster (o : Outcomes) (i : Nat) (d : DcpDriver) : Option (DcpDriver × GoError) :=
  match d.client i with
  | none => none
  | some c =>
    match o.connect i with
    | some e => some (d, some e)
    | none =>
      match (if d.rbacSupported then o.authenticate i else none) with
      | some e => some (d, some e)
      | none => some (d.setClient i { c with clusterSet := true }, none)

/-- `DcpClient.initializeBucket`: `c.bucket` is assigned whatever `OpenStreamingBucket`
returned, a nil bucket when it returned an error. -/
def initializeBucket (o : Outcomes) (i : Nat) (d : DcpDriver) : Option (DcpDriver × GoError) :=
  match d.client i with
  | none => none
  | some c =>
    if c.clusterSet then
      some (d.setClient i { c with bucketOpen := (o.openStreamingBucket i).isNone },
        o.openStreamingBucket i)
    else none

/-- One round of the loop of `DcpClient.initializeDcpHandlers`, for the handler index `j`.
The slice expressions panic on a missing pair of `loadDistribution`, on `high < low`, and
on an index beyond `c.vbList`; the copied `vbList` holds `c.vbList[low], ..,
c.vbList[high-1]`, the keys the last loop of the round maps to the handler. -/
def initializeDcpHandler (o : Outcomes) (i : Nat) (loadDistribution : List (Nat × Nat))
    (j : Nat) (d : DcpDriver) : Option (DcpDriver × GoError) :=
  match d.client i, loadDistribution[j]? with
  | none, _ => none
  | some _, none => none
  | some c, some (lowIndex, highIndex) =>
    if highIndex < lowIndex then none
    else if lowIndex < highIndex ∧ c.vbList.length < highIndex then none
    else
      let vbList := (c.vbList.drop lowIndex).take (highIndex - lowIndex)
      match o.newDcpHandler i j with
      | some e => some (d, some e)
      | none =>
        let d1 := d.record (Event.handlerStart i j)
        match o.handlerStart i j with
        | some e => some (d1, some e)
        | none =>
          if c.dcpHandlers.length ≤ j then none
          else
            some (d1.setClient i
              { c with
                dcpHandlers := c.dcpHandlers.set j (some { index := j, vbList := vbList })
                vbHandlerMap := vbList.foldl (fun m vbno => m.insert vbno j) c.vbHandlerMap },
              none)

/-- `DcpClient.initializeDcpHandlers`. -/
def initializeDcpHandlers (env : Env) (o : Outcomes) (i : Nat) (d : DcpDriver) :
    Option (DcpDriver × GoError) :=
  match d.client i with
  | none => none
  | some c =>
    forErr (initializeDcpHandler o i (env.BalanceLoad d.numberOfWorkers c.vbList.length))
      (List.range d.numberOfWorkers) d

/-- The method `initialize` of `DcpClient` (the name is reserved in Lean). -/
def initializeClient (env : Env) (o : Outcomes) (i : Nat) (d : DcpDriver) :
    Option (DcpDriver × GoError) :=
  match initializeCluster o i d with
  | none => none
  | some (d1, some e) => some (d1, some e)
  | some (d1, none) =>
    match initializeBucket o i d1 with
    | none => none
    | some (d2, some e) => some (d2, some e)
    | some (d2, none) => initializeDcpHandlers env o i d2

/-- `DcpClient.Start`: after `initialize` succeeded, `go c.handleDcpStreams()`. -/
def Start (env : Env) (o : Outcomes) (i : Nat) (d : DcpDriver) : Option (DcpDriver × GoError) :=
  match initializeClient env o i (d.record (Event.clientStart i)) with
  | none => none
  | some (d1, some e) => some (d1, some e)
  | some (d1, none) => some (d1.record (Event.go i Task.handleDcpStreams), none)

end DcpClient

/-- `NewDcpDriver`, with the arguments the operations below depend on; `waitGroup` is the
counter of the wait group passed in, at the time.  The maps are empty, the slice of clients
and the child wait group are nil, the state is `DriverStateNew`; every vbucket starts in
the state `Pending` of the spec. -/
def NewDcpDriver (name : String) (numberOfClients numberOfWorkers : Nat) (errChan : ErrChan)
    (waitGroup : Nat) (completeBySeqno : Bool) : DcpDriver :=
  { Name := name
    rbacSupported := false
    bucketPassword := ""
    errChan := errChan
    waitGroup := waitGroup
    childWaitGroup := 0
    numberOfClients := numberOfClients
    numberOfWorkers := numberOfWorkers
    clients := []
    vbState := ∅
    state := DriverState.DriverStateNew
    completeBySeqno := completeBySeqno
    vbStates := fun _ => VBState.VBStatePending
    trace := [] }

namespace DcpDriver

/-- `DcpDriver.populateCredentials`: both fields are assigned also when the lookup
returns an error. -/
def populateCredentials (o : Outcomes) (d : DcpDriver) : DcpDriver × GoError :=
  ({ d with
      rbacSupported := o.getRBACSupportedAndBucketPassword.1
      bucketPassword := o.getRBACSupportedAndBucketPassword.2.1 },
    o.getRBACSupportedAndBucketPassword.2.2)

/-- `DcpDriver.initializeAndStartCheckpointManager`. -/
def initializeAndStartCheckpointManager (o : Outcomes) (d : DcpDriver) : DcpDriver × GoError :=
  let d1 := d.record Event.checkpointManagerInitialize
  match o.cmInitialize with
  | some e => (d1, some e)
  | none => (d1.record Event.checkpointManagerStart, o.cmStart)

/-- One round of the loop of `DcpDriver.initializeDcpClients`, for the client index `i`:
`vbList` holds `uint16(j)` for `lowIndex <= j < highIndex`. -/
def initializeDcpClient (env : Env) (o : Outcomes) (loadDistribution : List (Nat × Nat))
    (i : Nat) (d : DcpDriver) : Option (DcpDriver × GoError) :=
  match loadDistribution[i]? with
  | none => none
  | some (lowIndex, highIndex) =>
    if highIndex < lowIndex then none
    else if d.clients.length ≤ i then none
    else
      let vbList := (List.range' lowIndex (highIndex - lowIndex)).map (fun j => j % 65536)
      let d1 := { d with childWaitGroup := d.childWaitGroup + 1 }
      let d2 := { d1 with clients := d1.clients.set i (some (NewDcpClient d1 i vbList)) }
      DcpClient.Start env o i d2

/-- `DcpDriver.initializeDcpClients`. -/
def initializeDcpClients (env : Env) (o : Outcomes) (d : DcpDriver) :
    Option (DcpDriver × GoError) :=
  let loadDistribution := env.BalanceLoad d.numberOfClients env.NumberOfVbuckets
  let d1 := { d with clients := List.replicate d.numberOfClients none, childWaitGroup := 0 }
  forErr (initializeDcpClient env o loadDistribution) (List.range d.numberOfClients) d1

/-- `DcpDriver.Start`. -/
def Start (env : Env) (o : Outcomes) (d : DcpDriver) : Option (DcpDriver × GoError) :=
  match populateCredentials o d with
  | (d1, some e) => some (d1, some e)
  | (d1, none) =>
    match initializeAndStartCheckpointManager o d1 with
    | (d2, some e) => some (d2, some e)
    | (d2, none) =>
      match initializeDcpClients env o d2 with
      | none => none
      | some (d3, some e) => some (d3, some e)
      | some (d3, none) => some (d3.setState DriverState.DriverStateStarted, none)

end DcpDriver

/-- Which case of the `select` at the head of `handleDcpStreams` is taken. -/
inductive Ready where
  | startVbtsDone
  | fin
  deriving DecidableEq, Repr

namespace DcpClient

/-- One round of the loop of `DcpClient.openDcpStreams`, for `vbno`.  The end seqno is
`math.MaxUint64`; the handler passed is `c.vbHandlerMap[vbno]`, nil for a missing key.
The completion is reported through `DcpDriver.handleVbucketCompletion` of `DcpDriver.go`,
which takes no reason text.  `c.bucket.IoRouter()` panics on a nil bucket. -/
def openDcpStream (env : Env) (o : Outcomes) (i vbno : Nat) (d : DcpDriver) :
    Option (DcpDriver × GoError) :=
  let vbts := o.getStartVBTS vbno
  if vbts.NoNeedToStartDcpStream then
    (DcpDriver.handleVbucketCompletion env o vbno none d).map (fun d1 => (d1, none))
  else
    match d.client i with
    | none => none
    | some c =>
      let snapshotStartSeqno := vbts.Seqno
      let snapshotEndSeqno := vbts.Seqno
      if c.bucketOpen then
        some (d.record (Event.openStream i vbno vbts.Vbuuid vbts.Seqno (2 ^ 64 - 1)
          snapshotStartSeqno snapshotEndSeqno (c.vbHandlerMap.lookup vbno)), o.openStream i vbno)
      else none

/-- `DcpClient.openDcpStreams`: the loop runs over a shuffled copy of `c.vbList`. -/
def openDcpStreams (env : Env) (o : Outcomes) (i : Nat) (d : DcpDriver) :
    Option (DcpDriver × GoError) :=
  match d.client i with
  | none => none
  | some c => forErr (openDcpStream env o i) (o.shuffleVbList c.vbList) d

/-- `DcpClient.handleDcpStreams`, given the case its first `select` takes. -/
def handleDcpStreams (env : Env) (o : Outcomes) (ready : Ready) (i : Nat) (d : DcpDriver) :
    Option DcpDriver :=
  match ready with
  | Ready.fin => some d
  | Ready.startVbtsDone =>
    match d.client i, openDcpStreams env o i d with
    | none, _ => none
    | some _, none => none
    | some c, some (d1, some e) => some (reportError d1 (some (c.Name ++ ": " ++ e)))
    | some _, some (d1, none) =>
      let d2 := if d1.completeBySeqno then d1.record (Event.go i Task.closeCompletedStreams) else d1
      some (d2.record (Event.go i Task.reportActiveStreams))

/-- `DcpClient.openStreamFunc`, the callback of `OpenStream`. -/
def openStreamFunc (i : Nat) (err : GoError) (d : DcpDriver) : Option DcpDriver :=
  match d.client i with
  | none => none
  | some c =>
    match err with
    | some e => some (reportError d (some (c.Name ++ " openStreamCallback reported err: " ++ e)))
    | none => some (d.setClient i { c with activeStreams := (c.activeStreams + 1) % 2 ^ 32 })

end DcpClient

/-- The calls by which a run of `DcpDriver.Stop` is observed from outside: the clients
being stopped, the checkpoint manager being stopped, `Done` on the parent wait group. -/
def Event.isLifecycle : Event → Bool
  | Event.clientStop _ => true
  | Event.clientStopped _ => true
  | Event.checkpointManagerStop => true
  | Event.waitGroupDone => true
  | _ => false

/-- The lifecycle events of stopping the clients `k, .., k + m - 1` one after the other. -/
def clientStopEvents (k m : Nat) : List Event :=
  (List.range' k m).flatMap (fun j => [Event.clientStop j, Event.clientStopped j])

/-- The condition under which `DcpDriver.Stop` runs to its end on a started driver, as a
successful `Start` leaves a driver whose parent has counted it: no client pointer is nil, no
client has closed its `finChan` yet, the child wait group counts one `Add(1)` per client,
and the parent wait group has a count left for the `Done` of `Stop`. -/
def StopReady (d : DcpDriver) : Prop :=
  d.clients.all (fun oc => match oc with
    | some c => !c.finClosed
    | none => false) = true ∧ d.childWaitGroup = d.clients.length ∧ 0 < d.waitGroup

instance (d : DcpDriver) : Decidable (StopReady d) :=
  inferInstanceAs (Decidable (_ ∧ _ ∧ _))

/-- Collaborators that all succeed: no error anywhere, every vbucket needs a stream that
starts at seqno 0, the shuffle is the identity. -/
def allSucceed : Outcomes :=
  { getRBACSupportedAndBucketPassword := (true, "", none)
    cmInitialize := none
    cmStart := none
    cmStop := none
    connect := fun _ => none
    authenticate := fun _ => none
    openStreamingBucket := fun _ => none
    newDcpHandler := fun _ _ => none
    handlerStart := fun _ _ => none
    getStartVBTS := fun _ => { NoNeedToStartDcpStream := false, Vbuuid := 0, Seqno := 0 }
    shuffleVbList := fun l => l
    openStream := fun _ _ => none
    closeStream := fun _ _ => none }

/-- Modelled from the spec: `utils.BalanceLoad`, which is not among the sources, as a
"balanced-load split: consecutive ranges, sizes differing by at most one". -/
def balanceLoad (n m : Nat) : List (Nat × Nat) :=
  (List.range n).map (fun i => (i * m / n, (i + 1) * m / n))

/-- An environment with `v` vbuckets and the split `balanceLoad`. -/
def sampleEnv (v : Nat) : Env :=
  { NumberOfVbuckets := v, BalanceLoad := balanceLoad }

/-- Collaborators of which the stopping ones fail: every `CloseStream` request and the
`Stop` of the checkpoint manager return an error. -/
def stopFails : Outcomes :=
  { allSucceed with
    cmStop := some "cannot persist"
    closeStream := fun _ _ => some "close failed" }

/-- A fresh driver with two clients of two handlers each, an error channel of capacity
one, and a parent wait group that counts it once. -/
def freshSample : DcpDriver :=
  NewDcpDriver "d" 2 2 { cap := 1, buf := [] } 1 true

/-- The driver `freshSample` after a successful `Start` over four vbuckets. -/
def startedSample : DcpDriver :=
  match DcpDriver.Start (sampleEnv 4) allSucceed freshSample with
  | some (d, _) => d
  | none => freshSample

/-- A fresh driver with one client of one handler, an error channel of capacity one, and a
parent wait group that counts it once. -/
def freshSingle : DcpDriver :=
  NewDcpDriver "d" 1 1 { cap := 1, buf := [] } 1 true

/-- The driver `freshSingle` after a successful `Start` over a single vbucket. -/
def startedSingle : DcpDriver :=
  match DcpDriver.Start (sampleEnv 1) allSucceed freshSingle with
  | some (d, _) => d
  | none => freshSingle

/-- The calls a user of the driver can make on it. -/
inductive Call where
  | Start
  | Stop
  | handleVbucketCompletion (vbno : Nat) (err : GoError)
  | reportError (err : GoError)
  deriving DecidableEq, Repr

/-- One call on the driver, with what the collaborators answer during it. -/
def DcpDriver.call (env : Env) (o : Outcomes) : Call → DcpDriver → Option DcpDriver
  | Call.Start, d => (DcpDriver.Start env o d).map Prod.fst
  | Call.Stop, d => (DcpDriver.Stop o d).map Prod.fst
  | Call.handleVbucketCompletion vbno err, d => DcpDriver.handleVbucketCompletion env o vbno err d
  | Call.reportError err, d => some (d.reportError err)

/-- A sequence of calls on the driver, one after the other. -/
def DcpDriver.run (env : Env) : List (Outcomes × Call) → DcpDriver → Option DcpDriver
  | [], d => some d
  | (o, c) :: cs, d =>
    match DcpDriver.call env o c d with
    | none => none
    | some d1 => DcpDriver.run env cs d1

/-- The driver `startedSingle` after `Stop`. -/
def stoppedSingle : DcpDriver :=
  match DcpDriver.Stop allSucceed startedSingle with
  | some (d, _) => d
  | none => startedSingle

/-- The calls made while stopping: by `DcpDriver.Stop`, by `DcpClient.Stop` and by the
closing of streams. -/
def Event.isStopping : Event → Bool
  | Event.driverStop => true
  | Event.waitGroupDone => true
  | Event.checkpointManagerStop => true
  | Event.clientStop _ => true
  | Event.clientStopped _ => true
  | Event.finClose _ => true
  | Event.closeStream _ _ => true
  | Event.handlerStop _ _ => true
  | _ => false

/-- Two values of a client that differ at most in `finClosed` and `numberClosing`, the two
fields `DcpClient.Stop` writes. -/
def DcpClient.SameStreams (c c1 : DcpClient) : Prop :=
  c1.Name = c.Name ∧ c1.vbList = c.vbList ∧ c1.clusterSet = c.clusterSet ∧
    c1.bucketOpen = c.bucketOpen ∧ c1.dcpHandlers = c.dcpHandlers ∧
    c1.vbHandlerMap = c.vbHandlerMap ∧ c1.activeStreams = c.activeStreams

/-- The relation between a driver and what stopping makes of it: the error channel, the
`vbState` map and the configuration are the same, a vbucket state is the same or has
become `StreamClosed`, every client is still there with the same streams, and the calls
made are calls of stopping. -/
def DcpDriver.StopsTo (d d1 : DcpDriver) : Prop :=
  d1.errChan = d.errChan ∧ d1.vbState = d.vbState ∧
    d1.completeBySeqno = d.completeBySeqno ∧
    (∀ v, d1.vbStates v = d.vbStates v ∨ d1.vbStates v = VBState.VBStateStreamClosed) ∧
    (∀ j c, d.client j = some c → ∃ c1, d1.client j = some c1 ∧ c.SameStreams c1) ∧
    ∃ t, d1.trace = d.trace ++ t ∧ ∀ e ∈ t, e.isStopping = true

/-- The vbucket of an `OpenStream` request; `none` for every other call. -/
def Event.openedVb : Event → Option Nat
  | Event.openStream _ vbno _ _ _ _ _ _ => some vbno
  | _ => none

/-- Whether the start cursor of a vbucket asks for a stream. -/
def Outcomes.needsStream (o : Outcomes) (vbno : Nat) : Bool :=
  !(o.getStartVBTS vbno).NoNeedToStartDcpStream

/-- The relation between a driver and what the opening of streams makes of it, completions
and a triggered `Stop` included: the error channel and the configuration are the same, a
vbucket state is the same or has become `StreamClosed`, every client is still there with
the same streams. -/
def DcpDriver.OpensTo (d d1 : DcpDriver) : Prop :=
  d1.errChan = d.errChan ∧ d1.completeBySeqno = d.completeBySeqno ∧
    (∀ v, d1.vbStates v = d.vbStates v ∨ d1.vbStates v = VBState.VBStateStreamClosed) ∧
    (∀ j c, d.client j = some c → ∃ c1, d1.client j = some c1 ∧ c.SameStreams c1)

/-- The condition under which the loop of `openDcpStreams` of client `i` runs on: the
client has a bucket, and a `Stop` that a completion may trigger can run to its end. -/
def DcpDriver.CanOpen (i : Nat) (d : DcpDriver) : Prop :=
  (d.state = DriverState.DriverStateStarted → StopReady d) ∧
    ∃ c, d.client i = some c ∧ c.bucketOpen = true

/-- Collaborators of which the transport refuses the `OpenStream` request for the vbucket
`v` with the error `no stream`; all else succeeds. -/
def openFails (v : Nat) : Outcomes :=
  { allSucceed with openStream := fun _ vbno => if vbno = v then some "no stream" else none }

/-- Client 0 of the driver `startedSample`; its `vbList` is `[0, 1]`. -/
def sampleClient : DcpClient :=
  match startedSample.client 0 with
  | some c => c
  | none => NewDcpClient startedSample 0 []

/-- The driver `startedSingle` with its vbucket 0 in the state `Failed`. -/
def failedSingle : DcpDriver :=
  startedSingle.setVbState 0 VBState.VBStateFailed

/-- The single client of the driver `startedSingle`; its `vbList` is `[0]`. -/
def singleClient : DcpClient :=
  match startedSingle.client 0 with
  | some c => c
  | none => NewDcpClient startedSingle 0 []

/-- The elements of `l` at the positions `p.1 <= j < p.2`, as the copying loops of
`initializeDcpClients` and `initializeDcpHandlers` collect them. -/
def sliceOf (l : List Nat) (p : Nat × Nat) : List Nat :=
  (l.drop p.1).take (p.2 - p.1)

/-- Whether the pairs are consecutive half-open ranges `[low, high)` that start at `a`
and end at `m`. -/
def isSplitFrom : Nat → List (Nat × Nat) → Nat → Bool
  | a, [], m => decide (a = m)
  | a, p :: l, m => decide (p.1 = a) && decide (p.1 ≤ p.2) && isSplitFrom p.2 l m

/-- The assumption on `utils.BalanceLoad(n, m)`: it returns `n` consecutive half-open
ranges `[low_i, high_i)` that partition `[0, m)`. -/
def IsSplit (l : List (Nat × Nat)) (n m : Nat) : Prop :=
  l.length = n ∧ isSplitFrom 0 l m = true

instance (l : List (Nat × Nat)) (n m : Nat) : Decidable (IsSplit l n m) :=
  inferInstanceAs (Decidable (_ ∧ _))

/-- The handlers `0, .., k - 1` of a client are assigned: handler `j` is in place with the
slice of the client's `vbList` that the pair `ld[j]` delimits, and `vbHandlerMap` maps the
vbuckets of that slice to `j`. -/
def DcpClient.HandlersAssigned (ld : List (Nat × Nat)) (k : Nat) (c : DcpClient) : Prop :=
  (∀ (j : Nat) (p : Nat × Nat), j < k → ld[j]? = some p →
      c.dcpHandlers[j]? = some (some { index := j, vbList := sliceOf c.vbList p })) ∧
    (∀ (j : Nat) (p : Nat × Nat) (v : Nat), j < k → ld[j]? = some p →
      v ∈ sliceOf c.vbList p → c.vbHandlerMap.lookup v = some j)

/-- A client is assigned: its `vbList` is the slice of `[0, .., V - 1]` that the pair `p`
delimits, it has `numberOfWorkers` handler slots, and all its handlers are assigned. -/
def DcpClient.Assigned (env : Env) (numberOfWorkers : Nat) (p : Nat × Nat) (c : DcpClient) :
    Prop :=
  c.vbList = sliceOf (List.range env.NumberOfVbuckets) p ∧
    c.dcpHandlers.length = numberOfWorkers ∧
    c.HandlersAssigned (env.BalanceLoad numberOfWorkers c.vbList.length) numberOfWorkers

/-- The collaborators let every one of the `n` clients, with `m` handlers each, start:
the cluster connects (and authenticates where needed), the bucket opens, and every handler
is constructed and started. -/
def Outcomes.ClientsStart (o : Outcomes) (rbacSupported : Bool) (n m : Nat) : Prop :=
  ∀ i, i < n →
    o.connect i = none ∧ (rbacSupported = true → o.authenticate i = none) ∧
      o.openStreamingBucket i = none ∧
      ∀ j, j < m → o.newDcpHandler i j = none ∧ o.handlerStart i j = none

/-- The statement `atomic.AddUint32(&c.numberClosing, ^uint32(0))` of
`DcpClient.closeStreamFunc`: one is taken off `numberClosing` modulo `2^32`; the value is
the new state with the new counter, `streamsLeft`. -/
def DcpClient.addNumberClosing (i : Nat) (d : DcpDriver) : Option (DcpDriver × Nat) :=
  match d.client i with
  | none => none
  | some c =>
    let streamsLeft := (c.numberClosing + (2 ^ 32 - 1)) % 2 ^ 32
    some (d.setClient i { c with numberClosing := streamsLeft }, streamsLeft)

/-- `DcpClient.closeStreamFunc`, the callback of `CloseStream`; the error is not looked at.
With `streamsLeft == 0` the callback sends on `closeStreamsDoneCh`.  That channel is
unbuffered and nothing receives from it (the receive in `DcpClient.Stop` is commented
out), so the send blocks forever and the callback does not return. -/
def DcpClient.closeStreamFunc (i : Nat) (_err : GoError) (d : DcpDriver) : Option DcpDriver :=
  match DcpClient.addNumberClosing i d with
  | none => none
  | some (d1, streamsLeft) => if streamsLeft = 0 then none else some d1

/-- The vbucket of a `CloseStream` request; `none` for every other call. -/
def Event.closedVb : Event → Option Nat
  | Event.closeStream _ vbno => some vbno
  | _ => none

/-- The driver `startedSample` with its vbucket 1 in the state `StreamClosed`: the stream
of vbucket 1 has been closed before, vbucket 0 of the same client is still `Pending`. -/
def oneClosedSample : DcpDriver :=
  startedSample.setVbState 1 VBState.VBStateStreamClosed

/-- The `OpenStream` request of one round of `openDcpStreams` (see `openDcpStream`), for
the vbucket `vbno` of client `i` whose `vbHandlerMap` is `m`. -/
def DcpClient.openRequest (o : Outcomes) (i : Nat) (m : VbMap Nat) (vbno : Nat) : Event :=
  Event.openStream i vbno (o.getStartVBTS vbno).Vbuuid (o.getStartVBTS vbno).Seqno (2 ^ 64 - 1)
    (o.getStartVBTS vbno).Seqno (o.getStartVBTS vbno).Seqno (m.lookup vbno)

/-- Collaborators for which the start cursor of the vbucket `v` is marked
`NoNeedToStartDcpStream`; every other vbucket needs a stream from seqno 5 of the vbuuid 7,
and all else succeeds. -/
def noStreamNeeded (v : Nat) : Outcomes :=
  { allSucceed with
    getStartVBTS := fun vbno =>
      { NoNeedToStartDcpStream := decide (vbno = v), Vbuuid := 7, Seqno := 5 } }

/-- The driver `startedSingle` with its vbucket 0 in the state `Completed`. -/
def completedSingle : DcpDriver :=
  startedSingle.setVbState 0 VBState.VBStateCompleted

/-- A sequence of `handleVbucketCompletion(vbno, err)` calls, each with what the
collaborators answer during it, as calls on the driver. -/
def completionCalls (calls : List (Outcomes × Nat × GoError)) : List (Outcomes × Call) :=
  calls.map (fun x => (x.1, Call.handleVbucketCompletion x.2.1 x.2.2))

/-- The vbuckets that the calls of a sequence report complete with a nil error, one entry
per such call. -/
def reportedComplete (calls : List (Outcomes × Nat × GoError)) : List Nat :=
  (calls.filter (fun x => x.2.2.isNone)).map (fun x => x.2.1)

/-- How many entries of `vbList` are vbuckets in the state `StreamClosed`. -/
def closedCount (d : DcpDriver) (vbList : List Nat) : Nat :=
  (vbList.filter (fun v => decide (d.getVbState v = VBState.VBStateStreamClosed))).length

/-- The relation between a driver and what the initialization of client `i` makes of it:
the other clients are untouched, client `i` is still there with its `finChan` as it was,
and the calls made are `Start` of handlers of client `i`. -/
def DcpDriver.InitializesTo (i : Nat) (d d1 : DcpDriver) : Prop :=
  (∀ j, j ≠ i → d1.client j = d.client j) ∧
    (∀ c, d.client i = some c → ∃ c1, d1.client i = some c1 ∧ c1.finClosed = c.finClosed) ∧
    ∃ t, d1.trace = d.trace ++ t ∧ ∀ ev ∈ t, ∃ j, ev = Event.handlerStart i j

/-- The first `k` rounds of the loop of `DcpDriver.initializeDcpClients`, from its start:
with `k = d.numberOfClients` this is `initializeDcpClients`. -/
def DcpDriver.startClients (env : Env) (o : Outcomes) (k : Nat) (d : DcpDriver) :
    Option (DcpDriver × GoError) :=
  let loadDistribution := env.BalanceLoad d.numberOfClients env.NumberOfVbuckets
  let d1 := { d with clients := List.replicate d.numberOfClients none, childWaitGroup := 0 }
  forErr (DcpDriver.initializeDcpClient env o loadDistribution) (List.range k) d1

/-- Collaborators of which the cluster refuses the connection of client `i` with the error
`refused`; all else succeeds. -/
def connectFails (i : Nat) : Outcomes :=
  { allSucceed with connect := fun j => if j = i then some "refused" else none }

/-- The driver `freshSample` in `Start` over four vbuckets with the collaborators
`connectFails 1`, after the round of client 0 of `initializeDcpClients`. -/
def firstStartedSample : DcpDriver :=
  match DcpDriver.startClients (sampleEnv 4) (connectFails 1) 1
      (DcpDriver.initializeAndStartCheckpointManager (connectFails 1)
        (DcpDriver.populateCredentials (connectFails 1) freshSample).1).1 with
  | some (d, _) => d
  | none => freshSample

/-- The driver `freshSample` after `Start` over four vbuckets with the collaborators
`connectFails 1`: client 0 has started, `Start` of client 1 has failed. -/
def secondFailedSample : DcpDriver :=
  match DcpDriver.Start (sampleEnv 4) (connectFails 1) freshSample with
  | some (d, _) => d
  | none => freshSample

/-- Collaborators of which the checkpoint manager fails to initialize with the error
`no checkpoints`; all else succeeds. -/
def checkpointFails : Outcomes :=
  { allSucceed with cmInitialize := some "no checkpoints" }

/-- The driver `freshSample` after a successful `Start` over a single vbucket: client 0 has
an empty `vbList`, client 1 has the vbucket 0. -/
def sparseSample : DcpDriver :=
  match DcpDriver.Start (sampleEnv 1) allSucceed freshSample with
  | some (d, _) => d
  | none => freshSample

/-- Collaborators for which the `OpenStream` request for vbucket 0 fails with the error
`no stream` and the start cursor of vbucket 1 is marked `NoNeedToStartDcpStream`; every
other vbucket needs a stream from seqno 5 of the vbuuid 7, and all else succeeds. -/
def openFailsThenNoNeed : Outcomes :=
  { noStreamNeeded 1 with
    openStream := fun _ vbno => if vbno = 0 then some "no stream" else none }

/-- A fresh driver with three clients of one handler each, an error channel of capacity
one, and a parent wait group that counts it once. -/
def freshTriple : DcpDriver :=
  NewDcpDriver "d" 3 1 { cap := 1, buf := [] } 1 true

/-! ## Lemmas -/

theorem closeStream_eq (o : Outcomes) (i v : Nat) (d : DcpDriver) (c : DcpClient)
    (hc : d.client i = some c) :
    DcpClient.closeStream o i v d =
      if c.bucketOpen then some (d.record (Event.closeStream i v), o.closeStream i v)
      else some (d, none) := by
  unfold DcpClient.closeStream
  rw [hc]

theorem closeStreamIfOpen_frame (o : Outcomes) (i v : Nat) (d : DcpDriver) (c : DcpClient)
    (hc : d.client i = some c) :
    ∃ d1 t, DcpClient.closeStreamIfOpen o i v d = some d1 ∧
      d1 = { d with vbStates := d1.vbStates, trace := d.trace ++ t } ∧
      ∀ e ∈ t, e = Event.closeStream i v := by
  unfold DcpClient.closeStreamIfOpen
  rw [closeStream_eq o i v d c hc]
  by_cases hs : d.getVbState v ≠ VBState.VBStateStreamClosed
  · rw [if_pos hs]
    by_cases hb : c.bucketOpen = true
    · rw [if_pos hb]
      cases ho : o.closeStream i v with
      | none =>
        exact ⟨_, [Event.closeStream i v], rfl, rfl, by simp⟩
      | some e =>
        exact ⟨_, [Event.closeStream i v], rfl, rfl, by simp⟩
    · rw [if_neg hb]
      exact ⟨_, [], rfl, by simp [DcpDriver.setVbState], by simp⟩
  · rw [if_neg hs]
    exact ⟨_, [], rfl, by simp, by simp⟩

theorem closeStreams_frame (o : Outcomes) (i : Nat) (vs : List Nat) :
    ∀ (d : DcpDriver) (c : DcpClient), d.client i = some c →
    ∃ d1 t, forEach (DcpClient.closeStreamIfOpen o i) vs d = some d1 ∧
      d1 = { d with vbStates := d1.vbStates, trace := d.trace ++ t } ∧
      ∀ e ∈ t, ∃ v, e = Event.closeStream i v := by
  induction vs with
  | nil =>
    intro d c _
    exact ⟨d, [], rfl, by simp, by simp⟩
  | cons v vs ih =>
    intro d c hc
    obtain ⟨d1, t1, h1, hd1, ht1⟩ := closeStreamIfOpen_frame o i v d c hc
    have hc1 : d1.client i = some c := by rw [hd1]; exact hc
    obtain ⟨d2, t2, h2, hd2, ht2⟩ := ih d1 c hc1
    refine ⟨d2, t1 ++ t2, ?_, ?_, ?_⟩
    · simp only [forEach, h1, h2]
    · rw [hd2]
      conv_lhs => rw [hd1]
      simp [List.append_assoc]
    · intro e he
      rcases List.mem_append.1 he with h | h
      · exact ⟨v, ht1 e h⟩
      · exact ht2 e h

theorem filter_closeStream_events (i : Nat) (t : List Event)
    (ht : ∀ e ∈ t, ∃ v, e = Event.closeStream i v) : t.filter Event.isLifecycle = [] := by
  rw [List.filter_eq_nil_iff]
  intro e he
  obtain ⟨v, rfl⟩ := ht e he
  simp [Event.isLifecycle]

theorem filter_handlerStop_events (i : Nat) (hs : List DcpHandler) :
    (hs.map (fun h => Event.handlerStop i h.index)).filter Event.isLifecycle = [] := by
  rw [List.filter_eq_nil_iff]
  intro e he
  obtain ⟨h, _, rfl⟩ := List.mem_map.1 he
  simp [Event.isLifecycle]

theorem client_lt_length (d : DcpDriver) (i : Nat) (c : DcpClient)
    (hc : d.client i = some c) : i < d.clients.length := by
  unfold DcpDriver.client at hc
  by_contra hcon
  rw [List.getElem?_eq_none (Nat.le_of_not_lt hcon)] at hc
  simp at hc

theorem client_setClient_self (d : DcpDriver) (i : Nat) (c : DcpClient)
    (hlen : i < d.clients.length) : (d.setClient i c).client i = some c := by
  simp [DcpDriver.client, DcpDriver.setClient, hlen]

/-- What `DcpClient.Stop` does on a client whose `finChan` is still open. -/
theorem clientStop_spec (o : Outcomes) (i : Nat) (d : DcpDriver) (c : DcpClient)
    (hc : d.client i = some c) (hfin : c.finClosed = false) (hwg : 0 < d.childWaitGroup) :
    ∃ d1 t, DcpClient.Stop o i d = some (d1, none) ∧
      d1 = { d with
        clients := d.clients.set i
          (some { c with finClosed := true, numberClosing := c.vbList.length % 2 ^ 32 })
        childWaitGroup := d.childWaitGroup - 1
        vbStates := d1.vbStates
        trace := d.trace ++ t } ∧
      t.filter Event.isLifecycle = [Event.clientStop i, Event.clientStopped i] := by
  have hlen : i < d.clients.length := client_lt_length d i c hc
  have hc2 := client_setClient_self
    (((d.record (Event.clientStop i)).setClient i { c with finClosed := true }).record
      (Event.finClose i)) i
    { c with finClosed := true, numberClosing := c.vbList.length % 2 ^ 32 }
    (by simpa [DcpDriver.setClient, DcpDriver.record] using hlen)
  obtain ⟨d3, t3, h3, hd3, ht3⟩ := closeStreams_frame o i c.vbList _ _ hc2
  unfold DcpClient.Stop
  simp only [hc, hfin]
  simp only [h3]
  have hwg3 : d3.childWaitGroup = d.childWaitGroup := by rw [hd3]; rfl
  have hwg4 : ¬ (DcpClient.stopHandlers i c.dcpHandlers d3).childWaitGroup = 0 := by
    simp only [DcpClient.stopHandlers]; omega
  simp only [Bool.false_eq_true, if_false, if_neg hwg4]
  refine ⟨_, [Event.clientStop i, Event.finClose i] ++ t3 ++
    (c.dcpHandlers.filterMap id).map (fun h => Event.handlerStop i h.index) ++
    [Event.clientStopped i], rfl, ?_, ?_⟩
  · simp only [DcpClient.stopHandlers, DcpDriver.record]
    rw [hd3]
    simp [DcpDriver.setClient, DcpDriver.record, List.append_assoc]
  · simp only [List.filter_append, filter_closeStream_events i t3 ht3,
      filter_handlerStop_events]
    simp [Event.isLifecycle, List.filter]

theorem client_set_ne (d : DcpDriver) (i j : Nat) (x : Option DcpClient) (cw : Nat)
    (vs : Nat → VBState) (t : List Event) (hij : i ≠ j) :
    DcpDriver.client
      { d with
        clients := d.clients.set i x
        childWaitGroup := cw
        vbStates := vs
        trace := t } j = d.client j := by
  simp [DcpDriver.client, List.getElem?_set_ne hij]

/-- The loop of `DcpDriver.Stop` over the clients `k, .., k + m - 1`. -/
theorem stopClients_spec (o : Outcomes) (m : Nat) :
    ∀ (k : Nat) (d : DcpDriver),
    (∀ j, k ≤ j → j < k + m → ∃ c, d.client j = some c ∧ c.finClosed = false) →
    m ≤ d.childWaitGroup →
    ∃ d1 t, forEach (fun i s => (DcpClient.Stop o i s).map Prod.fst) (List.range' k m) d
        = some d1 ∧
      d1 = { d with
        clients := d1.clients
        childWaitGroup := d.childWaitGroup - m
        vbStates := d1.vbStates
        trace := d.trace ++ t } ∧
      t.filter Event.isLifecycle = clientStopEvents k m := by
  induction m with
  | zero =>
    intro k d _ _
    exact ⟨d, [], rfl, by simp, by simp [clientStopEvents]⟩
  | succ m ih =>
    intro k d hcl hwg
    obtain ⟨c, hc, hfin⟩ := hcl k (Nat.le_refl k) (by omega)
    obtain ⟨d1, t1, h1, hd1, ht1⟩ := clientStop_spec o k d c hc hfin (by omega)
    have hcl1 : ∀ j, k + 1 ≤ j → j < k + 1 + m →
        ∃ c, d1.client j = some c ∧ c.finClosed = false := by
      intro j hj1 hj2
      rw [hd1, client_set_ne d k j _ _ _ _ (by omega)]
      exact hcl j (by omega) (by omega)
    have hwg1 : m ≤ d1.childWaitGroup := by
      rw [hd1]; simp only; omega
    obtain ⟨d2, t2, h2, hd2, ht2⟩ := ih (k + 1) d1 hcl1 hwg1
    refine ⟨d2, t1 ++ t2, ?_, ?_, ?_⟩
    · simp only [List.range', forEach, h1, Option.map_some', h2]
    · have hw : d1.childWaitGroup = d.childWaitGroup - 1 := by rw [hd1]
      have ht : d1.trace = d.trace ++ t1 := by rw [hd1]
      rw [hd2, hw, ht]
      conv_lhs => rw [hd1]
      simp only [List.append_assoc, Nat.sub_sub]
      congr 1
      omega
    · rw [List.filter_append, ht1, ht2]
      simp [clientStopEvents, List.range']

theorem stopReady_client (d : DcpDriver) (h : StopReady d) (j : Nat)
    (hj : j < d.clients.length) : ∃ c, d.client j = some c ∧ c.finClosed = false := by
  have hall := List.all_eq_true.1 h.1 (d.clients[j]) (List.getElem_mem hj)
  unfold DcpDriver.client
  rw [List.getElem?_eq_getElem hj]
  cases hget : d.clients[j] with
  | none => rw [hget] at hall; simp at hall
  | some c =>
    rw [hget] at hall
    exact ⟨c, rfl, by simpa using hall⟩

/-- What `DcpDriver.Stop` does on a started driver. -/
theorem driverStop_started (o : Outcomes) (d : DcpDriver)
    (hstate : d.state = DriverState.DriverStateStarted) (hready : StopReady d) :
    ∃ d1 t, DcpDriver.Stop o d = some (d1, none) ∧
      d1 = { d with
        clients := d1.clients
        waitGroup := d.waitGroup - 1
        childWaitGroup := 0
        state := DriverState.DriverStateStopped
        vbStates := d1.vbStates
        trace := d.trace ++ Event.driverStop :: t } ∧
      t.filter Event.isLifecycle = clientStopEvents 0 d.clients.length ++
        [Event.checkpointManagerStop, Event.waitGroupDone] := by
  have hcl : ∀ j, 0 ≤ j → j < 0 + d.clients.length →
      ∃ c, (d.record Event.driverStop).client j = some c ∧ c.finClosed = false := by
    intro j _ hj
    exact stopReady_client d hready j (by omega)
  have hwg : d.clients.length ≤ (d.record Event.driverStop).childWaitGroup := by
    show d.clients.length ≤ d.childWaitGroup
    rw [hready.2.1]
  obtain ⟨d1, t1, h1, hd1, ht1⟩ := stopClients_spec o d.clients.length 0 _ hcl hwg
  have hw1 : d1.childWaitGroup = 0 := by
    rw [hd1]
    show d.childWaitGroup - d.clients.length = 0
    rw [hready.2.1]; exact Nat.sub_self _
  have hpw : d1.waitGroup = d.waitGroup := by rw [hd1]; rfl
  have hpw0 : ¬ d1.waitGroup = 0 := by
    rw [hpw]
    exact Nat.pos_iff_ne_zero.1 hready.2.2
  unfold DcpDriver.Stop
  have hs : ¬ ((d.record Event.driverStop).state ≠ DriverState.DriverStateStarted) := by
    simp [DcpDriver.record, hstate]
  have hlen : (d.record Event.driverStop).clients.length = d.clients.length := rfl
  have hpw1 : ¬ (DcpDriver.record d1 Event.checkpointManagerStop).waitGroup = 0 := hpw0
  simp only [if_neg hs, List.range_eq_range', hlen, h1, hw1, ne_eq, not_true_eq_false,
    if_false, hpw1]
  refine ⟨_, t1 ++ [Event.checkpointManagerStop, Event.waitGroupDone], rfl, ?_, ?_⟩
  · simp only [DcpDriver.record]
    rw [hd1]
    simp [DcpDriver.record, List.append_assoc, hready.2.1]
  · rw [List.filter_append, ht1]
    simp [Event.isLifecycle, List.filter]

/-- What `DcpDriver.Stop` does on a driver that is not started. -/
theorem driverStop_not_started (o : Outcomes) (d : DcpDriver)
    (hstate : d.state ≠ DriverState.DriverStateStarted) :
    DcpDriver.Stop o d = some (d.record Event.driverStop, none) := by
  unfold DcpDriver.Stop
  have hs : (d.record Event.driverStop).state ≠ DriverState.DriverStateStarted := hstate
  simp only [if_pos hs]

/-- A relation that is reflexive, transitive and kept by the body is kept by `forEach`. -/
theorem forEach_preserves {α σ : Type} (R : σ → σ → Prop) (body : α → σ → Option σ)
    (hrefl : ∀ s, R s s) (htrans : ∀ s1 s2 s3, R s1 s2 → R s2 s3 → R s1 s3)
    (hbody : ∀ a s s1, body a s = some s1 → R s s1) (xs : List α) :
    ∀ s s1, forEach body xs s = some s1 → R s s1 := by
  induction xs with
  | nil =>
    intro s s1 h
    simp only [forEach, Option.some.injEq] at h
    rw [← h]; exact hrefl s
  | cons a as ih =>
    intro s s1 h
    simp only [forEach] at h
    cases hb : body a s with
    | none => rw [hb] at h; simp at h
    | some s2 =>
      rw [hb] at h
      exact htrans _ _ _ (hbody a s s2 hb) (ih s2 s1 h)

/-- A relation that is reflexive, transitive and kept by the body is kept by `forErr`. -/
theorem forErr_preserves {α σ : Type} (R : σ → σ → Prop)
    (body : α → σ → Option (σ × GoError))
    (hrefl : ∀ s, R s s) (htrans : ∀ s1 s2 s3, R s1 s2 → R s2 s3 → R s1 s3)
    (hbody : ∀ a s s1 g, body a s = some (s1, g) → R s s1) (xs : List α) :
    ∀ s s1 g, forErr body xs s = some (s1, g) → R s s1 := by
  induction xs with
  | nil =>
    intro s s1 g h
    simp only [forErr, Option.some.injEq, Prod.mk.injEq] at h
    rw [← h.1]; exact hrefl s
  | cons a as ih =>
    intro s s1 g h
    simp only [forErr] at h
    cases hb : body a s with
    | none => rw [hb] at h; simp at h
    | some r =>
      obtain ⟨s2, g2⟩ := r
      rw [hb] at h
      cases g2 with
      | none => exact htrans _ _ _ (hbody a s s2 none hb) (ih s2 s1 g h)
      | some e =>
        simp only [Option.some.injEq, Prod.mk.injEq] at h
        rw [← h.1]; exact hbody a s s2 (some e) hb

/-- `handleVbucketCompletion` with a nil error, in terms of `Stop`. -/
theorem handleVbucketCompletion_nil (env : Env) (o : Outcomes) (vbno : Nat) (d : DcpDriver) :
    DcpDriver.handleVbucketCompletion env o vbno none d =
      if (d.vbState.insert vbno true).keys.length = env.NumberOfVbuckets then
        (DcpDriver.Stop o { d with vbState := d.vbState.insert vbno true }).map Prod.fst
      else some { d with vbState := d.vbState.insert vbno true } := rfl

theorem initializeCluster_state (o : Outcomes) (i : Nat) (d d1 : DcpDriver) (g : GoError)
    (h : DcpClient.initializeCluster o i d = some (d1, g)) : d1.state = d.state := by
  unfold DcpClient.initializeCluster at h
  split at h
  · simp at h
  · split at h
    · simp only [Option.some.injEq, Prod.mk.injEq] at h
      rw [← h.1]
    · split at h
      · simp only [Option.some.injEq, Prod.mk.injEq] at h
        rw [← h.1]
      · simp only [Option.some.injEq, Prod.mk.injEq] at h
        rw [← h.1]; rfl

theorem initializeBucket_state (o : Outcomes) (i : Nat) (d d1 : DcpDriver) (g : GoError)
    (h : DcpClient.initializeBucket o i d = some (d1, g)) : d1.state = d.state := by
  unfold DcpClient.initializeBucket at h
  split at h
  · simp at h
  · split at h
    · simp only [Option.some.injEq, Prod.mk.injEq] at h
      rw [← h.1]; rfl
    · simp at h

theorem initializeDcpHandler_state (o : Outcomes) (i : Nat) (ld : List (Nat × Nat)) (j : Nat)
    (d d1 : DcpDriver) (g : GoError)
    (h : DcpClient.initializeDcpHandler o i ld j d = some (d1, g)) : d1.state = d.state := by
  unfold DcpClient.initializeDcpHandler at h
  split at h
  · simp at h
  · simp at h
  · split at h
    · simp at h
    · split at h
      · simp at h
      · simp only at h
        split at h
        · simp only [Option.some.injEq, Prod.mk.injEq] at h
          rw [← h.1]
        · split at h
          · simp only [Option.some.injEq, Prod.mk.injEq] at h
            rw [← h.1]; rfl
          · split at h
            · simp at h
            · simp only [Option.some.injEq, Prod.mk.injEq] at h
              rw [← h.1]; rfl

theorem clientStart_state (env : Env) (o : Outcomes) (i : Nat) (d d1 : DcpDriver) (g : GoError)
    (h : DcpClient.Start env o i d = some (d1, g)) : d1.state = d.state := by
  have hinit : ∀ s s1 g1, DcpClient.initializeClient env o i s = some (s1, g1) →
      s1.state = s.state := by
    intro s s1 g1 hi
    unfold DcpClient.initializeClient at hi
    cases hc : DcpClient.initializeCluster o i s with
    | none => simp [hc] at hi
    | some r =>
      obtain ⟨s2, g2⟩ := r
      have h2 := initializeCluster_state o i s s2 g2 hc
      cases g2 with
      | some e =>
        simp only [hc, Option.some.injEq, Prod.mk.injEq] at hi
        rw [← hi.1, h2]
      | none =>
        simp only [hc] at hi
        cases hb : DcpClient.initializeBucket o i s2 with
        | none => simp [hb] at hi
        | some r3 =>
          obtain ⟨s3, g3⟩ := r3
          have h3 := initializeBucket_state o i s2 s3 g3 hb
          cases g3 with
          | some e =>
            simp only [hb, Option.some.injEq, Prod.mk.injEq] at hi
            rw [← hi.1, h3, h2]
          | none =>
            simp only [hb] at hi
            unfold DcpClient.initializeDcpHandlers at hi
            split at hi
            · simp at hi
            · have h4 := forErr_preserves (fun a b : DcpDriver => b.state = a.state) _
                (fun _ => rfl) (fun _ _ _ p q => q.trans p)
                (fun j a b g4 hj => initializeDcpHandler_state o i _ j a b g4 hj) _ _ _ _ hi
              rw [h4, h3, h2]
  unfold DcpClient.Start at h
  cases hi : DcpClient.initializeClient env o i (d.record (Event.clientStart i)) with
  | none => simp [hi] at h
  | some r =>
    obtain ⟨s1, g1⟩ := r
    have h1 := hinit _ _ _ hi
    cases g1 with
    | some e =>
      simp only [hi, Option.some.injEq, Prod.mk.injEq] at h
      rw [← h.1, h1]; rfl
    | none =>
      simp only [hi, Option.some.injEq, Prod.mk.injEq] at h
      rw [← h.1]
      exact h1

theorem initializeDcpClients_state (env : Env) (o : Outcomes) (d d1 : DcpDriver) (g : GoError)
    (h : DcpDriver.initializeDcpClients env o d = some (d1, g)) : d1.state = d.state := by
  unfold DcpDriver.initializeDcpClients at h
  have h4 := forErr_preserves (fun a b : DcpDriver => b.state = a.state) _
    (fun _ => rfl) (fun _ _ _ p q => q.trans p)
    (by
      intro i a b g4 hj
      unfold DcpDriver.initializeDcpClient at hj
      split at hj
      · simp at hj
      · split at hj
        · simp at hj
        · split at hj
          · simp at hj
          · exact (clientStart_state env o i _ b g4 hj).trans rfl) _ _ _ _ h
  exact h4

/-- The state after `DcpDriver.Start`: Started when it succeeds, unchanged when it returns
an error. -/
theorem driverStart_state (env : Env) (o : Outcomes) (d d1 : DcpDriver) (g : GoError)
    (h : DcpDriver.Start env o d = some (d1, g)) :
    d1.state = if g.isNone then DriverState.DriverStateStarted else d.state := by
  unfold DcpDriver.Start at h
  have hp : (DcpDriver.populateCredentials o d).1.state = d.state := rfl
  cases hpc : DcpDriver.populateCredentials o d with
  | mk s1 g1 =>
    rw [hpc] at h hp
    cases g1 with
    | some e =>
      simp only [Option.some.injEq, Prod.mk.injEq] at h
      rw [← h.1, ← h.2]; exact hp
    | none =>
      simp only at h
      have hq : (DcpDriver.initializeAndStartCheckpointManager o s1).1.state = s1.state := by
        unfold DcpDriver.initializeAndStartCheckpointManager
        simp only
        split <;> rfl
      cases hcm : DcpDriver.initializeAndStartCheckpointManager o s1 with
      | mk s2 g2 =>
        rw [hcm] at h hq
        cases g2 with
        | some e =>
          simp only [Option.some.injEq, Prod.mk.injEq] at h
          rw [← h.1, ← h.2]
          exact hq.trans hp
        | none =>
          simp only at h
          cases hic : DcpDriver.initializeDcpClients env o s2 with
          | none => simp [hic] at h
          | some r =>
            obtain ⟨s3, g3⟩ := r
            have h3 := initializeDcpClients_state env o s2 s3 g3 hic
            cases g3 with
            | some e =>
              simp only [hic, Option.some.injEq, Prod.mk.injEq] at h
              rw [← h.1, ← h.2, h3]
              exact hq.trans hp
            | none =>
              simp only [hic, Option.some.injEq, Prod.mk.injEq] at h
              rw [← h.1, ← h.2]
              rfl

/-- `DcpDriver.Stop` never moves the state to an earlier value. -/
theorem driverStop_state_le (o : Outcomes) (d d1 : DcpDriver) (g : GoError)
    (h : DcpDriver.Stop o d = some (d1, g)) : d.state.toNat ≤ d1.state.toNat := by
  unfold DcpDriver.Stop at h
  simp only at h
  split at h
  · simp only [Option.some.injEq, Prod.mk.injEq] at h
    rw [← h.1]; exact Nat.le_refl _
  · split at h
    · simp at h
    · split at h
      · simp at h
      · split at h
        · simp at h
        · simp only [Option.some.injEq, Prod.mk.injEq] at h
          rw [← h.1]
          show d.state.toNat ≤ 2
          cases d.state <;> decide

theorem sameStreams_refl (c : DcpClient) : c.SameStreams c :=
  ⟨rfl, rfl, rfl, rfl, rfl, rfl, rfl⟩

theorem sameStreams_trans (c1 c2 c3 : DcpClient) (h12 : c1.SameStreams c2)
    (h23 : c2.SameStreams c3) : c1.SameStreams c3 := by
  obtain ⟨a1, a2, a3, a4, a5, a6, a7⟩ := h12
  obtain ⟨b1, b2, b3, b4, b5, b6, b7⟩ := h23
  exact ⟨b1.trans a1, b2.trans a2, b3.trans a3, b4.trans a4, b5.trans a5, b6.trans a6,
    b7.trans a7⟩

theorem stopsTo_refl (d : DcpDriver) : d.StopsTo d :=
  ⟨rfl, rfl, rfl, fun _ => Or.inl rfl, fun _ c hc => ⟨c, hc, sameStreams_refl c⟩,
    [], by simp, by simp⟩

theorem stopsTo_trans (d1 d2 d3 : DcpDriver) (h12 : d1.StopsTo d2) (h23 : d2.StopsTo d3) :
    d1.StopsTo d3 := by
  obtain ⟨a1, a2, a3, a4, a5, t1, a6, a7⟩ := h12
  obtain ⟨b1, b2, b3, b4, b5, t2, b6, b7⟩ := h23
  refine ⟨b1.trans a1, b2.trans a2, b3.trans a3, ?_, ?_, t1 ++ t2, ?_, ?_⟩
  · intro v
    rcases b4 v with h | h
    · rw [h]; exact a4 v
    · exact Or.inr h
  · intro j c hc
    obtain ⟨c1, hc1, hs1⟩ := a5 j c hc
    obtain ⟨c2, hc2, hs2⟩ := b5 j c1 hc1
    exact ⟨c2, hc2, sameStreams_trans c c1 c2 hs1 hs2⟩
  · rw [b6, a6, List.append_assoc]
  · intro e he
    rcases List.mem_append.1 he with h | h
    · exact a7 e h
    · exact b7 e h

theorem stopsTo_of_eq (d d1 : DcpDriver) (t : List Event)
    (hd1 : d1 = { d with vbStates := d1.vbStates, trace := d.trace ++ t })
    (hv : ∀ v, d1.vbStates v = d.vbStates v ∨ d1.vbStates v = VBState.VBStateStreamClosed)
    (ht : ∀ e ∈ t, e.isStopping = true) : d.StopsTo d1 := by
  refine ⟨by rw [hd1], by rw [hd1], by rw [hd1], hv, ?_, t, by rw [hd1], ht⟩
  intro j c hc
  refine ⟨c, ?_, sameStreams_refl c⟩
  rw [hd1]; exact hc

theorem closeStreamIfOpen_vbStates (o : Outcomes) (i v : Nat) (d d1 : DcpDriver)
    (h : DcpClient.closeStreamIfOpen o i v d = some d1) :
    ∀ w, d1.vbStates w = d.vbStates w ∨ d1.vbStates w = VBState.VBStateStreamClosed := by
  intro w
  unfold DcpClient.closeStreamIfOpen at h
  split at h
  · cases hcs : DcpClient.closeStream o i v d with
    | none => simp [hcs] at h
    | some r =>
      obtain ⟨d2, g⟩ := r
      have h2 : d2.vbStates = d.vbStates := by
        unfold DcpClient.closeStream at hcs
        split at hcs
        · simp at hcs
        · split at hcs
          · simp only [Option.some.injEq, Prod.mk.injEq] at hcs
            rw [← hcs.1]; rfl
          · simp only [Option.some.injEq, Prod.mk.injEq] at hcs
            rw [← hcs.1]
      cases g with
      | none =>
        simp only [hcs, Option.some.injEq] at h
        rw [← h]
        simp only [DcpDriver.setVbState, h2]
        by_cases hw : w = v
        · right; simp [hw]
        · left; simp [hw]
      | some e =>
        simp only [hcs, Option.some.injEq] at h
        rw [← h, h2]; exact Or.inl rfl
  · simp only [Option.some.injEq] at h
    rw [← h]; exact Or.inl rfl

theorem closeStreamIfOpen_stopsTo (o : Outcomes) (i v : Nat) (d d1 : DcpDriver)
    (c : DcpClient) (hc : d.client i = some c)
    (h : DcpClient.closeStreamIfOpen o i v d = some d1) : d.StopsTo d1 := by
  obtain ⟨d2, t, h2, hd2, ht⟩ := closeStreamIfOpen_frame o i v d c hc
  rw [h] at h2
  simp only [Option.some.injEq] at h2
  subst h2
  refine stopsTo_of_eq d d1 t hd2 (closeStreamIfOpen_vbStates o i v d d1 h) ?_
  intro e he
  rw [ht e he]; rfl

theorem closeStreamIfOpen_stopsTo_of_some (o : Outcomes) (i v : Nat) (d d1 : DcpDriver)
    (h : DcpClient.closeStreamIfOpen o i v d = some d1) : d.StopsTo d1 := by
  cases hc : d.client i with
  | some c => exact closeStreamIfOpen_stopsTo o i v d d1 c hc h
  | none =>
    unfold DcpClient.closeStreamIfOpen DcpClient.closeStream at h
    rw [hc] at h
    split at h
    · simp at h
    · simp only [Option.some.injEq] at h
      rw [← h]; exact stopsTo_refl d

theorem client_set_eq (d d1 : DcpDriver) (i j : Nat) (x : DcpClient)
    (h : d1.clients = d.clients.set i (some x)) :
    d1.client j = if i = j ∧ i < d.clients.length then some x else d.client j := by
  unfold DcpDriver.client
  rw [h]
  by_cases hij : i = j
  · subst hij
    by_cases hl : i < d.clients.length
    · simp [hl]
    · have h1 : (d.clients.set i (some x))[i]? = none :=
        List.getElem?_eq_none (by rw [List.length_set]; omega)
      have h2 : d.clients[i]? = none := List.getElem?_eq_none (by omega)
      simp [hl, h1, h2]
  · simp [List.getElem?_set_ne hij, hij]

/-- Whenever `DcpClient.Stop` returns, it has only stopped. -/
theorem clientStop_stopsTo (o : Outcomes) (i : Nat) (d d1 : DcpDriver) (g : GoError)
    (h : DcpClient.Stop o i d = some (d1, g)) : d.StopsTo d1 := by
  unfold DcpClient.Stop at h
  cases hc : d.client i with
  | none => rw [hc] at h; simp at h
  | some c =>
    rw [hc] at h
    simp only at h
    by_cases hfin : c.finClosed = true
    · rw [if_pos hfin] at h; simp at h
    · rw [if_neg hfin] at h
      cases hl : forEach (DcpClient.closeStreamIfOpen o i) c.vbList
          ((((d.record (Event.clientStop i)).setClient i { c with finClosed := true }).record
            (Event.finClose i)).setClient i
            { c with finClosed := true, numberClosing := c.vbList.length % 2 ^ 32 }) with
      | none => rw [hl] at h; simp at h
      | some d3 =>
        rw [hl] at h
        simp only at h
        split at h
        · simp at h
        · simp only [Option.some.injEq, Prod.mk.injEq] at h
          have h23 := forEach_preserves DcpDriver.StopsTo (DcpClient.closeStreamIfOpen o i)
            stopsTo_refl stopsTo_trans
            (fun v s s1 hb => closeStreamIfOpen_stopsTo_of_some o i v s s1 hb) _ _ _ hl
          have h02 : d.StopsTo ((((d.record (Event.clientStop i)).setClient i
              { c with finClosed := true }).record (Event.finClose i)).setClient i
              { c with finClosed := true, numberClosing := c.vbList.length % 2 ^ 32 }) := by
            refine ⟨rfl, rfl, rfl, fun _ => Or.inl rfl, ?_,
              [Event.clientStop i, Event.finClose i], ?_, ?_⟩
            · intro j cj hcj
              rw [client_set_eq d _ i j
                { c with finClosed := true, numberClosing := c.vbList.length % 2 ^ 32 }
                (by simp [DcpDriver.setClient, DcpDriver.record])]
              by_cases hij : i = j ∧ i < d.clients.length
              · rw [if_pos hij]
                have hcc : cj = c := by
                  rw [← hij.1, hc] at hcj
                  exact (Option.some.inj hcj).symm
                rw [hcc]
                exact ⟨_, rfl, rfl, rfl, rfl, rfl, rfl, rfl, rfl⟩
              · rw [if_neg hij]
                exact ⟨cj, hcj, sameStreams_refl cj⟩
            · simp [DcpDriver.setClient, DcpDriver.record]
            · intro e he
              simp only [List.mem_cons, List.mem_singleton, List.not_mem_nil, or_false] at he
              rcases he with he | he <;> rw [he] <;> rfl
          have h3f : d3.StopsTo d1 := by
            rw [← h.1]
            refine ⟨rfl, rfl, rfl, fun _ => Or.inl rfl,
              fun j cj hcj => ⟨cj, hcj, sameStreams_refl cj⟩,
              (c.dcpHandlers.filterMap id).map (fun x => Event.handlerStop i x.index) ++
                [Event.clientStopped i], ?_, ?_⟩
            · simp [DcpClient.stopHandlers, DcpDriver.record, List.append_assoc]
            · intro e he
              simp only [List.mem_append, List.mem_map, List.mem_singleton] at he
              rcases he with ⟨x, _, hx⟩ | he
              · rw [← hx]; rfl
              · rw [he]; rfl
          exact stopsTo_trans _ _ _ h02 (stopsTo_trans _ _ _ h23 h3f)

/-- Whenever `DcpDriver.Stop` returns, it has only stopped. -/
theorem driverStop_stopsTo (o : Outcomes) (d d1 : DcpDriver) (g : GoError)
    (h : DcpDriver.Stop o d = some (d1, g)) : d.StopsTo d1 := by
  unfold DcpDriver.Stop at h
  simp only at h
  have h0 : d.StopsTo (d.record Event.driverStop) :=
    ⟨rfl, rfl, rfl, fun _ => Or.inl rfl, fun j cj hcj => ⟨cj, hcj, sameStreams_refl cj⟩,
      [Event.driverStop], rfl, by simp [Event.isStopping]⟩
  split at h
  · simp only [Option.some.injEq, Prod.mk.injEq] at h
    rw [← h.1]; exact h0
  · cases hl : forEach (fun i s => (DcpClient.Stop o i s).map Prod.fst)
        (List.range (d.record Event.driverStop).clients.length) (d.record Event.driverStop) with
    | none => rw [hl] at h; simp at h
    | some d2 =>
      rw [hl] at h
      simp only at h
      have h12 := forEach_preserves DcpDriver.StopsTo
        (fun i s => (DcpClient.Stop o i s).map Prod.fst) stopsTo_refl stopsTo_trans
        (by
          intro i s s1 hb
          cases hs : DcpClient.Stop o i s with
          | none => simp [hs] at hb
          | some r =>
            obtain ⟨s2, g2⟩ := r
            simp only [hs, Option.map_some', Option.some.injEq] at hb
            rw [← hb]
            exact clientStop_stopsTo o i s s2 g2 hs)
        _ _ _ hl
      split at h
      · simp at h
      · split at h
        · simp at h
        · simp only [Option.some.injEq, Prod.mk.injEq] at h
          have h2f : d2.StopsTo d1 := by
            rw [← h.1]
            refine ⟨rfl, rfl, rfl, fun _ => Or.inl rfl,
              fun j cj hcj => ⟨cj, hcj, sameStreams_refl cj⟩,
              [Event.checkpointManagerStop, Event.waitGroupDone], ?_, ?_⟩
            · simp [DcpDriver.record, List.append_assoc]
            · intro e he
              simp only [List.mem_cons, List.mem_singleton, List.not_mem_nil, or_false] at he
              rcases he with he | he <;> rw [he] <;> rfl
          exact stopsTo_trans _ _ _ h0 (stopsTo_trans _ _ _ h12 h2f)

theorem opensTo_refl (d : DcpDriver) : d.OpensTo d :=
  ⟨rfl, rfl, fun _ => Or.inl rfl, fun _ c hc => ⟨c, hc, sameStreams_refl c⟩⟩

theorem opensTo_trans (d1 d2 d3 : DcpDriver) (h12 : d1.OpensTo d2) (h23 : d2.OpensTo d3) :
    d1.OpensTo d3 := by
  obtain ⟨a1, a3, a4, a5⟩ := h12
  obtain ⟨b1, b3, b4, b5⟩ := h23
  refine ⟨b1.trans a1, b3.trans a3, ?_, ?_⟩
  · intro v
    rcases b4 v with h | h
    · rw [h]; exact a4 v
    · exact Or.inr h
  · intro j c hc
    obtain ⟨c1, hc1, hs1⟩ := a5 j c hc
    obtain ⟨c2, hc2, hs2⟩ := b5 j c1 hc1
    exact ⟨c2, hc2, sameStreams_trans c c1 c2 hs1 hs2⟩

theorem opensTo_of_stopsTo (d d1 : DcpDriver) (h : d.StopsTo d1) : d.OpensTo d1 :=
  ⟨h.1, h.2.2.1, h.2.2.2.1, h.2.2.2.2.1⟩

theorem canOpen_of_opensTo (i : Nat) (d d1 : DcpDriver) (hc : d.CanOpen i) (h : d.OpensTo d1)
    (hs : d1.state = DriverState.DriverStateStarted → StopReady d1) : d1.CanOpen i := by
  obtain ⟨c, hci, hb⟩ := hc.2
  obtain ⟨c1, hc1, hs1⟩ := h.2.2.2 i c hci
  exact ⟨hs, c1, hc1, by rw [hs1.2.2.2.1]; exact hb⟩

/-- A completion with a nil error always returns on a driver on which `Stop` can run, and
what it does besides marking the vbucket is stopping. -/
theorem handleVbucketCompletion_nil_spec (env : Env) (o : Outcomes) (vbno : Nat)
    (d : DcpDriver) (hready : d.state = DriverState.DriverStateStarted → StopReady d) :
    ∃ d1 t, DcpDriver.handleVbucketCompletion env o vbno none d = some d1 ∧
      d.OpensTo d1 ∧ d1.vbState = d.vbState.insert vbno true ∧
      d1.trace = d.trace ++ t ∧ (∀ e ∈ t, e.isStopping = true) ∧
      (d1.state = DriverState.DriverStateStarted → StopReady d1) := by
  rw [handleVbucketCompletion_nil]
  split
  · by_cases hs : d.state = DriverState.DriverStateStarted
    · obtain ⟨d1, t, h, hd1, _⟩ := driverStop_started o
        { d with vbState := d.vbState.insert vbno true } hs (hready hs)
      have hst := driverStop_stopsTo o _ d1 none h
      obtain ⟨t2, ht2, hev⟩ := hst.2.2.2.2.2
      refine ⟨d1, t2, by rw [h]; rfl, ?_, hst.2.1, ht2, hev, ?_⟩
      · have hop := opensTo_of_stopsTo _ _ hst
        exact hop
      · intro hcon
        rw [hd1] at hcon
        cases hcon
    · rw [driverStop_not_started o { d with vbState := d.vbState.insert vbno true } hs]
      refine ⟨_, [Event.driverStop], rfl, ?_, rfl, rfl, by simp [Event.isStopping], ?_⟩
      · exact ⟨rfl, rfl, fun _ => Or.inl rfl, fun _ c hc => ⟨c, hc, sameStreams_refl c⟩⟩
      · intro hcon
        exact absurd hcon hs
  · exact ⟨_, [], rfl,
      ⟨rfl, rfl, fun _ => Or.inl rfl, fun _ c hc => ⟨c, hc, sameStreams_refl c⟩⟩,
      rfl, by simp, by simp, hready⟩

/-- One round of the loop of `openDcpStreams` that does not fail. -/
theorem openDcpStream_ok (env : Env) (o : Outcomes) (i v : Nat) (d : DcpDriver)
    (hcan : d.CanOpen i) (hok : o.needsStream v = true → o.openStream i v = none) :
    ∃ d1 t, DcpClient.openDcpStream env o i v d = some (d1, none) ∧
      d.OpensTo d1 ∧ d1.CanOpen i ∧ d1.trace = d.trace ++ t ∧
      t.filterMap Event.openedVb = [v].filter o.needsStream ∧
      ∀ e ∈ t, e.isStopping = true ∨ (e.openedVb).isSome = true := by
  unfold DcpClient.openDcpStream
  simp only
  by_cases hn : (o.getStartVBTS v).NoNeedToStartDcpStream = true
  · rw [if_pos hn]
    have hns : o.needsStream v = false := by simp [Outcomes.needsStream, hn]
    obtain ⟨d1, t, h, hop, _, ht, hev, hr⟩ :=
      handleVbucketCompletion_nil_spec env o v d hcan.1
    refine ⟨d1, t, by rw [h]; rfl, hop, canOpen_of_opensTo i d d1 hcan hop hr, ht, ?_,
      fun e he => Or.inl (hev e he)⟩
    rw [List.filterMap_eq_nil_iff.2, List.filter_cons, hns]
    · rfl
    · intro e he
      have := hev e he
      cases e <;> simp [Event.isStopping] at this <;> rfl
  · rw [if_neg hn]
    have hns : o.needsStream v = true := by simpa [Outcomes.needsStream] using hn
    obtain ⟨c, hc, hb⟩ := hcan.2
    rw [hc]
    simp only [hb, if_true, hok hns]
    refine ⟨_, [Event.openStream i v (o.getStartVBTS v).Vbuuid (o.getStartVBTS v).Seqno
      (2 ^ 64 - 1) (o.getStartVBTS v).Seqno (o.getStartVBTS v).Seqno
      (c.vbHandlerMap.lookup v)], rfl, opensTo_refl d, ?_, rfl, ?_, ?_⟩
    · exact ⟨hcan.1, c, hc, hb⟩
    · simp [Event.openedVb, hns]
    · intro e he
      simp only [List.mem_singleton] at he
      rw [he]; right; rfl

/-- The round of the loop of `openDcpStreams` in which `OpenStream` returns an error. -/
theorem openDcpStream_fail (env : Env) (o : Outcomes) (i v : Nat) (d : DcpDriver) (e : String)
    (hcan : d.CanOpen i) (hneed : o.needsStream v = true)
    (hfail : o.openStream i v = some e) :
    ∃ d1, DcpClient.openDcpStream env o i v d = some (d1, some e) ∧
      d.OpensTo d1 ∧ d1.CanOpen i ∧ d1.trace.filterMap Event.openedVb =
        d.trace.filterMap Event.openedVb ++ [v] ∧
      ∃ t, d1.trace = d.trace ++ t ∧
        ∀ ev ∈ t, ev.isStopping = true ∨ (ev.openedVb).isSome = true := by
  unfold DcpClient.openDcpStream
  have hn : ¬ (o.getStartVBTS v).NoNeedToStartDcpStream = true := by
    simpa [Outcomes.needsStream] using hneed
  obtain ⟨c, hc, hb⟩ := hcan.2
  simp only [if_neg hn, hc, hb, if_true, hfail]
  refine ⟨_, rfl, opensTo_refl d, ⟨hcan.1, c, hc, hb⟩, ?_, _, rfl, ?_⟩
  · simp [DcpDriver.record, List.filterMap_append, Event.openedVb]
  · intro ev hev
    simp only [List.mem_singleton] at hev
    rw [hev]; right; rfl

/-- The loop of `openDcpStreams` up to and including the first round in which `OpenStream`
returns an error: the requests made are those for the vbuckets that need a stream, in loop
order, the failing one last; nothing is offered to the error channel and no task is
started. -/
theorem openLoop_fail (env : Env) (o : Outcomes) (i v : Nat) (e : String)
    (post : List Nat) (hneed : o.needsStream v = true) (hfail : o.openStream i v = some e) :
    ∀ (pre : List Nat) (d : DcpDriver), d.CanOpen i →
    (∀ x ∈ pre, o.needsStream x = true → o.openStream i x = none) →
    ∃ d1 t, forErr (DcpClient.openDcpStream env o i) (pre ++ v :: post) d
        = some (d1, some e) ∧
      d.OpensTo d1 ∧ d1.trace = d.trace ++ t ∧
      t.filterMap Event.openedVb = (pre ++ [v]).filter o.needsStream ∧
      ∀ ev ∈ t, ev.isStopping = true ∨ (ev.openedVb).isSome = true := by
  intro pre
  induction pre with
  | nil =>
    intro d hcan _
    obtain ⟨d1, h, hop, _, hfm, t, ht, hev⟩ := openDcpStream_fail env o i v d e hcan hneed hfail
    refine ⟨d1, t, ?_, hop, ht, ?_, hev⟩
    · simp only [List.nil_append, forErr, h]
    · rw [ht, List.filterMap_append] at hfm
      have := List.append_cancel_left hfm
      rw [this]
      simp [hneed]
  | cons x pre ih =>
    intro d hcan hpre
    obtain ⟨d1, t1, h1, hop1, hcan1, ht1, hf1, hev1⟩ := openDcpStream_ok env o i x d hcan
      (hpre x (List.mem_cons_self x pre))
    obtain ⟨d2, t2, h2, hop2, ht2, hf2, hev2⟩ := ih d1 hcan1
      (fun y hy => hpre y (List.mem_cons_of_mem x hy))
    refine ⟨d2, t1 ++ t2, ?_, opensTo_trans _ _ _ hop1 hop2, ?_, ?_, ?_⟩
    · rw [List.cons_append]
      simp only [forErr, h1]
      exact h2
    · rw [ht2, ht1, List.append_assoc]
    · rw [List.filterMap_append, hf1, hf2, List.cons_append, List.filter_cons,
        List.filter_cons]
      split <;> simp
    · intro ev hev
      rcases List.mem_append.1 hev with h | h
      · exact hev1 ev h
      · exact hev2 ev h

/-- The loop of `openDcpStreams` when no `OpenStream` returns an error. -/
theorem openLoop_ok (env : Env) (o : Outcomes) (i : Nat) :
    ∀ (vs : List Nat) (d : DcpDriver), d.CanOpen i →
    (∀ x ∈ vs, o.needsStream x = true → o.openStream i x = none) →
    ∃ d1 t, forErr (DcpClient.openDcpStream env o i) vs d = some (d1, none) ∧
      d.OpensTo d1 ∧ d1.CanOpen i ∧ d1.trace = d.trace ++ t ∧
      t.filterMap Event.openedVb = vs.filter o.needsStream ∧
      ∀ ev ∈ t, ev.isStopping = true ∨ (ev.openedVb).isSome = true := by
  intro vs
  induction vs with
  | nil =>
    intro d hcan _
    exact ⟨d, [], rfl, opensTo_refl d, hcan, by simp, by simp, by simp⟩
  | cons x vs ih =>
    intro d hcan hpre
    obtain ⟨d1, t1, h1, hop1, hcan1, ht1, hf1, hev1⟩ := openDcpStream_ok env o i x d hcan
      (hpre x (List.mem_cons_self x vs))
    obtain ⟨d2, t2, h2, hop2, hcan2, ht2, hf2, hev2⟩ := ih d1 hcan1
      (fun y hy => hpre y (List.mem_cons_of_mem x hy))
    refine ⟨d2, t1 ++ t2, ?_, opensTo_trans _ _ _ hop1 hop2, hcan2, ?_, ?_, ?_⟩
    · simp only [forErr, h1, h2]
    · rw [ht2, ht1, List.append_assoc]
    · rw [List.filterMap_append, hf1, hf2, List.filter_cons, List.filter_cons]
      split <;> simp
    · intro ev hev
      rcases List.mem_append.1 hev with h | h
      · exact hev1 ev h
      · exact hev2 ev h

/-- A list split at a position `k` that holds `v`. -/
theorem split_at_position (vs : List Nat) (k v : Nat) (hk : vs[k]? = some v) :
    vs = vs.take k ++ v :: vs.drop (k + 1) ∧ vs.take (k + 1) = vs.take k ++ [v] := by
  obtain ⟨hlt, hv⟩ := List.getElem?_eq_some_iff.1 hk
  constructor
  · conv_lhs => rw [← List.take_append_drop k vs]
    rw [List.drop_eq_getElem_cons hlt, hv]
  · rw [List.take_succ, hk]
    rfl

/-- `handleDcpStreams` when the first `OpenStream` error comes at position `k` of the
shuffled order. -/
theorem handleDcpStreams_fail (env : Env) (o : Outcomes) (i : Nat) (d : DcpDriver)
    (c : DcpClient) (k v : Nat) (e : String)
    (hc : d.client i = some c) (hb : c.bucketOpen = true)
    (hready : d.state = DriverState.DriverStateStarted → StopReady d)
    (hk : (o.shuffleVbList c.vbList)[k]? = some v)
    (hbefore : ∀ j x, j < k → (o.shuffleVbList c.vbList)[j]? = some x →
      o.needsStream x = true → o.openStream i x = none)
    (hneed : o.needsStream v = true) (hfail : o.openStream i v = some e) :
    ∃ d1 d2 t, DcpClient.openDcpStreams env o i d = some (d2, some e) ∧
      DcpClient.handleDcpStreams env o Ready.startVbtsDone i d = some d1 ∧
      d1 = DcpClient.reportError d2 (some (c.Name ++ ": " ++ e)) ∧
      d.OpensTo d2 ∧ d2.trace = d.trace ++ t ∧
      t.filterMap Event.openedVb =
        ((o.shuffleVbList c.vbList).take (k + 1)).filter o.needsStream ∧
      ∀ ev ∈ t, ev.isStopping = true ∨ (ev.openedVb).isSome = true := by
  obtain ⟨hsplit, htake⟩ := split_at_position _ k v hk
  have hpre : ∀ x ∈ (o.shuffleVbList c.vbList).take k,
      o.needsStream x = true → o.openStream i x = none := by
    intro x hx
    obtain ⟨j, hj, hjx⟩ := List.getElem_of_mem hx
    have hjk : j < k := by
      rw [List.length_take] at hj
      omega
    refine hbefore j x hjk ?_
    rw [List.getElem_take] at hjx
    rw [← hjx]
    exact List.getElem?_eq_getElem _
  obtain ⟨d2, t, h2, hop, ht, hf, hev⟩ := openLoop_fail env o i v e
    ((o.shuffleVbList c.vbList).drop (k + 1)) hneed hfail _ d ⟨hready, c, hc, hb⟩ hpre
  rw [← hsplit] at h2
  have hopen : DcpClient.openDcpStreams env o i d = some (d2, some e) := by
    unfold DcpClient.openDcpStreams
    rw [hc]
    exact h2
  refine ⟨_, d2, t, hopen, ?_, rfl, hop, ht, ?_, hev⟩
  · unfold DcpClient.handleDcpStreams
    simp only [hc, hopen]
  · rw [hf, htake]

theorem closeStream_vbStates (o : Outcomes) (i v : Nat) (d d1 : DcpDriver) (g : GoError)
    (h : DcpClient.closeStream o i v d = some (d1, g)) : d1.vbStates = d.vbStates := by
  unfold DcpClient.closeStream at h
  split at h
  · simp at h
  · split at h
    · simp only [Option.some.injEq, Prod.mk.injEq] at h
      rw [← h.1]; rfl
    · simp only [Option.some.injEq, Prod.mk.injEq] at h
      rw [← h.1]

theorem take_take_append (n : Nat) (l m : List GoError) :
    (l.take n ++ m).take n = (l ++ m).take n := by
  rw [List.take_append_eq_append_take, List.take_append_eq_append_take, List.take_take,
    Nat.min_self, List.length_take]
  by_cases h : l.length ≤ n
  · rw [Nat.min_eq_right h]
  · have h1 : n - min n l.length = 0 := by omega
    have h2 : n - l.length = 0 := by omega
    rw [h1, h2]

/-- One non-blocking send on a channel that holds no more than its capacity. -/
theorem offer_buf (ch : ErrChan) (e : GoError) (h : ch.buf.length ≤ ch.cap) :
    ch.offer e = { cap := ch.cap, buf := (ch.buf ++ [e]).take ch.cap } := by
  unfold ErrChan.offer ErrChan.send
  by_cases hlt : ch.buf.length < ch.cap
  · rw [if_pos hlt]
    simp only
    rw [List.take_of_length_le (by simp; omega)]
  · rw [if_neg hlt]
    simp only
    have heq : ch.buf.length = ch.cap := by omega
    rw [List.take_append_eq_append_take, List.take_of_length_le (Nat.le_of_eq heq), heq,
      Nat.sub_self]
    simp

/-- The error channel after a sequence of `DcpClient.reportError` calls. -/
theorem reportErrors_buf (errs : List GoError) :
    ∀ d : DcpDriver, d.errChan.buf.length ≤ d.errChan.cap →
    (errs.foldl DcpClient.reportError d).errChan =
      { cap := d.errChan.cap, buf := (d.errChan.buf ++ errs).take d.errChan.cap } := by
  induction errs with
  | nil =>
    intro d h
    simp [List.take_of_length_le h]
  | cons e es ih =>
    intro d h
    have h1 : (DcpClient.reportError d e).errChan =
        { cap := d.errChan.cap, buf := (d.errChan.buf ++ [e]).take d.errChan.cap } :=
      offer_buf d.errChan e h
    rw [List.foldl_cons, ih _ (by rw [h1]; simp [List.length_take]), h1]
    simp only [ErrChan.mk.injEq, true_and]
    rw [take_take_append, List.append_assoc]
    rfl

theorem isSplitFrom_le : ∀ (l : List (Nat × Nat)) (a m : Nat),
    isSplitFrom a l m = true → a ≤ m := by
  intro l
  induction l with
  | nil =>
    intro a m h
    simp [isSplitFrom] at h
    omega
  | cons p l ih =>
    intro a m h
    simp only [isSplitFrom, Bool.and_eq_true, decide_eq_true_eq] at h
    have := ih p.2 m h.2
    omega

/-- Every range of a split lies within the bounds of the split. -/
theorem isSplitFrom_bounds : ∀ (l : List (Nat × Nat)) (a m : Nat),
    isSplitFrom a l m = true → ∀ p ∈ l, a ≤ p.1 ∧ p.1 ≤ p.2 ∧ p.2 ≤ m := by
  intro l
  induction l with
  | nil =>
    intro a m _ p hp
    cases hp
  | cons q l ih =>
    intro a m h p hp
    simp only [isSplitFrom, Bool.and_eq_true, decide_eq_true_eq] at h
    have hle := isSplitFrom_le l q.2 m h.2
    rcases List.mem_cons.1 hp with hpq | hpl
    · rw [hpq]; omega
    · have := ih q.2 m h.2 p hpl
      omega

/-- The slices of a split, put one after the other, are the list between the bounds. -/
theorem flatten_slices (L : List Nat) : ∀ (l : List (Nat × Nat)) (a m : Nat),
    isSplitFrom a l m = true →
    (l.map (sliceOf L)).flatten = (L.drop a).take (m - a) := by
  intro l
  induction l with
  | nil =>
    intro a m h
    simp [isSplitFrom] at h
    simp [h]
  | cons p l ih =>
    intro a m h
    simp only [isSplitFrom, Bool.and_eq_true, decide_eq_true_eq] at h
    have hle := isSplitFrom_le l p.2 m h.2
    obtain ⟨⟨h1, h2⟩, h3⟩ := h
    rw [List.map_cons, List.flatten_cons, ih p.2 m h3]
    unfold sliceOf
    have hm : m - a = (p.2 - p.1) + (m - p.2) := by omega
    rw [hm, List.take_add, List.drop_drop, h1]
    congr 3
    omega

theorem flatten_slices_eq (L : List Nat) (l : List (Nat × Nat))
    (h : isSplitFrom 0 l L.length = true) : (l.map (sliceOf L)).flatten = L := by
  rw [flatten_slices L l 0 L.length h]
  simp

/-- In a split of a list without duplicates, an element lies in the slice of one range
only. -/
theorem slice_unique (L : List Nat) (hnd : L.Nodup) (l : List (Nat × Nat))
    (h : isSplitFrom 0 l L.length = true) (j j2 : Nat) (p p2 : Nat × Nat) (v : Nat)
    (hj : l[j]? = some p) (hj2 : l[j2]? = some p2)
    (hv : v ∈ sliceOf L p) (hv2 : v ∈ sliceOf L p2) : j = j2 := by
  have hflat := flatten_slices_eq L l h
  rw [← hflat] at hnd
  have hpw := (List.nodup_flatten.1 hnd).2
  rw [List.pairwise_map, List.pairwise_iff_getElem] at hpw
  obtain ⟨hjl, hjp⟩ := List.getElem?_eq_some_iff.1 hj
  obtain ⟨hjl2, hjp2⟩ := List.getElem?_eq_some_iff.1 hj2
  rcases Nat.lt_trichotomy j j2 with hlt | heq | hgt
  · have hd := hpw j j2 hjl hjl2 hlt
    rw [hjp, hjp2] at hd
    exact absurd hv2 (hd hv)
  · exact heq
  · have hd := hpw j2 j hjl2 hjl hgt
    rw [hjp, hjp2] at hd
    exact absurd hv (hd hv2)

/-- In a split of a list, every element lies in the slice of some range. -/
theorem slice_exists (L : List Nat) (l : List (Nat × Nat))
    (h : isSplitFrom 0 l L.length = true) (v : Nat) (hv : v ∈ L) :
    ∃ (j : Nat) (p : Nat × Nat), l[j]? = some p ∧ v ∈ sliceOf L p := by
  have hflat := flatten_slices_eq L l h
  rw [← hflat, List.mem_flatten] at hv
  obtain ⟨s, hs, hvs⟩ := hv
  obtain ⟨p, hp, rfl⟩ := List.mem_map.1 hs
  obtain ⟨j, hj, hjp⟩ := List.getElem_of_mem hp
  have hjq : l[j]? = some p := by
    rw [← hjp]
    exact List.getElem?_eq_getElem hj
  exact ⟨j, p, hjq, hvs⟩

theorem slice_sublist (L : List Nat) (p : Nat × Nat) : (sliceOf L p).Sublist L :=
  (List.take_sublist _ _).trans (List.drop_sublist _ _)

theorem slice_bounds (L : List Nat) (l : List (Nat × Nat))
    (h : isSplitFrom 0 l L.length = true) (j : Nat) (p : Nat × Nat) (hj : l[j]? = some p) :
    p.1 ≤ p.2 ∧ p.2 ≤ L.length := by
  obtain ⟨hjl, hjp⟩ := List.getElem?_eq_some_iff.1 hj
  have := isSplitFrom_bounds l 0 L.length h p (by rw [← hjp]; exact List.getElem_mem hjl)
  omega

/-- The slice of `[0, .., V - 1]` for a range within `[0, V)`, `V <= 65536`, is what the
loop of `initializeDcpClients` computes. -/
theorem slice_range (V : Nat) (hV : V ≤ 65536) (p : Nat × Nat) (h1 : p.1 ≤ p.2)
    (h2 : p.2 ≤ V) :
    (List.range' p.1 (p.2 - p.1)).map (fun j => j % 65536) = sliceOf (List.range V) p := by
  unfold sliceOf
  have hmap : (List.range' p.1 (p.2 - p.1)).map (fun j => j % 65536)
      = List.range' p.1 (p.2 - p.1) := by
    conv_rhs => rw [← List.map_id (List.range' p.1 (p.2 - p.1))]
    apply List.map_congr_left
    intro x hx
    rw [List.mem_range'_1] at hx
    exact Nat.mod_eq_of_lt (by omega)
  rw [hmap]
  apply List.ext_getElem?
  intro n
  by_cases hn : n < p.2 - p.1
  · rw [List.getElem?_take_of_lt hn, List.getElem?_drop, List.getElem?_range (by omega),
      List.getElem?_range' _ _ hn]
    simp
  · rw [List.getElem?_eq_none (by simp; omega), List.getElem?_eq_none]
    rw [List.length_take]
    omega

/-- The map after the loop that assigns the vbuckets `vs` to the handler `j`. -/
theorem lookup_foldl_insert (j v : Nat) (vs : List Nat) :
    ∀ m : VbMap Nat, (vs.foldl (fun m vbno => m.insert vbno j) m).lookup v =
      if v ∈ vs then some j else m.lookup v := by
  induction vs with
  | nil => intro m; simp
  | cons x xs ih =>
    intro m
    rw [List.foldl_cons, ih]
    by_cases hx : v = x
    · subst hx
      simp [AList.lookup_insert]
    · by_cases hxs : v ∈ xs
      · simp [hxs]
      · simp [hxs, hx, AList.lookup_insert_ne hx]

/-- One round of the loop of `initializeDcpHandlers` when the handler can be constructed
and started. -/
theorem initializeDcpHandler_ok (o : Outcomes) (i k : Nat) (ld : List (Nat × Nat))
    (d : DcpDriver) (c : DcpClient) (hc : d.client i = some c) (hnd : c.vbList.Nodup)
    (hsplit : isSplitFrom 0 ld c.vbList.length = true) (hk : k < ld.length)
    (hlen : c.dcpHandlers.length = ld.length)
    (hnew : o.newDcpHandler i k = none) (hstart : o.handlerStart i k = none)
    (hgood : c.HandlersAssigned ld k) :
    ∃ c1 t, DcpClient.initializeDcpHandler o i ld k d =
        some ({ d with clients := d.clients.set i (some c1), trace := d.trace ++ t }, none) ∧
      c1.vbList = c.vbList ∧ c1.dcpHandlers.length = ld.length ∧
      c1.finClosed = c.finClosed ∧
      c1.HandlersAssigned ld (k + 1) := by
  obtain ⟨p, hp⟩ : ∃ p, ld[k]? = some p := ⟨ld[k], List.getElem?_eq_getElem hk⟩
  obtain ⟨hb1, hb2⟩ := slice_bounds c.vbList ld hsplit k p hp
  unfold DcpClient.initializeDcpHandler
  simp only [hc, hp]
  rw [if_neg (by omega), if_neg (by omega)]
  simp only [hnew, hstart]
  rw [if_neg (by omega)]
  refine ⟨_, [Event.handlerStart i k], rfl, rfl, by simp [hlen], rfl, ?_, ?_⟩
  · intro j q hj hq
    simp only
    by_cases hjk : j = k
    · subst hjk
      rw [hq] at hp
      simp only [Option.some.injEq] at hp
      subst hp
      rw [List.getElem?_set_self (by omega)]
      rfl
    · rw [List.getElem?_set_ne (Ne.symm hjk)]
      exact hgood.1 j q (by omega) hq
  · intro j q v hj hq hv
    simp only at hv ⊢
    rw [lookup_foldl_insert]
    by_cases hjk : j = k
    · subst hjk
      rw [hq] at hp
      simp only [Option.some.injEq] at hp
      subst hp
      have hv1 : v ∈ (c.vbList.drop q.1).take (q.2 - q.1) := hv
      rw [if_pos hv1]
    · have hv1 : v ∉ (c.vbList.drop p.1).take (p.2 - p.1) := by
        intro hcon
        exact hjk (slice_unique c.vbList hnd ld hsplit j k q p v hq hp hv hcon)
      rw [if_neg hv1]
      exact hgood.2 j q v (by omega) hq hv

theorem clients_getElem_of_client (d : DcpDriver) (i : Nat) (c : DcpClient)
    (hc : d.client i = some c) : d.clients[i]? = some (some c) := by
  unfold DcpDriver.client at hc
  cases h : d.clients[i]? with
  | none => rw [h] at hc; simp at hc
  | some x =>
    rw [h] at hc
    simp only [Option.join] at hc
    rw [← hc]
    cases x <;> simp_all

theorem clients_set_self (d : DcpDriver) (i : Nat) (c : DcpClient)
    (hc : d.client i = some c) : d.clients.set i (some c) = d.clients := by
  have h := clients_getElem_of_client d i c hc
  obtain ⟨hlt, _⟩ := List.getElem?_eq_some_iff.1 h
  apply List.ext_getElem?
  intro n
  by_cases hn : i = n
  · subst hn
    rw [List.getElem?_set_self hlt, h]
  · rw [List.getElem?_set_ne hn]

/-- The loop of `initializeDcpHandlers` from the handler index `k` on, when every handler
can be constructed and started. -/
theorem initializeDcpHandlers_loop (o : Outcomes) (i : Nat) (ld : List (Nat × Nat))
    (L : List Nat) (hnd : L.Nodup) (hsplit : isSplitFrom 0 ld L.length = true)
    (hnew : ∀ j, j < ld.length → o.newDcpHandler i j = none)
    (hstart : ∀ j, j < ld.length → o.handlerStart i j = none) (m : Nat) :
    ∀ (k : Nat) (d : DcpDriver) (c : DcpClient), k + m = ld.length →
    d.client i = some c → c.vbList = L → c.dcpHandlers.length = ld.length →
    c.HandlersAssigned ld k →
    ∃ c1 t, forErr (DcpClient.initializeDcpHandler o i ld) (List.range' k m) d =
        some ({ d with clients := d.clients.set i (some c1), trace := d.trace ++ t }, none) ∧
      c1.vbList = L ∧ c1.dcpHandlers.length = ld.length ∧
      c1.finClosed = c.finClosed ∧
      c1.HandlersAssigned ld ld.length := by
  induction m with
  | zero =>
    intro k d c hkm hc hL hlen hgood
    have hk : k = ld.length := by omega
    refine ⟨c, [], ?_, hL, hlen, rfl, by rw [← hk]; exact hgood⟩
    simp [forErr, clients_set_self d i c hc]
  | succ m ih =>
    intro k d c hkm hc hL hlen hgood
    obtain ⟨c1, t1, h1, hL1, hlen1, hfin1, hgood1⟩ := initializeDcpHandler_ok o i k ld d c hc
      (by rw [hL]; exact hnd) (by rw [hL]; exact hsplit) (by omega) hlen
      (hnew k (by omega)) (hstart k (by omega)) hgood
    have hlt : i < d.clients.length := client_lt_length d i c hc
    have hc1 : DcpDriver.client
        { d with clients := d.clients.set i (some c1), trace := d.trace ++ t1 } i
        = some c1 := by
      simp [DcpDriver.client, hlt]
    obtain ⟨c2, t2, h2, hL2, hlen2, hfin2, hgood2⟩ := ih (k + 1) _ c1 (by omega) hc1
      (hL1.trans hL) hlen1 hgood1
    refine ⟨c2, t1 ++ t2, ?_, hL2, hlen2, hfin2.trans hfin1, hgood2⟩
    simp only [List.range', forErr, h1, h2]
    simp [List.append_assoc]

/-- `DcpClient.Start` when the cluster, the bucket and the handlers all come up. -/
theorem clientStart_ok (env : Env) (o : Outcomes) (i : Nat) (d : DcpDriver) (c : DcpClient)
    (hc : d.client i = some c) (hnd : c.vbList.Nodup)
    (hsplit : IsSplit (env.BalanceLoad d.numberOfWorkers c.vbList.length)
      d.numberOfWorkers c.vbList.length)
    (hlen : c.dcpHandlers.length = d.numberOfWorkers)
    (hconnect : o.connect i = none)
    (hauth : d.rbacSupported = true → o.authenticate i = none)
    (hbucket : o.openStreamingBucket i = none)
    (hnew : ∀ j, j < d.numberOfWorkers → o.newDcpHandler i j = none)
    (hstart : ∀ j, j < d.numberOfWorkers → o.handlerStart i j = none) :
    ∃ c1 t, DcpClient.Start env o i d =
        some ({ d with clients := d.clients.set i (some c1), trace := d.trace ++ t }, none) ∧
      c1.vbList = c.vbList ∧ c1.dcpHandlers.length = d.numberOfWorkers ∧
      c1.finClosed = c.finClosed ∧
      c1.HandlersAssigned (env.BalanceLoad d.numberOfWorkers c.vbList.length)
        d.numberOfWorkers := by
  have hlt : i < d.clients.length := client_lt_length d i c hc
  have hauth2 : (if d.rbacSupported = true then o.authenticate i else none) = none := by
    by_cases hr : d.rbacSupported = true
    · rw [if_pos hr]; exact hauth hr
    · rw [if_neg hr]
  -- the driver after `initializeCluster` and `initializeBucket`
  have hc2 : DcpDriver.client
      (((d.record (Event.clientStart i)).setClient i { c with clusterSet := true }).setClient i
        { c with clusterSet := true, bucketOpen := true }) i
      = some { c with clusterSet := true, bucketOpen := true } := by
    simp [DcpDriver.client, DcpDriver.setClient, DcpDriver.record, hlt]
  obtain ⟨hl, hs⟩ := hsplit
  obtain ⟨c1, t, h1, hL1, hlen1, hfin1, hgood1⟩ := initializeDcpHandlers_loop o i
    (env.BalanceLoad d.numberOfWorkers c.vbList.length) c.vbList hnd hs
    (fun j hj => hnew j (by omega)) (fun j hj => hstart j (by omega)) d.numberOfWorkers 0 _
    { c with clusterSet := true, bucketOpen := true } (by omega) hc2 rfl
    (by rw [hl]; exact hlen)
    ⟨fun j p hj _ => absurd hj (Nat.not_lt_zero j), fun j p v hj _ _ =>
      absurd hj (Nat.not_lt_zero j)⟩
  refine ⟨c1, [Event.clientStart i] ++ t ++ [Event.go i Task.handleDcpStreams], ?_, hL1,
    by rw [hlen1, hl], hfin1,
    by
      have hg : ∀ n, (env.BalanceLoad d.numberOfWorkers c.vbList.length).length = n →
          c1.HandlersAssigned (env.BalanceLoad d.numberOfWorkers c.vbList.length) n := by
        intro n hn
        subst hn
        exact hgood1
      exact hg _ hl⟩
  have hc0 : (d.record (Event.clientStart i)).client i = some c := hc
  have hc1 : ((d.record (Event.clientStart i)).setClient i { c with clusterSet := true }).client i
      = some { c with clusterSet := true } := by
    simp [DcpDriver.client, DcpDriver.setClient, DcpDriver.record, hlt]
  unfold DcpClient.Start DcpClient.initializeClient DcpClient.initializeCluster
  simp only [hc0, hconnect]
  have hr : (d.record (Event.clientStart i)).rbacSupported = d.rbacSupported := rfl
  simp only [hr, hauth2]
  unfold DcpClient.initializeBucket
  simp only [hc1, hbucket, if_true, Option.isNone_none]
  unfold DcpClient.initializeDcpHandlers
  simp only [hc2]
  have hw : (((d.record (Event.clientStart i)).setClient i
      { c with clusterSet := true }).setClient i
        { c with clusterSet := true, bucketOpen := true }).numberOfWorkers
      = d.numberOfWorkers := rfl
  rw [hw, List.range_eq_range', h1]
  simp [DcpDriver.setClient, DcpDriver.record, List.append_assoc]

theorem length_sliceOf (L : List Nat) (p : Nat × Nat) (h1 : p.1 ≤ p.2) (h2 : p.2 ≤ L.length) :
    (sliceOf L p).length = p.2 - p.1 := by
  unfold sliceOf
  rw [List.length_take, List.length_drop]
  omega

/-- One round of the loop of `initializeDcpClients` when the client starts. -/
theorem initializeDcpClient_ok (env : Env) (o : Outcomes) (ld : List (Nat × Nat)) (k : Nat)
    (d : DcpDriver) (p : Nat × Nat)
    (hV : env.NumberOfVbuckets ≤ 65536)
    (hsplit : isSplitFrom 0 ld env.NumberOfVbuckets = true)
    (hsplitH : ∀ q ∈ ld, IsSplit (env.BalanceLoad d.numberOfWorkers (q.2 - q.1))
      d.numberOfWorkers (q.2 - q.1))
    (hp : ld[k]? = some p) (hk : k < d.clients.length)
    (hconnect : o.connect k = none)
    (hauth : d.rbacSupported = true → o.authenticate k = none)
    (hbucket : o.openStreamingBucket k = none)
    (hnew : ∀ j, j < d.numberOfWorkers → o.newDcpHandler k j = none)
    (hstart : ∀ j, j < d.numberOfWorkers → o.handlerStart k j = none) :
    ∃ c1 t, DcpDriver.initializeDcpClient env o ld k d =
        some ({ d with
          clients := d.clients.set k (some c1)
          childWaitGroup := d.childWaitGroup + 1
          trace := d.trace ++ t }, none) ∧
      c1.Assigned env d.numberOfWorkers p ∧ c1.finClosed = false := by
  have hb := slice_bounds (List.range env.NumberOfVbuckets) ld
    (by rw [List.length_range]; exact hsplit) k p hp
  rw [List.length_range] at hb
  have hvb := slice_range env.NumberOfVbuckets hV p hb.1 hb.2
  have hpm : p ∈ ld := by
    obtain ⟨hlt, hget⟩ := List.getElem?_eq_some_iff.1 hp
    rw [← hget]; exact List.getElem_mem hlt
  have hlenS : (sliceOf (List.range env.NumberOfVbuckets) p).length = p.2 - p.1 :=
    length_sliceOf _ p hb.1 (by rw [List.length_range]; exact hb.2)
  have hcl : DcpDriver.client
      { d with
        childWaitGroup := d.childWaitGroup + 1
        clients := d.clients.set k (some (NewDcpClient
          { d with childWaitGroup := d.childWaitGroup + 1 } k
          (sliceOf (List.range env.NumberOfVbuckets) p))) } k
      = some (NewDcpClient { d with childWaitGroup := d.childWaitGroup + 1 } k
          (sliceOf (List.range env.NumberOfVbuckets) p)) := by
    simp [DcpDriver.client, hk]
  obtain ⟨c1, t, h1, hL1, hlen1, hfin1, hgood1⟩ := clientStart_ok env o k _ _ hcl
    ((slice_sublist _ p).nodup (List.nodup_range _))
    (by
      show IsSplit (env.BalanceLoad d.numberOfWorkers
        (sliceOf (List.range env.NumberOfVbuckets) p).length) d.numberOfWorkers
        (sliceOf (List.range env.NumberOfVbuckets) p).length
      rw [hlenS]
      exact hsplitH p hpm)
    (by simp [NewDcpClient]) hconnect hauth hbucket hnew hstart
  refine ⟨c1, t, ?_, ⟨hL1, hlen1, ?_⟩, hfin1⟩
  · unfold DcpDriver.initializeDcpClient
    simp only [hp]
    rw [if_neg (by omega), if_neg (by omega)]
    simp only [hvb]
    rw [h1]
    simp [List.set_set]
  · have hL : c1.vbList.length = (sliceOf (List.range env.NumberOfVbuckets) p).length := by
      rw [hL1]; rfl
    rw [hL]
    exact hgood1

/-- The loop of `initializeDcpClients` from the client index `k` on, when every client
starts: the clients before `k` stay as they are, the clients from `k` on come out
assigned. -/
theorem initializeDcpClients_loop (env : Env) (o : Outcomes) (ld : List (Nat × Nat))
    (n w : Nat) (r : Bool)
    (hV : env.NumberOfVbuckets ≤ 65536)
    (hlen : ld.length = n)
    (hsplit : isSplitFrom 0 ld env.NumberOfVbuckets = true)
    (hsplitH : ∀ q ∈ ld, IsSplit (env.BalanceLoad w (q.2 - q.1)) w (q.2 - q.1))
    (hstart : o.ClientsStart r n w) (m : Nat) :
    ∀ (k : Nat) (d : DcpDriver), k + m = n → d.clients.length = n →
    d.numberOfWorkers = w → d.rbacSupported = r →
    (∀ (i : Nat) (p : Nat × Nat), i < k → ld[i]? = some p →
      ∃ c, d.client i = some c ∧ c.Assigned env w p ∧ c.finClosed = false) →
    ∃ d1, forErr (DcpDriver.initializeDcpClient env o ld) (List.range' k m) d
        = some (d1, none) ∧
      d1 = { d with
        clients := d1.clients
        childWaitGroup := d.childWaitGroup + m
        trace := d1.trace } ∧
      d1.clients.length = n ∧
      ∀ (i : Nat) (p : Nat × Nat), i < n → ld[i]? = some p →
        ∃ c, d1.client i = some c ∧ c.Assigned env w p ∧ c.finClosed = false := by
  induction m with
  | zero =>
    intro k d hkm hcl _ _ hinv
    have hk : k = n := by omega
    exact ⟨d, rfl, rfl, hcl, by rw [← hk]; exact hinv⟩
  | succ m ih =>
    intro k d hkm hcl hw hr hinv
    have hkl : k < ld.length := by omega
    obtain ⟨p, hp⟩ : ∃ p, ld[k]? = some p := ⟨ld[k], List.getElem?_eq_getElem hkl⟩
    obtain ⟨hco, hau, hbu, hha⟩ := hstart k (by omega)
    obtain ⟨c1, t1, h1, hgood1, hfin1⟩ := initializeDcpClient_ok env o ld k d p hV hsplit
      (by rw [hw]; exact hsplitH) hp (by omega) hco (by rw [hr]; exact hau) hbu
      (fun j hj => (hha j (by omega)).1) (fun j hj => (hha j (by omega)).2)
    obtain ⟨d2, h2, hd2, hcl2, hinv2⟩ := ih (k + 1)
      { d with
        clients := d.clients.set k (some c1)
        childWaitGroup := d.childWaitGroup + 1
        trace := d.trace ++ t1 }
      (by omega) (by simp [hcl]) hw hr
      (by
        intro i q hi hq
        by_cases hik : i = k
        · subst hik
          rw [hq] at hp
          simp only [Option.some.injEq] at hp
          subst hp
          refine ⟨c1, ?_, by rw [← hw]; exact hgood1, hfin1⟩
          simp [DcpDriver.client, hcl, hkm.symm ▸ (by omega : i < i + (m + 1))]
        · obtain ⟨c, hc, hg⟩ := hinv i q (by omega) hq
          refine ⟨c, ?_, hg⟩
          rw [← hc]
          simp [DcpDriver.client, List.getElem?_set_ne (Ne.symm hik)])
    refine ⟨d2, ?_, ?_, hcl2, hinv2⟩
    · simp only [List.range', forErr, h1]
      exact h2
    · conv_lhs => rw [hd2]
      simp only [DcpDriver.mk.injEq, true_and, and_true]
      omega

/-- What `initializeDcpClients` leaves when every client starts: every client is assigned. -/
theorem initializeDcpClients_ok (env : Env) (o : Outcomes) (d : DcpDriver)
    (hV : env.NumberOfVbuckets ≤ 65536)
    (hsplit : IsSplit (env.BalanceLoad d.numberOfClients env.NumberOfVbuckets)
      d.numberOfClients env.NumberOfVbuckets)
    (hsplitH : ∀ q ∈ env.BalanceLoad d.numberOfClients env.NumberOfVbuckets,
      IsSplit (env.BalanceLoad d.numberOfWorkers (q.2 - q.1)) d.numberOfWorkers (q.2 - q.1))
    (hstart : o.ClientsStart d.rbacSupported d.numberOfClients d.numberOfWorkers) :
    ∃ d1, DcpDriver.initializeDcpClients env o d = some (d1, none) ∧
      d1 = { d with
        clients := d1.clients
        childWaitGroup := d.numberOfClients
        trace := d1.trace } ∧
      d1.clients.length = d.numberOfClients ∧
      ∀ (i : Nat) (p : Nat × Nat), i < d.numberOfClients →
        (env.BalanceLoad d.numberOfClients env.NumberOfVbuckets)[i]? = some p →
        ∃ c, d1.client i = some c ∧ c.Assigned env d.numberOfWorkers p ∧
          c.finClosed = false := by
  obtain ⟨d1, h1, hd1, hcl1, hinv1⟩ := initializeDcpClients_loop env o
    (env.BalanceLoad d.numberOfClients env.NumberOfVbuckets) d.numberOfClients
    d.numberOfWorkers d.rbacSupported hV hsplit.1 hsplit.2 hsplitH hstart d.numberOfClients 0
    { d with clients := List.replicate d.numberOfClients none, childWaitGroup := 0 }
    (by omega) (by simp) rfl rfl (fun i p hi _ => absurd hi (Nat.not_lt_zero i))
  refine ⟨d1, ?_, ?_, hcl1, hinv1⟩
  · unfold DcpDriver.initializeDcpClients
    simp only [List.range_eq_range']
    exact h1
  · conv_lhs => rw [hd1]
    simp

/-- A driver whose clients all exist with an open `finChan`, whose child wait group counts
them and whose parent wait group counts the driver, is ready to be stopped. -/
theorem stopReady_of_clients (d : DcpDriver)
    (hcl : ∀ i, i < d.clients.length → ∃ c, d.client i = some c ∧ c.finClosed = false)
    (hwg : d.childWaitGroup = d.clients.length) (hpw : 0 < d.waitGroup) : StopReady d := by
  refine ⟨List.all_eq_true.2 ?_, hwg, hpw⟩
  intro x hx
  obtain ⟨i, hi, hix⟩ := List.getElem_of_mem hx
  obtain ⟨c, hc, hfin⟩ := hcl i hi
  have hget := clients_getElem_of_client d i c hc
  rw [List.getElem?_eq_getElem hi, hix] at hget
  simp only [Option.some.injEq] at hget
  rw [hget]
  simp [hfin]

/-- A `Start` during which no collaborator fails, on a driver that its parent wait group
counts, returns nil and leaves a started driver that is ready to be stopped. -/
theorem driverStart_ok (env : Env) (o : Outcomes) (d : DcpDriver)
    (hV : env.NumberOfVbuckets ≤ 65536) (hpw : 0 < d.waitGroup)
    (hsplit : IsSplit (env.BalanceLoad d.numberOfClients env.NumberOfVbuckets)
      d.numberOfClients env.NumberOfVbuckets)
    (hsplitH : ∀ q ∈ env.BalanceLoad d.numberOfClients env.NumberOfVbuckets,
      IsSplit (env.BalanceLoad d.numberOfWorkers (q.2 - q.1)) d.numberOfWorkers (q.2 - q.1))
    (hcred : o.getRBACSupportedAndBucketPassword.2.2 = none)
    (hinit : o.cmInitialize = none) (hcm : o.cmStart = none)
    (hstart : o.ClientsStart o.getRBACSupportedAndBucketPassword.1 d.numberOfClients
      d.numberOfWorkers) :
    ∃ d1, DcpDriver.Start env o d = some (d1, none) ∧
      d1.state = DriverState.DriverStateStarted ∧ StopReady d1 := by
  obtain ⟨d1, h1, hd1, hcl1, hinv1⟩ := initializeDcpClients_ok env o
    (((DcpDriver.populateCredentials o d).1.record Event.checkpointManagerInitialize).record
      Event.checkpointManagerStart) hV hsplit hsplitH hstart
  have hcl2 : d1.clients.length = d.numberOfClients := hcl1
  refine ⟨d1.setState DriverState.DriverStateStarted, ?_, rfl, ?_⟩
  · unfold DcpDriver.Start
    have hp : DcpDriver.populateCredentials o d =
        ((DcpDriver.populateCredentials o d).1, none) := by
      simp [DcpDriver.populateCredentials, hcred]
    have hq : DcpDriver.initializeAndStartCheckpointManager o
        (DcpDriver.populateCredentials o d).1 =
        ((((DcpDriver.populateCredentials o d).1.record
          Event.checkpointManagerInitialize).record Event.checkpointManagerStart), none) := by
      simp [DcpDriver.initializeAndStartCheckpointManager, hinit, hcm]
    rw [hp]
    simp only [hq, h1]
  · apply stopReady_of_clients
    · intro i hi
      have hiN : i < d.numberOfClients := by
        rw [← hcl2]; exact hi
      have hil : i < (env.BalanceLoad d.numberOfClients env.NumberOfVbuckets).length := by
        rw [hsplit.1]; exact hiN
      obtain ⟨c, hc, _, hfin⟩ := hinv1 i _ hiN (List.getElem?_eq_getElem hil)
      exact ⟨c, hc, hfin⟩
    · show d1.childWaitGroup = d1.clients.length
      have hw : d1.childWaitGroup = d.numberOfClients := by rw [hd1]; rfl
      rw [hw]
      exact hcl2.symm
    · show 0 < d1.waitGroup
      have hw : d1.waitGroup = d.waitGroup := by rw [hd1]; rfl
      rw [hw]
      exact hpw

/-- One round of the closing loop of `DcpClient.Stop` on a client with a bucket. -/
theorem closeStreamIfOpen_step (o : Outcomes) (i v : Nat) (d : DcpDriver) (c : DcpClient)
    (hc : d.client i = some c) (hb : c.bucketOpen = true) :
    DcpClient.closeStreamIfOpen o i v d =
      if d.getVbState v ≠ VBState.VBStateStreamClosed then
        (match o.closeStream i v with
          | none => some ((d.record (Event.closeStream i v)).setVbState v
              VBState.VBStateStreamClosed)
          | some _ => some (d.record (Event.closeStream i v)))
      else some d := by
  unfold DcpClient.closeStreamIfOpen
  rw [closeStream_eq o i v d c hc, if_pos hb]
  by_cases hs : d.getVbState v ≠ VBState.VBStateStreamClosed
  · rw [if_pos hs, if_pos hs]
    cases o.closeStream i v <;> rfl
  · rw [if_neg hs, if_neg hs]

/-- The closing loop of `DcpClient.Stop` on a client with a bucket: the requests it issues
and the vbucket states it leaves. -/
theorem closeStreams_requests (o : Outcomes) (i : Nat) (vs : List Nat) :
    ∀ (d : DcpDriver) (c : DcpClient), d.client i = some c → c.bucketOpen = true →
    ∃ (d1 : DcpDriver) (reqs : List Nat),
      forEach (DcpClient.closeStreamIfOpen o i) vs d = some d1 ∧
      d1 = { d with
        vbStates := d1.vbStates
        trace := d.trace ++ reqs.map (Event.closeStream i) } ∧
      reqs.Sublist vs ∧
      (∀ v, v ∈ reqs ↔ v ∈ vs ∧ d.getVbState v ≠ VBState.VBStateStreamClosed) ∧
      ∀ v, d1.getVbState v =
        if v ∈ reqs ∧ o.closeStream i v = none then VBState.VBStateStreamClosed
        else d.getVbState v := by
  induction vs with
  | nil =>
    intro d c _ _
    exact ⟨d, [], rfl, by simp, List.Sublist.slnil, by simp, by simp⟩
  | cons a vs ih =>
    intro d c hc hb
    rw [forEach, closeStreamIfOpen_step o i a d c hc hb]
    by_cases hs : d.getVbState a ≠ VBState.VBStateStreamClosed
    · rw [if_pos hs]
      cases ho : o.closeStream i a with
      | none =>
        have hc1 : ((d.record (Event.closeStream i a)).setVbState a
            VBState.VBStateStreamClosed).client i = some c := hc
        obtain ⟨d1, reqs, h1, hd1, hsub, hmem, hst⟩ := ih _ c hc1 hb
        refine ⟨d1, a :: reqs, h1, ?_, hsub.cons₂ a, ?_, ?_⟩
        · conv_lhs => rw [hd1]
          simp [DcpDriver.record, DcpDriver.setVbState, List.append_assoc]
        · intro v
          rw [List.mem_cons, hmem v, List.mem_cons]
          by_cases hva : v = a
          · subst hva
            simp [hs]
          · simp [hva, DcpDriver.getVbState, DcpDriver.setVbState, DcpDriver.record]
        · intro v
          rw [hst v]
          by_cases hva : v = a
          · subst hva
            simp [ho, DcpDriver.getVbState, DcpDriver.setVbState]
          · simp [hva, DcpDriver.getVbState, DcpDriver.setVbState, DcpDriver.record]
      | some e =>
        have hc1 : (d.record (Event.closeStream i a)).client i = some c := hc
        obtain ⟨d1, reqs, h1, hd1, hsub, hmem, hst⟩ := ih _ c hc1 hb
        refine ⟨d1, a :: reqs, h1, ?_, hsub.cons₂ a, ?_, ?_⟩
        · conv_lhs => rw [hd1]
          simp [DcpDriver.record, List.append_assoc]
        · intro v
          rw [List.mem_cons, hmem v, List.mem_cons]
          by_cases hva : v = a
          · subst hva
            simp [hs]
          · simp [hva, DcpDriver.getVbState, DcpDriver.record]
        · intro v
          rw [hst v]
          by_cases hva : v = a
          · subst hva
            simp [ho, DcpDriver.getVbState, DcpDriver.record]
          · simp [hva, DcpDriver.getVbState, DcpDriver.record]
    · rw [if_neg hs]
      obtain ⟨d1, reqs, h1, hd1, hsub, hmem, hst⟩ := ih d c hc hb
      refine ⟨d1, reqs, h1, hd1, hsub.cons a, ?_, hst⟩
      intro v
      rw [hmem v, List.mem_cons]
      constructor
      · rintro ⟨h1, h2⟩
        exact ⟨Or.inr h1, h2⟩
      · rintro ⟨h1 | h1, h2⟩
        · subst h1
          exact absurd h2 hs
        · exact ⟨h1, h2⟩

/-- A sublist of a list without duplicates that holds exactly the elements with a
property is the list filtered by the property. -/
theorem sublist_eq_filter (p : Nat → Bool) (l1 l : List Nat) (hsub : l1.Sublist l)
    (hnd : l.Nodup) (hmem : ∀ v, v ∈ l1 ↔ v ∈ l ∧ p v = true) : l1 = l.filter p := by
  induction hsub with
  | slnil => rfl
  | @cons l1 l a hs ih =>
    have hpa : p a = false := by
      cases hp : p a with
      | false => rfl
      | true =>
        have : a ∈ l1 := (hmem a).2 ⟨List.mem_cons_self a l, hp⟩
        exact absurd (hs.subset this) (List.nodup_cons.1 hnd).1
    rw [List.filter_cons_of_neg (by simp [hpa])]
    apply ih (List.nodup_cons.1 hnd).2
    intro v
    constructor
    · intro hv
      exact ⟨hs.subset hv, ((hmem v).1 hv).2⟩
    · rintro ⟨hv, hp⟩
      exact (hmem v).2 ⟨List.mem_cons_of_mem a hv, hp⟩
  | @cons₂ l1 l a hs ih =>
    have hpa : p a = true := ((hmem a).1 (List.mem_cons_self a l1)).2
    rw [List.filter_cons_of_pos hpa]
    congr 1
    apply ih (List.nodup_cons.1 hnd).2
    intro v
    constructor
    · intro hv
      exact ⟨hs.subset hv, ((hmem v).1 (List.mem_cons_of_mem a hv)).2⟩
    · rintro ⟨hv, hp⟩
      rcases List.mem_cons.1 ((hmem v).2 ⟨List.mem_cons_of_mem a hv, hp⟩) with h | h
      · subst h
        exact absurd hv (List.nodup_cons.1 hnd).1
      · exact h

/-- One round of the loop of `openDcpStreams` that does not fail: the request it makes and
what it records in the `vbState` map. -/
theorem openDcpStream_round (env : Env) (o : Outcomes) (i v : Nat) (d : DcpDriver)
    (c : DcpClient) (hcan : d.CanOpen i) (hc : d.client i = some c)
    (hok : o.needsStream v = true → o.openStream i v = none) :
    ∃ d1 t, DcpClient.openDcpStream env o i v d = some (d1, none) ∧
      d.OpensTo d1 ∧ d1.CanOpen i ∧ d1.trace = d.trace ++ t ∧
      t.filter (fun e => (e.openedVb).isSome) =
        ([v].filter o.needsStream).map (DcpClient.openRequest o i c.vbHandlerMap) ∧
      d1.vbState = if o.needsStream v = true then d.vbState else d.vbState.insert v true := by
  unfold DcpClient.openDcpStream
  simp only
  by_cases hn : (o.getStartVBTS v).NoNeedToStartDcpStream = true
  · rw [if_pos hn]
    have hns : o.needsStream v = false := by simp [Outcomes.needsStream, hn]
    obtain ⟨d1, t, h, hop, hvb, ht, hev, hr⟩ :=
      handleVbucketCompletion_nil_spec env o v d hcan.1
    refine ⟨d1, t, by rw [h]; rfl, hop, canOpen_of_opensTo i d d1 hcan hop hr, ht, ?_, ?_⟩
    · rw [List.filter_eq_nil_iff.2, List.filter_cons, hns]
      · rfl
      · intro e he
        have := hev e he
        cases e <;> simp [Event.isStopping] at this <;> simp [Event.openedVb]
    · rw [hvb, hns]
      simp
  · rw [if_neg hn]
    have hns : o.needsStream v = true := by simpa [Outcomes.needsStream] using hn
    obtain ⟨c0, hc0, hb⟩ := hcan.2
    rw [hc] at hc0
    cases hc0
    rw [hc]
    simp only [hb, if_true, hok hns]
    refine ⟨_, [DcpClient.openRequest o i c.vbHandlerMap v], rfl, opensTo_refl d, ?_, rfl,
      ?_, ?_⟩
    · exact ⟨hcan.1, c, hc, hb⟩
    · simp [Event.openedVb, hns, DcpClient.openRequest]
    · simp [hns, DcpDriver.record]

/-- The loop of `openDcpStreams` when no `OpenStream` returns an error: the requests made,
in loop order, and the vbuckets recorded as completed. -/
theorem openLoop_requests (env : Env) (o : Outcomes) (i : Nat) (m : VbMap Nat) :
    ∀ (vs : List Nat) (d : DcpDriver), d.CanOpen i →
    (∃ c, d.client i = some c ∧ c.vbHandlerMap = m) →
    (∀ x ∈ vs, o.needsStream x = true → o.openStream i x = none) →
    ∃ d1 t, forErr (DcpClient.openDcpStream env o i) vs d = some (d1, none) ∧
      d.OpensTo d1 ∧ d1.CanOpen i ∧ d1.trace = d.trace ++ t ∧
      t.filter (fun e => (e.openedVb).isSome) =
        (vs.filter o.needsStream).map (DcpClient.openRequest o i m) ∧
      ∀ w, d1.vbState.lookup w =
        if w ∈ vs ∧ o.needsStream w = false then some true else d.vbState.lookup w := by
  intro vs
  induction vs with
  | nil =>
    intro d hcan _ _
    exact ⟨d, [], rfl, opensTo_refl d, hcan, by simp, by simp, by simp⟩
  | cons x vs ih =>
    intro d hcan hm hpre
    obtain ⟨c, hc, hcm⟩ := hm
    obtain ⟨d1, t1, h1, hop1, hcan1, ht1, hf1, hvb1⟩ := openDcpStream_round env o i x d c hcan
      hc (hpre x (List.mem_cons_self x vs))
    obtain ⟨c1, hc1, hs1⟩ := hop1.2.2.2 i c hc
    obtain ⟨d2, t2, h2, hop2, hcan2, ht2, hf2, hvb2⟩ := ih d1 hcan1
      ⟨c1, hc1, by rw [hs1.2.2.2.2.2.1]; exact hcm⟩
      (fun y hy => hpre y (List.mem_cons_of_mem x hy))
    refine ⟨d2, t1 ++ t2, ?_, opensTo_trans _ _ _ hop1 hop2, hcan2, ?_, ?_, ?_⟩
    · simp only [forErr, h1, h2]
    · rw [ht2, ht1, List.append_assoc]
    · rw [List.filter_append, hf1, hf2, hcm, List.filter_cons, List.filter_cons]
      split <;> simp
    · intro w
      rw [hvb2 w, hvb1]
      by_cases hwx : w = x
      · subst hwx
        by_cases hn : o.needsStream w = true
        · simp [hn]
        · simp only [Bool.not_eq_true] at hn
          simp [hn, AList.lookup_insert]
      · by_cases hn : o.needsStream x = true
        · simp [hn, hwx]
        · simp [hn, hwx, AList.lookup_insert_ne hwx]

/-- Among requests for distinct vbuckets, those for one of the vbuckets. -/
theorem filter_openRequests (o : Outcomes) (i : Nat) (m : VbMap Nat) (l : List Nat)
    (hnd : l.Nodup) (v : Nat) (hv : v ∈ l) :
    (l.map (DcpClient.openRequest o i m)).filter (fun e => decide (e.openedVb = some v)) =
      [DcpClient.openRequest o i m v] := by
  induction l with
  | nil => simp at hv
  | cons a l ih =>
    obtain ⟨ha, hnd1⟩ := List.nodup_cons.1 hnd
    rw [List.map_cons, List.filter_cons]
    by_cases hav : a = v
    · subst hav
      have hnone : (l.map (DcpClient.openRequest o i m)).filter
          (fun e => decide (e.openedVb = some a)) = [] := by
        rw [List.filter_eq_nil_iff]
        intro e he
        obtain ⟨w, hw, rfl⟩ := List.mem_map.1 he
        have : w ≠ a := fun h => ha (h ▸ hw)
        simpa [DcpClient.openRequest, Event.openedVb] using this
      have hd : decide ((DcpClient.openRequest o i m a).openedVb = some a) = true := by
        simp [DcpClient.openRequest, Event.openedVb]
      rw [if_pos hd, hnone]
    · have hvl : v ∈ l := by
        rcases List.mem_cons.1 hv with h | h
        · exact absurd h.symm hav
        · exact h
      have hd : ¬ decide ((DcpClient.openRequest o i m a).openedVb = some v) = true := by
        simp [DcpClient.openRequest, Event.openedVb, hav]
      rw [if_neg hd]
      exact ih hnd1 hvl

/-- The handler that `vbHandlerMap` gives for a vbucket of an assigned client: it is in
place, its own `vbList` holds the vbucket, and no other handler of the client does. -/
theorem handler_of_vbucket (c : DcpClient) (ld : List (Nat × Nat)) (hnd : c.vbList.Nodup)
    (hsplit : IsSplit ld c.dcpHandlers.length c.vbList.length)
    (hassigned : c.HandlersAssigned ld c.dcpHandlers.length) (v : Nat) (hv : v ∈ c.vbList) :
    ∃ (j : Nat) (h : DcpHandler), c.vbHandlerMap.lookup v = some j ∧
      c.dcpHandlers[j]? = some (some h) ∧ h.index = j ∧ v ∈ h.vbList ∧
      ∀ (j2 : Nat) (h2 : DcpHandler), c.dcpHandlers[j2]? = some (some h2) →
        v ∈ h2.vbList → j2 = j := by
  obtain ⟨hlen, hsp⟩ := hsplit
  obtain ⟨j, p, hj, hvp⟩ := slice_exists c.vbList ld hsp v hv
  have hjl : j < c.dcpHandlers.length := by
    rw [← hlen]
    exact (List.getElem?_eq_some_iff.1 hj).1
  refine ⟨j, { index := j, vbList := sliceOf c.vbList p }, hassigned.2 j p v hjl hj hvp,
    hassigned.1 j p hjl hj, rfl, hvp, ?_⟩
  intro j2 h2 hj2 hv2
  have hj2l : j2 < c.dcpHandlers.length := (List.getElem?_eq_some_iff.1 hj2).1
  have hj2ld : j2 < ld.length := by rw [hlen]; exact hj2l
  have hp2 : ld[j2]? = some ld[j2] := List.getElem?_eq_getElem hj2ld
  have hh := hassigned.1 j2 ld[j2] hj2l hp2
  rw [hj2] at hh
  have hh2 : h2 = { index := j2, vbList := sliceOf c.vbList ld[j2] } := by
    simpa using hh
  rw [hh2] at hv2
  exact slice_unique c.vbList hnd ld hsp j2 j ld[j2] p v hp2 hj hv2 hvp

/-- A loop whose first rounds return no error goes on with the rest of the list. -/
theorem forErr_append_ok {α σ : Type} (body : α → σ → Option (σ × GoError)) (rest : List α) :
    ∀ (pre : List α) (s s0 : σ), forErr body pre s = some (s0, none) →
    forErr body (pre ++ rest) s = forErr body rest s0 := by
  intro pre
  induction pre with
  | nil =>
    intro s s0 h
    simp only [forErr, Option.some.injEq, Prod.mk.injEq, and_true] at h
    rw [h]; rfl
  | cons a pre ih =>
    intro s s0 h
    simp only [forErr] at h
    rw [List.cons_append]
    simp only [forErr]
    cases hb : body a s with
    | none => rw [hb] at h; simp at h
    | some r =>
      obtain ⟨s2, g2⟩ := r
      rw [hb] at h
      cases g2 with
      | none => exact ih s2 s0 h
      | some e => simp at h

/-- What a completion with a nil error leaves when it returns: the vbucket is in the
`vbState` map, and the calls made are calls of stopping. -/
theorem handleVbucketCompletion_nil_frame (env : Env) (o : Outcomes) (vbno : Nat)
    (d d1 : DcpDriver) (h : DcpDriver.handleVbucketCompletion env o vbno none d = some d1) :
    d1.vbState = d.vbState.insert vbno true ∧ d1.completeBySeqno = d.completeBySeqno ∧
      ∃ t, d1.trace = d.trace ++ t ∧ ∀ e ∈ t, e.isStopping = true := by
  rw [handleVbucketCompletion_nil] at h
  split at h
  · cases hs : DcpDriver.Stop o { d with vbState := d.vbState.insert vbno true } with
    | none => rw [hs] at h; simp at h
    | some r =>
      obtain ⟨d2, g⟩ := r
      rw [hs] at h
      simp only [Option.map_some', Option.some.injEq] at h
      subst h
      have hst := driverStop_stopsTo o _ d2 g hs
      exact ⟨hst.2.1, hst.2.2.1, hst.2.2.2.2.2⟩
  · simp only [Option.some.injEq] at h
    subst h
    exact ⟨rfl, rfl, [], by simp, by simp⟩

/-- What one round of the loop of `openDcpStreams` leaves when it returns, with or without
an error: an `OpenStream` request is made only for a vbucket that needs a stream, and no
vbucket leaves the `vbState` map. -/
theorem openDcpStream_frame (env : Env) (o : Outcomes) (i v : Nat) (d d1 : DcpDriver)
    (g : GoError) (h : DcpClient.openDcpStream env o i v d = some (d1, g)) :
    d1.completeBySeqno = d.completeBySeqno ∧
      (∀ w, d.vbState.lookup w = some true → d1.vbState.lookup w = some true) ∧
      ∃ t, d1.trace = d.trace ++ t ∧ ∀ e ∈ t, e.isStopping = true ∨
        ∃ x, e.openedVb = some x ∧ o.needsStream x = true := by
  unfold DcpClient.openDcpStream at h
  simp only at h
  by_cases hn : (o.getStartVBTS v).NoNeedToStartDcpStream = true
  · rw [if_pos hn] at h
    cases hh : DcpDriver.handleVbucketCompletion env o v none d with
    | none => rw [hh] at h; simp at h
    | some d2 =>
      rw [hh] at h
      simp only [Option.map_some', Option.some.injEq, Prod.mk.injEq] at h
      obtain ⟨h1, _⟩ := h
      subst h1
      obtain ⟨hvb, hcb, t, ht, hev⟩ := handleVbucketCompletion_nil_frame env o v d d2 hh
      refine ⟨hcb, ?_, t, ht, fun e he => Or.inl (hev e he)⟩
      intro w hw
      rw [hvb]
      by_cases hwv : w = v
      · subst hwv
        simp [AList.lookup_insert]
      · rw [AList.lookup_insert_ne hwv]
        exact hw
  · rw [if_neg hn] at h
    have hns : o.needsStream v = true := by simpa [Outcomes.needsStream] using hn
    cases hc : d.client i with
    | none => rw [hc] at h; simp at h
    | some c =>
      rw [hc] at h
      simp only at h
      by_cases hb : c.bucketOpen = true
      · rw [if_pos hb] at h
        simp only [Option.some.injEq, Prod.mk.injEq] at h
        obtain ⟨h1, _⟩ := h
        subst h1
        refine ⟨rfl, fun w hw => hw, _, rfl, ?_⟩
        intro e he
        simp only [List.mem_singleton] at he
        right
        exact ⟨v, by rw [he]; rfl, hns⟩
      · rw [if_neg hb] at h
        simp at h

/-- What the loop of `openDcpStreams` leaves when it returns, with or without an error. -/
theorem openLoop_frame (env : Env) (o : Outcomes) (i : Nat) (vs : List Nat)
    (d d1 : DcpDriver) (g : GoError)
    (h : forErr (DcpClient.openDcpStream env o i) vs d = some (d1, g)) :
    d1.completeBySeqno = d.completeBySeqno ∧
      (∀ w, d.vbState.lookup w = some true → d1.vbState.lookup w = some true) ∧
      ∃ t, d1.trace = d.trace ++ t ∧ ∀ e ∈ t, e.isStopping = true ∨
        ∃ x, e.openedVb = some x ∧ o.needsStream x = true := by
  refine forErr_preserves
    (fun s s1 => s1.completeBySeqno = s.completeBySeqno ∧
      (∀ w, s.vbState.lookup w = some true → s1.vbState.lookup w = some true) ∧
      ∃ t, s1.trace = s.trace ++ t ∧ ∀ e ∈ t, e.isStopping = true ∨
        ∃ x, e.openedVb = some x ∧ o.needsStream x = true)
    (DcpClient.openDcpStream env o i) ?_ ?_ ?_ vs d d1 g h
  · intro s
    exact ⟨rfl, fun _ hw => hw, [], by simp, by simp⟩
  · rintro s1 s2 s3 ⟨a1, a2, t1, ht1, he1⟩ ⟨b1, b2, t2, ht2, he2⟩
    refine ⟨b1.trans a1, fun w hw => b2 w (a2 w hw), t1 ++ t2, ?_, ?_⟩
    · rw [ht2, ht1, List.append_assoc]
    · intro e he
      rcases List.mem_append.1 he with h | h
      · exact he1 e h
      · exact he2 e h
  · intro a s s1 g hb
    exact openDcpStream_frame env o i a s s1 g hb

/-- A list without duplicates of numbers below `V` that has `V` entries holds every number
below `V`. -/
theorem mem_of_nodup_full (V : Nat) (l : List Nat) (hnd : l.Nodup) (hlt : ∀ x ∈ l, x < V)
    (hlen : l.length = V) (w : Nat) (hw : w < V) : w ∈ l := by
  have hsub : l ⊆ List.range V := fun x hx => List.mem_range.2 (hlt x hx)
  have hsp : l.Subperm (List.range V) := List.subperm_of_subset hnd hsub
  have hperm : l.Perm (List.range V) := hsp.perm_of_length_le (by simp [hlen])
  exact hperm.mem_iff.2 (List.mem_range.2 hw)

/-- A list without duplicates of numbers below `V` has at most `V` entries. -/
theorem length_le_of_nodup_lt (V : Nat) (l : List Nat) (hnd : l.Nodup)
    (hlt : ∀ x ∈ l, x < V) : l.length ≤ V := by
  have hsub : l ⊆ List.range V := fun x hx => List.mem_range.2 (hlt x hx)
  have := (List.subperm_of_subset hnd hsub).length_le
  simpa using this

/-- The keys of a map in terms of `lookup`. -/
theorem mem_keys_iff_lookup (m : VbMap Bool) (w : Nat) :
    w ∈ m.keys ↔ (m.lookup w).isSome = true := by
  rw [AList.lookup_isSome, AList.mem_keys]

/-- A completion on a driver in the state `New` returns, leaves the state `New`, and
records the vbucket when the error is nil. -/
theorem completion_on_new (env : Env) (o : Outcomes) (v : Nat) (e : GoError) (d : DcpDriver)
    (hnew : d.state = DriverState.DriverStateNew) :
    ∃ d1 t, DcpDriver.handleVbucketCompletion env o v e d = some d1 ∧
      d1.state = DriverState.DriverStateNew ∧
      d1.vbState = (if e.isNone then d.vbState.insert v true else d.vbState) ∧
      d1.trace = d.trace ++ t ∧
      (Event.driverStop ∈ t ↔
        e = none ∧ (d.vbState.insert v true).keys.length = env.NumberOfVbuckets) := by
  cases e with
  | some err =>
    refine ⟨d.reportError (some err), [Event.errOffer (some err)], rfl, hnew, rfl, rfl, ?_⟩
    simp
  | none =>
    rw [handleVbucketCompletion_nil]
    have hns : ({ d with vbState := d.vbState.insert v true } : DcpDriver).state ≠
        DriverState.DriverStateStarted := by
      show d.state ≠ DriverState.DriverStateStarted
      rw [hnew]
      decide
    by_cases hcount : (d.vbState.insert v true).keys.length = env.NumberOfVbuckets
    · rw [if_pos hcount, driverStop_not_started o _ hns]
      exact ⟨_, [Event.driverStop], rfl, hnew, rfl, rfl,
        fun _ => ⟨rfl, hcount⟩, fun _ => List.mem_singleton.2 rfl⟩
    · rw [if_neg hcount]
      exact ⟨_, [], rfl, hnew, rfl, by simp,
        fun h => absurd h (List.not_mem_nil _), fun h => absurd h.2 hcount⟩

/-- A sequence of completions on a driver in the state `New`: it runs to its end, and the
`vbState` map gains the vbuckets reported with a nil error, with the value `true`. -/
theorem completions_on_new (env : Env) :
    ∀ (calls : List (Outcomes × Nat × GoError)) (d : DcpDriver),
    d.state = DriverState.DriverStateNew →
    ∃ d1, DcpDriver.run env (completionCalls calls) d = some d1 ∧
      d1.state = DriverState.DriverStateNew ∧
      ∀ w, d1.vbState.lookup w =
        if w ∈ reportedComplete calls then some true else d.vbState.lookup w := by
  intro calls
  induction calls with
  | nil =>
    intro d hnew
    exact ⟨d, rfl, hnew, by simp [reportedComplete]⟩
  | cons x calls ih =>
    intro d hnew
    obtain ⟨o, v, e⟩ := x
    obtain ⟨d1, t, h1, hnew1, hvb1, _, _⟩ := completion_on_new env o v e d hnew
    obtain ⟨d2, h2, hnew2, hvb2⟩ := ih d1 hnew1
    refine ⟨d2, ?_, hnew2, ?_⟩
    · simp only [completionCalls, List.map_cons, DcpDriver.run, DcpDriver.call, h1]
      exact h2
    · intro w
      rw [hvb2 w, hvb1]
      cases e with
      | some err =>
        have hr : reportedComplete ((o, v, some err) :: calls) = reportedComplete calls := by
          simp [reportedComplete, List.filter_cons]
        rw [hr]
        simp
      | none =>
        by_cases hwv : w = v
        · subst hwv
          simp [reportedComplete, AList.lookup_insert]
        · by_cases hwr : w ∈ reportedComplete calls
          · have hwr2 : w ∈ reportedComplete ((o, v, none) :: calls) := by
              simp only [reportedComplete, List.filter_cons, Option.isNone_none, if_true,
                List.map_cons, List.mem_cons]
              exact Or.inr hwr
            simp [hwr, hwr2]
          · have hwr2 : w ∉ reportedComplete ((o, v, none) :: calls) := by
              simp only [reportedComplete, List.filter_cons, Option.isNone_none, if_true,
                List.map_cons, List.mem_cons, not_or]
              exact ⟨hwv, hwr⟩
            simp [hwr, hwr2, AList.lookup_insert_ne hwv]

/-- What `DcpClient.Stop` does on a client with a bucket whose `finChan` is still open: the
whole state it leaves, with the `CloseStream` requests it makes. -/
theorem clientStop_requests (o : Outcomes) (i : Nat) (d : DcpDriver) (c : DcpClient)
    (hc : d.client i = some c) (hbucket : c.bucketOpen = true)
    (hfin : c.finClosed = false) (hwg : 0 < d.childWaitGroup) :
    ∃ (d1 : DcpDriver) (reqs : List Nat),
      DcpClient.Stop o i d = some (d1, none) ∧
      d1 = { d with
        clients := d.clients.set i
          (some { c with finClosed := true, numberClosing := c.vbList.length % 2 ^ 32 })
        childWaitGroup := d.childWaitGroup - 1
        vbStates := d1.vbStates
        trace := d.trace ++ ([Event.clientStop i, Event.finClose i] ++
          reqs.map (Event.closeStream i) ++
          (c.dcpHandlers.filterMap id).map (fun h => Event.handlerStop i h.index) ++
          [Event.clientStopped i]) } ∧
      reqs.Sublist c.vbList ∧
      (∀ v, v ∈ reqs ↔ v ∈ c.vbList ∧ d.getVbState v ≠ VBState.VBStateStreamClosed) ∧
      ∀ v, d1.getVbState v =
        if v ∈ reqs ∧ o.closeStream i v = none then VBState.VBStateStreamClosed
        else d.getVbState v := by
  have hlen : i < d.clients.length := client_lt_length d i c hc
  have hc2 := client_setClient_self
    (((d.record (Event.clientStop i)).setClient i { c with finClosed := true }).record
      (Event.finClose i)) i
    { c with finClosed := true, numberClosing := c.vbList.length % 2 ^ 32 }
    (by simpa [DcpDriver.setClient, DcpDriver.record] using hlen)
  obtain ⟨d3, reqs, h3, hd3, hsub, hmem, hst⟩ :=
    closeStreams_requests o i c.vbList _ _ hc2 hbucket
  unfold DcpClient.Stop
  simp only [hc, hfin]
  simp only [h3]
  have hwg3 : d3.childWaitGroup = d.childWaitGroup := by rw [hd3]; rfl
  have hwg4 : ¬ (DcpClient.stopHandlers i c.dcpHandlers d3).childWaitGroup = 0 := by
    simp only [DcpClient.stopHandlers]; omega
  simp only [Bool.false_eq_true, if_false, if_neg hwg4]
  refine ⟨_, reqs, rfl, ?_, hsub, hmem, hst⟩
  simp only [DcpClient.stopHandlers, DcpDriver.record]
  rw [hd3]
  simp [DcpDriver.setClient, DcpDriver.record, List.append_assoc]

/-- The entries of a list with a property and those without it add up to the list. -/
theorem length_filter_add (p : Nat → Bool) (l : List Nat) :
    (l.filter p).length + (l.filter (fun v => !p v)).length = l.length := by
  induction l with
  | nil => rfl
  | cons a l ih =>
    rw [List.filter_cons, List.filter_cons]
    cases hp : p a <;> simp <;> omega

/-- The atomic decrement of `closeStreamFunc` on a counter that is not zero. -/
theorem addNumberClosing_step (i : Nat) (d : DcpDriver) (c : DcpClient)
    (hc : d.client i = some c) (hpos : 0 < c.numberClosing) (hlt : c.numberClosing < 2 ^ 32) :
    DcpClient.addNumberClosing i d =
      some ({ d with
        clients := d.clients.set i (some { c with numberClosing := c.numberClosing - 1 }) },
        c.numberClosing - 1) := by
  unfold DcpClient.addNumberClosing
  rw [hc]
  have hmod : (c.numberClosing + (2 ^ 32 - 1)) % 2 ^ 32 = c.numberClosing - 1 := by
    have h1 : c.numberClosing + (2 ^ 32 - 1) = (c.numberClosing - 1) + 2 ^ 32 := by omega
    rw [h1, Nat.add_mod_right, Nat.mod_eq_of_lt (by omega)]
  simp only [hmod, DcpDriver.setClient]

/-- One `closeStreamFunc` callback on a counter that is not zero: with the counter at one
the callback reaches the send and does not return; otherwise it returns, with one taken
off the counter. -/
theorem closeStreamFunc_step (i : Nat) (err : GoError) (d : DcpDriver) (c : DcpClient)
    (hc : d.client i = some c) (hpos : 0 < c.numberClosing) (hlt : c.numberClosing < 2 ^ 32) :
    DcpClient.closeStreamFunc i err d =
      if c.numberClosing - 1 = 0 then none
      else some { d with
        clients := d.clients.set i (some { c with numberClosing := c.numberClosing - 1 }) } := by
  unfold DcpClient.closeStreamFunc
  rw [addNumberClosing_step i d c hc hpos hlt]

/-- A run of `closeStreamFunc` callbacks, fewer of them than the counter counts: each
returns, with one taken off the counter, and nothing else is changed. -/
theorem closeCallbacks_count (i : Nat) :
    ∀ (errs : List GoError) (d : DcpDriver) (c : DcpClient), d.client i = some c →
    errs.length < c.numberClosing → c.numberClosing < 2 ^ 32 →
    ∃ d2, forEach (DcpClient.closeStreamFunc i) errs d = some d2 ∧
      d2.client i = some { c with numberClosing := c.numberClosing - errs.length } ∧
      d2.trace = d.trace ∧ d2.vbStates = d.vbStates := by
  intro errs
  induction errs with
  | nil =>
    intro d c hc _ _
    exact ⟨d, rfl, by simpa using hc, rfl, rfl⟩
  | cons e errs ih =>
    intro d c hc hle hlt
    simp only [List.length_cons] at hle
    have hpos : 0 < c.numberClosing := by omega
    have hstep := closeStreamFunc_step i e d c hc hpos hlt
    rw [if_neg (by omega)] at hstep
    have hil : i < d.clients.length := client_lt_length d i c hc
    have hc1 : DcpDriver.client
        { d with
          clients := d.clients.set i (some { c with numberClosing := c.numberClosing - 1 }) }
          i = some { c with numberClosing := c.numberClosing - 1 } := by
      simp [DcpDriver.client, hil]
    obtain ⟨d2, h2, hc2, ht2, hv2⟩ := ih _ _ hc1
      (by show errs.length < c.numberClosing - 1; omega)
      (by show c.numberClosing - 1 < 2 ^ 32; omega)
    refine ⟨d2, ?_, ?_, ht2, hv2⟩
    · simp only [forEach, hstep]
      exact h2
    · rw [hc2]
      simp only [List.length_cons]
      congr 2
      omega

/-- A run of callbacks of which one does not return does not return. -/
theorem forEach_none_at {α σ : Type} (body : α → σ → Option σ) (a : α) (post : List α) :
    ∀ (pre : List α) (s s0 : σ), forEach body pre s = some s0 → body a s0 = none →
    forEach body (pre ++ a :: post) s = none := by
  intro pre
  induction pre with
  | nil =>
    intro s s0 h hn
    simp only [forEach, Option.some.injEq] at h
    subst h
    simp only [List.nil_append, forEach, hn]
  | cons x pre ih =>
    intro s s0 h hn
    simp only [forEach] at h
    rw [List.cons_append]
    cases hb : body x s with
    | none => rw [hb] at h; simp at h
    | some s2 =>
      rw [hb] at h
      simp only [forEach, hb]
      exact ih s2 s0 h hn

theorem initializesTo_refl (i : Nat) (d : DcpDriver) : d.InitializesTo i d :=
  ⟨fun _ _ => rfl, fun c hc => ⟨c, hc, rfl⟩, [], by simp, by simp⟩

theorem initializesTo_trans (i : Nat) (d1 d2 d3 : DcpDriver) (h12 : d1.InitializesTo i d2)
    (h23 : d2.InitializesTo i d3) : d1.InitializesTo i d3 := by
  obtain ⟨a1, a2, t1, ht1, he1⟩ := h12
  obtain ⟨b1, b2, t2, ht2, he2⟩ := h23
  refine ⟨fun j hj => (b1 j hj).trans (a1 j hj), ?_, t1 ++ t2, ?_, ?_⟩
  · intro c hc
    obtain ⟨c1, hc1, hf1⟩ := a2 c hc
    obtain ⟨c2, hc2, hf2⟩ := b2 c1 hc1
    exact ⟨c2, hc2, hf2.trans hf1⟩
  · rw [ht2, ht1, List.append_assoc]
  · intro ev hev
    rcases List.mem_append.1 hev with h | h
    · exact he1 ev h
    · exact he2 ev h

/-- A write to client `i` that keeps its `finChan`, with `Start` calls of its handlers. -/
theorem initializesTo_write (i : Nat) (d : DcpDriver) (c c1 : DcpClient) (t : List Event)
    (hc : d.client i = some c) (hf : c1.finClosed = c.finClosed)
    (ht : ∀ ev ∈ t, ∃ j, ev = Event.handlerStart i j) :
    d.InitializesTo i { d with clients := d.clients.set i (some c1), trace := d.trace ++ t } := by
  have hil : i < d.clients.length := client_lt_length d i c hc
  refine ⟨?_, ?_, t, rfl, ht⟩
  · intro j hj
    simp [DcpDriver.client, List.getElem?_set_ne (Ne.symm hj)]
  · intro c0 hc0
    rw [hc] at hc0
    cases hc0
    exact ⟨c1, by simp [DcpDriver.client, hil], hf⟩

theorem initializeCluster_frame (o : Outcomes) (i : Nat) (d d1 : DcpDriver) (g : GoError)
    (h : DcpClient.initializeCluster o i d = some (d1, g)) : d.InitializesTo i d1 := by
  unfold DcpClient.initializeCluster at h
  cases hc : d.client i with
  | none => rw [hc] at h; simp at h
  | some c =>
    rw [hc] at h
    simp only at h
    split at h
    · simp only [Option.some.injEq, Prod.mk.injEq] at h
      rw [← h.1]; exact initializesTo_refl i d
    · split at h
      · simp only [Option.some.injEq, Prod.mk.injEq] at h
        rw [← h.1]; exact initializesTo_refl i d
      · simp only [Option.some.injEq, Prod.mk.injEq] at h
        rw [← h.1]
        have := initializesTo_write i d c { c with clusterSet := true } [] hc rfl (by simp)
        simpa [DcpDriver.setClient] using this

theorem initializeBucket_frame (o : Outcomes) (i : Nat) (d d1 : DcpDriver) (g : GoError)
    (h : DcpClient.initializeBucket o i d = some (d1, g)) : d.InitializesTo i d1 := by
  unfold DcpClient.initializeBucket at h
  cases hc : d.client i with
  | none => rw [hc] at h; simp at h
  | some c =>
    rw [hc] at h
    simp only at h
    split at h
    · simp only [Option.some.injEq, Prod.mk.injEq] at h
      rw [← h.1]
      have := initializesTo_write i d c
        { c with bucketOpen := (o.openStreamingBucket i).isNone } [] hc rfl (by simp)
      simpa [DcpDriver.setClient] using this
    · simp at h

theorem initializeDcpHandler_frame (o : Outcomes) (i : Nat) (ld : List (Nat × Nat)) (j : Nat)
    (d d1 : DcpDriver) (g : GoError)
    (h : DcpClient.initializeDcpHandler o i ld j d = some (d1, g)) : d.InitializesTo i d1 := by
  unfold DcpClient.initializeDcpHandler at h
  cases hc : d.client i with
  | none => rw [hc] at h; simp at h
  | some c =>
    rw [hc] at h
    cases hp : ld[j]? with
    | none => rw [hp] at h; simp at h
    | some p =>
      obtain ⟨lowIndex, highIndex⟩ := p
      rw [hp] at h
      simp only at h
      split at h
      · simp at h
      · split at h
        · simp at h
        · split at h
          · simp only [Option.some.injEq, Prod.mk.injEq] at h
            rw [← h.1]; exact initializesTo_refl i d
          · have hrec : d.InitializesTo i (d.record (Event.handlerStart i j)) :=
              ⟨fun _ _ => rfl, fun c0 hc0 => ⟨c0, hc0, rfl⟩, [Event.handlerStart i j], rfl,
                fun ev hev => ⟨j, List.mem_singleton.1 hev⟩⟩
            split at h
            · simp only [Option.some.injEq, Prod.mk.injEq] at h
              rw [← h.1]; exact hrec
            · split at h
              · simp at h
              · simp only [Option.some.injEq, Prod.mk.injEq] at h
                rw [← h.1]
                have := initializesTo_write i d c
                  { c with
                    dcpHandlers := c.dcpHandlers.set j
                      (some { index := j,
                              vbList := (c.vbList.drop lowIndex).take (highIndex - lowIndex) })
                    vbHandlerMap := ((c.vbList.drop lowIndex).take (highIndex - lowIndex)).foldl
                      (fun m vbno => m.insert vbno j) c.vbHandlerMap }
                  [Event.handlerStart i j] hc rfl
                  (fun ev hev => ⟨j, List.mem_singleton.1 hev⟩)
                simpa [DcpDriver.setClient, DcpDriver.record] using this

theorem initializeClient_frame (env : Env) (o : Outcomes) (i : Nat) (d d1 : DcpDriver)
    (g : GoError) (h : DcpClient.initializeClient env o i d = some (d1, g)) :
    d.InitializesTo i d1 := by
  unfold DcpClient.initializeClient at h
  cases hc : DcpClient.initializeCluster o i d with
  | none => simp [hc] at h
  | some r =>
    obtain ⟨s2, g2⟩ := r
    have h2 := initializeCluster_frame o i d s2 g2 hc
    cases g2 with
    | some e =>
      simp only [hc, Option.some.injEq, Prod.mk.injEq] at h
      rw [← h.1]; exact h2
    | none =>
      simp only [hc] at h
      cases hb : DcpClient.initializeBucket o i s2 with
      | none => simp [hb] at h
      | some r3 =>
        obtain ⟨s3, g3⟩ := r3
        have h3 := initializeBucket_frame o i s2 s3 g3 hb
        cases g3 with
        | some e =>
          simp only [hb, Option.some.injEq, Prod.mk.injEq] at h
          rw [← h.1]; exact initializesTo_trans i _ _ _ h2 h3
        | none =>
          simp only [hb] at h
          unfold DcpClient.initializeDcpHandlers at h
          split at h
          · simp at h
          · have h4 := forErr_preserves (fun a b : DcpDriver => a.InitializesTo i b) _
              (initializesTo_refl i) (initializesTo_trans i)
              (fun j a b g4 hj => initializeDcpHandler_frame o i _ j a b g4 hj) _ _ _ _ h
            exact initializesTo_trans i _ _ _ h2 (initializesTo_trans i _ _ _ h3 h4)

/-- One round of the loop of `initializeDcpClients`, when it returns: the other clients are
untouched, client `k` is in place with its `finChan` open, and the calls made are `Start`
of the client, `Start` of handlers of the client and, without an error, the `go`
statement of the client. -/
theorem initializeDcpClient_frame (env : Env) (o : Outcomes) (ld : List (Nat × Nat)) (k : Nat)
    (s s1 : DcpDriver) (g : GoError)
    (h : DcpDriver.initializeDcpClient env o ld k s = some (s1, g)) :
    (∀ j, j ≠ k → s1.client j = s.client j) ∧
      (∃ c1, s1.client k = some c1 ∧ c1.finClosed = false) ∧
      ∃ t, s1.trace = s.trace ++ (Event.clientStart k :: t ++
          (if g.isNone then [Event.go k Task.handleDcpStreams] else [])) ∧
        ∀ ev ∈ t, ∃ j, ev = Event.handlerStart k j := by
  unfold DcpDriver.initializeDcpClient at h
  cases hp : ld[k]? with
  | none => rw [hp] at h; simp at h
  | some p =>
    obtain ⟨lowIndex, highIndex⟩ := p
    rw [hp] at h
    simp only at h
    split at h
    · simp at h
    · split at h
      · simp at h
      · rename_i hlen
        have hk : k < s.clients.length := Nat.lt_of_not_le hlen
        unfold DcpClient.Start at h
        cases hi : DcpClient.initializeClient env o k
            (DcpDriver.record
              { s with
                childWaitGroup := s.childWaitGroup + 1
                clients := s.clients.set k
                  (some (NewDcpClient { s with childWaitGroup := s.childWaitGroup + 1 } k
                    ((List.range' lowIndex (highIndex - lowIndex)).map
                      (fun j => j % 65536)))) }
              (Event.clientStart k)) with
        | none => simp [hi] at h
        | some r =>
          obtain ⟨s2, g2⟩ := r
          obtain ⟨f1, f2, t, ht, hev⟩ := initializeClient_frame env o k _ s2 g2 hi
          have hck : DcpDriver.client
              (DcpDriver.record
                { s with
                  childWaitGroup := s.childWaitGroup + 1
                  clients := s.clients.set k
                    (some (NewDcpClient { s with childWaitGroup := s.childWaitGroup + 1 } k
                      ((List.range' lowIndex (highIndex - lowIndex)).map
                        (fun j => j % 65536)))) }
                (Event.clientStart k)) k =
              some (NewDcpClient { s with childWaitGroup := s.childWaitGroup + 1 } k
                ((List.range' lowIndex (highIndex - lowIndex)).map (fun j => j % 65536))) := by
            simp [DcpDriver.client, DcpDriver.record, hk]
          obtain ⟨c1, hc1, hf1⟩ := f2 _ hck
          have hother : ∀ j, j ≠ k → s2.client j = s.client j := by
            intro j hj
            rw [f1 j hj]
            simp [DcpDriver.client, DcpDriver.record, List.getElem?_set_ne (Ne.symm hj)]
          have htr : s2.trace = s.trace ++ (Event.clientStart k :: t) := by
            rw [ht]
            simp [DcpDriver.record]
          cases g2 with
          | some e =>
            simp only [hi, Option.some.injEq, Prod.mk.injEq] at h
            obtain ⟨h1, h2⟩ := h
            subst h1
            subst h2
            refine ⟨hother, ⟨c1, hc1, hf1.trans rfl⟩, t, ?_, hev⟩
            rw [htr]
            simp
          | none =>
            simp only [hi, Option.some.injEq, Prod.mk.injEq] at h
            obtain ⟨h1, h2⟩ := h
            subst h1
            subst h2
            refine ⟨hother, ⟨c1, hc1, hf1.trans rfl⟩, t, ?_, hev⟩
            simp [DcpDriver.record, htr]

/-- Rounds of the loop of `initializeDcpClients` that all return without an error: every
client of the rounds is in place with its `finChan` open and has been started, no call of
stopping is made, and only the clients of the rounds are touched. -/
theorem startRounds_frame (env : Env) (o : Outcomes) (ld : List (Nat × Nat)) :
    ∀ (xs : List Nat) (s s1 : DcpDriver),
    forErr (DcpDriver.initializeDcpClient env o ld) xs s = some (s1, none) →
    (∀ j, j ∉ xs → s1.client j = s.client j) ∧
      (∀ j ∈ xs, ∃ c, s1.client j = some c ∧ c.finClosed = false) ∧
      ∃ t, s1.trace = s.trace ++ t ∧
        (∀ j ∈ xs, Event.clientStart j ∈ t ∧ Event.go j Task.handleDcpStreams ∈ t) ∧
        (∀ ev ∈ t, ev.isStopping = false) ∧
        ∀ ev ∈ t, ∀ j, ev = Event.clientStart j ∨ ev = Event.go j Task.handleDcpStreams →
          j ∈ xs := by
  intro xs
  induction xs with
  | nil =>
    intro s s1 h
    simp only [forErr, Option.some.injEq, Prod.mk.injEq, and_true] at h
    subst h
    exact ⟨fun _ _ => rfl, by simp, [], by simp, by simp, by simp, by simp⟩
  | cons a xs ih =>
    intro s s1 h
    simp only [forErr] at h
    cases hb : DcpDriver.initializeDcpClient env o ld a s with
    | none => rw [hb] at h; simp at h
    | some r =>
      obtain ⟨s2, g2⟩ := r
      rw [hb] at h
      cases g2 with
      | some e => simp at h
      | none =>
        simp only at h
        obtain ⟨r1, ⟨ca, hca, hfa⟩, ta, hta, heva⟩ :=
          initializeDcpClient_frame env o ld a s s2 none hb
        obtain ⟨i1, i2, t2, ht2, hst2, hns2, hidx2⟩ := ih s2 s1 h
        refine ⟨?_, ?_, (Event.clientStart a :: ta ++ [Event.go a Task.handleDcpStreams]) ++ t2,
          ?_, ?_, ?_, ?_⟩
        · intro j hj
          rw [List.mem_cons, not_or] at hj
          rw [i1 j hj.2, r1 j hj.1]
        · intro j hj
          by_cases hjx : j ∈ xs
          · exact i2 j hjx
          · have hja : j = a := by
              rcases List.mem_cons.1 hj with h1 | h1
              · exact h1
              · exact absurd h1 hjx
            subst hja
            rw [i1 j hjx]
            exact ⟨ca, hca, hfa⟩
        · rw [ht2, hta]
          simp
        · intro j hj
          rcases List.mem_cons.1 hj with h1 | h1
          · subst h1
            simp
          · obtain ⟨q1, q2⟩ := hst2 j h1
            exact ⟨List.mem_append_right _ q1, List.mem_append_right _ q2⟩
        · intro ev hev
          rcases List.mem_append.1 hev with h1 | h1
          · rcases List.mem_append.1 h1 with h3 | h3
            · rcases List.mem_cons.1 h3 with h4 | h4
              · rw [h4]; rfl
              · obtain ⟨j, hj⟩ := heva ev h4
                rw [hj]; rfl
            · rw [List.mem_singleton.1 h3]; rfl
          · exact hns2 ev h1
        · intro ev hev j hj
          rcases List.mem_append.1 hev with h1 | h1
          · have hja : j = a := by
              rcases List.mem_append.1 h1 with h3 | h3
              · rcases List.mem_cons.1 h3 with h4 | h4
                · rcases hj with h5 | h5
                  · rw [h5] at h4
                    exact Event.clientStart.inj h4
                  · rw [h5] at h4
                    cases h4
                · obtain ⟨j2, hj2⟩ := heva ev h4
                  rcases hj with h5 | h5 <;> rw [h5] at hj2 <;> cases hj2
              · have h4 := List.mem_singleton.1 h3
                rcases hj with h5 | h5
                · rw [h5] at h4
                  cases h4
                · rw [h5] at h4
                  exact (Event.go.inj h4).1
            rw [hja]
            exact List.mem_cons_self a xs
          · exact List.mem_cons_of_mem a (hidx2 ev h1 j hj)

/-- A loop of which a round returns an error after rounds without error returns that
error, with the state of that round. -/
theorem forErr_error_at {α σ : Type} (body : α → σ → Option (σ × GoError)) (pre : List α)
    (a : α) (post : List α) (s s0 s1 : σ) (e : String)
    (hpre : forErr body pre s = some (s0, none)) (hfail : body a s0 = some (s1, some e)) :
    forErr body (pre ++ a :: post) s = some (s1, some e) := by
  rw [forErr_append_ok body (a :: post) pre s s0 hpre]
  simp only [forErr, hfail]

/-- `DcpDriver.Start` up to the loop over the clients, when the credentials are found and
the checkpoint manager starts. -/
theorem driverStart_clients (env : Env) (o : Outcomes) (d : DcpDriver)
    (hcred : o.getRBACSupportedAndBucketPassword.2.2 = none)
    (hcmi : o.cmInitialize = none) (hcms : o.cmStart = none) :
    (DcpDriver.initializeAndStartCheckpointManager o (DcpDriver.populateCredentials o d).1).1 =
        { d with
          rbacSupported := o.getRBACSupportedAndBucketPassword.1
          bucketPassword := o.getRBACSupportedAndBucketPassword.2.1
          trace := d.trace ++
            [Event.checkpointManagerInitialize, Event.checkpointManagerStart] } ∧
      DcpDriver.Start env o d =
        match DcpDriver.startClients env o d.numberOfClients
            (DcpDriver.initializeAndStartCheckpointManager o
              (DcpDriver.populateCredentials o d).1).1 with
        | none => none
        | some (d3, some e) => some (d3, some e)
        | some (d3, none) => some (d3.setState DriverState.DriverStateStarted, none) := by
  have hcm : DcpDriver.initializeAndStartCheckpointManager o
      (DcpDriver.populateCredentials o d).1 =
      ({ d with
          rbacSupported := o.getRBACSupportedAndBucketPassword.1
          bucketPassword := o.getRBACSupportedAndBucketPassword.2.1
          trace := d.trace ++
            [Event.checkpointManagerInitialize, Event.checkpointManagerStart] }, none) := by
    unfold DcpDriver.initializeAndStartCheckpointManager DcpDriver.populateCredentials
    simp [hcmi, hcms, DcpDriver.record]
  refine ⟨by rw [hcm], ?_⟩
  have hp : DcpDriver.populateCredentials o d = ((DcpDriver.populateCredentials o d).1, none) :=
    Prod.ext rfl hcred
  unfold DcpDriver.Start
  rw [hp]
  simp only
  rw [hcm]
  rfl

/-- What a non-blocking send leaves in the channel: the value is queued behind the others
when there is room, and dropped otherwise. -/
theorem offer_spec (ch : ErrChan) (e : GoError) :
    (ch.offer e).cap = ch.cap ∧
      (ch.offer e).buf = if ch.buf.length < ch.cap then ch.buf ++ [e] else ch.buf := by
  unfold ErrChan.offer ErrChan.send
  by_cases hlt : ch.buf.length < ch.cap
  · simp only [if_pos hlt, and_self]
  · simp only [if_neg hlt, and_self]

/-! ## The claims -/

/-- The counterexample of C1: the single vbucket of a driver that is still in state New
completes; `Stop` is triggered, and the state is New, not Stopped, when the call returns. -/
theorem last_completion_on_new_driver_leaves_it_new :
    (DcpDriver.handleVbucketCompletion (sampleEnv 1) allSucceed 0 none freshSingle).map
        (fun d => (d.vbState.keys.length, d.trace, d.state)) =
      some ((sampleEnv 1).NumberOfVbuckets, [Event.driverStop],
        DriverState.DriverStateNew) := by
  decide

/-- C1, amended: if `handleVbucketCompletion(vbno, nil)` brings the number of completed
vbuckets to `base.NumberOfVbuckets`, then the call returns, `Stop` is triggered, and on
return the lifecycle state is Stopped when the driver was Started or Stopped at the call;
on a driver still in state New the triggered `Stop` does nothing and the state stays New. -/
theorem last_completion_triggers_stop (env : Env) (o : Outcomes) (vbno : Nat) (d : DcpDriver)
    (hcount : (d.vbState.insert vbno true).keys.length = env.NumberOfVbuckets)
    (hready : d.state = DriverState.DriverStateStarted → StopReady d) :
    ∃ d1 t, DcpDriver.handleVbucketCompletion env o vbno none d = some d1 ∧
      d1.trace = d.trace ++ Event.driverStop :: t ∧
      (d.state ≠ DriverState.DriverStateNew → d1.state = DriverState.DriverStateStopped) ∧
      (d.state = DriverState.DriverStateNew →
        d1.state = DriverState.DriverStateNew ∧ t = []) := by
  rw [handleVbucketCompletion_nil, if_pos hcount]
  by_cases hs : d.state = DriverState.DriverStateStarted
  · obtain ⟨d1, t, h, hd1, _⟩ := driverStop_started o
      { d with vbState := d.vbState.insert vbno true } hs (hready hs)
    refine ⟨d1, t, by rw [h]; rfl, by rw [hd1], fun _ => by rw [hd1], fun hn => ?_⟩
    rw [hs] at hn; cases hn
  · rw [driverStop_not_started o { d with vbState := d.vbState.insert vbno true } hs]
    refine ⟨_, [], rfl, rfl, fun hn => ?_, fun hn => ⟨hn, rfl⟩⟩
    show d.state = DriverState.DriverStateStopped
    cases hd : d.state with
    | DriverStateNew => exact absurd hd hn
    | DriverStateStarted => exact absurd hd hs
    | DriverStateStopped => rfl

/-- The witness of C1: the single vbucket of the started sample driver completes. -/
theorem last_completion_triggers_stop_witness :
    ∃ d1 t, DcpDriver.handleVbucketCompletion (sampleEnv 1) stopFails 0 none startedSingle
        = some d1 ∧
      d1.trace = startedSingle.trace ++ Event.driverStop :: t ∧
      (startedSingle.state ≠ DriverState.DriverStateNew →
        d1.state = DriverState.DriverStateStopped) ∧
      (startedSingle.state = DriverState.DriverStateNew →
        d1.state = DriverState.DriverStateNew ∧ t = []) :=
  last_completion_triggers_stop (sampleEnv 1) stopFails 0 startedSingle (by decide)
    (fun _ => by decide)

/-- C2: on a driver whose lifecycle state is New or Stopped, `DcpDriver.Stop` returns nil
and is a no-op: the lifecycle state, the `vbState` map, the error channel, the clients and
both wait groups are unchanged, and the only call recorded is the entry into `Stop`
itself, so no client is stopped, the checkpoint manager is not stopped and `Done` is not
called on the parent wait group. -/
theorem stop_is_noop_unless_started (o : Outcomes) (d : DcpDriver)
    (hstate : d.state = DriverState.DriverStateNew ∨
      d.state = DriverState.DriverStateStopped) :
    ∃ d1, DcpDriver.Stop o d = some (d1, none) ∧
      d1.state = d.state ∧ d1.vbState = d.vbState ∧ d1.errChan = d.errChan ∧
      d1.clients = d.clients ∧ d1.childWaitGroup = d.childWaitGroup ∧
      d1.waitGroup = d.waitGroup ∧
      d1.vbStates = d.vbStates ∧ d1.trace = d.trace ++ [Event.driverStop] := by
  have hns : d.state ≠ DriverState.DriverStateStarted := by
    rcases hstate with h | h <;> rw [h] <;> decide
  exact ⟨_, driverStop_not_started o d hns, rfl, rfl, rfl, rfl, rfl, rfl, rfl, rfl⟩

/-- The witness of C2: `Stop` on a driver fresh from `NewDcpDriver`. -/
theorem stop_is_noop_unless_started_witness :
    ∃ d1, DcpDriver.Stop allSucceed (NewDcpDriver "d" 1 1 ⟨1, []⟩ 1 true) = some (d1, none) ∧
      d1.state = (NewDcpDriver "d" 1 1 ⟨1, []⟩ 1 true).state ∧
      d1.vbState = (NewDcpDriver "d" 1 1 ⟨1, []⟩ 1 true).vbState ∧
      d1.errChan = (NewDcpDriver "d" 1 1 ⟨1, []⟩ 1 true).errChan ∧
      d1.clients = (NewDcpDriver "d" 1 1 ⟨1, []⟩ 1 true).clients ∧
      d1.childWaitGroup = (NewDcpDriver "d" 1 1 ⟨1, []⟩ 1 true).childWaitGroup ∧
      d1.waitGroup = (NewDcpDriver "d" 1 1 ⟨1, []⟩ 1 true).waitGroup ∧
      d1.vbStates = (NewDcpDriver "d" 1 1 ⟨1, []⟩ 1 true).vbStates ∧
      d1.trace = (NewDcpDriver "d" 1 1 ⟨1, []⟩ 1 true).trace ++ [Event.driverStop] :=
  stop_is_noop_unless_started allSucceed (NewDcpDriver "d" 1 1 ⟨1, []⟩ 1 true) (Or.inl rfl)

/-- The counterexample of C3: on a driver from `NewDcpDriver`, after `Start` and `Stop` the
state is Stopped, and a second successful `Start` moves it back to Started. -/
theorem restart_moves_stopped_back_to_started :
    (DcpDriver.run (sampleEnv 1) [(allSucceed, Call.Start), (allSucceed, Call.Stop)]
        freshSingle).map DcpDriver.getState = some DriverState.DriverStateStopped ∧
    (DcpDriver.run (sampleEnv 1)
        [(allSucceed, Call.Start), (allSucceed, Call.Stop), (allSucceed, Call.Start)]
        freshSingle).map DcpDriver.getState = some DriverState.DriverStateStarted := by
  decide

/-- C3, amended: after any sequence of calls to `Start`, `Stop`, `handleVbucketCompletion`
and `reportError` on a driver created by `NewDcpDriver`, a further call does not move
the lifecycle state to an earlier value in the order New < Started < Stopped, unless it is
a `Start` on a driver that is already Stopped; and every `Start`, also that one, leaves
the state Started when it succeeds and unchanged when it returns an error. -/
theorem state_monotone_except_restart (env : Env) (calls : List (Outcomes × Call))
    (name : String) (numberOfClients numberOfWorkers : Nat) (errChan : ErrChan)
    (waitGroup : Nat) (completeBySeqno : Bool) (o : Outcomes) (c : Call) (d1 d2 : DcpDriver)
    (_hrun : DcpDriver.run env calls
      (NewDcpDriver name numberOfClients numberOfWorkers errChan waitGroup completeBySeqno)
        = some d1)
    (hcall : DcpDriver.call env o c d1 = some d2) :
    ((c = Call.Start → d1.state ≠ DriverState.DriverStateStopped) →
      d1.state.toNat ≤ d2.state.toNat) ∧
    (c = Call.Start → ∀ g, DcpDriver.Start env o d1 = some (d2, g) →
      d2.state = if g.isNone then DriverState.DriverStateStarted else d1.state) := by
  refine ⟨fun hrestart => ?_, fun _ g hs => driverStart_state env o d1 d2 g hs⟩
  cases c with
  | Start =>
    simp only [DcpDriver.call] at hcall
    cases hs : DcpDriver.Start env o d1 with
    | none => simp [hs] at hcall
    | some r =>
      obtain ⟨d3, g⟩ := r
      simp only [hs, Option.map_some', Option.some.injEq] at hcall
      have h3 := driverStart_state env o d1 d3 g hs
      rw [← hcall, h3]
      have hne := hrestart rfl
      cases g with
      | some e => exact Nat.le_refl _
      | none =>
        show d1.state.toNat ≤ 1
        cases hd : d1.state with
        | DriverStateNew => decide
        | DriverStateStarted => decide
        | DriverStateStopped => exact absurd hd hne
  | Stop =>
    simp only [DcpDriver.call] at hcall
    cases hs : DcpDriver.Stop o d1 with
    | none => simp [hs] at hcall
    | some r =>
      obtain ⟨d3, g⟩ := r
      simp only [hs, Option.map_some', Option.some.injEq] at hcall
      rw [← hcall]
      exact driverStop_state_le o d1 d3 g hs
  | handleVbucketCompletion vbno err =>
    simp only [DcpDriver.call] at hcall
    cases err with
    | some e =>
      simp only [DcpDriver.handleVbucketCompletion, Option.some.injEq] at hcall
      rw [← hcall]; exact Nat.le_refl _
    | none =>
      rw [handleVbucketCompletion_nil] at hcall
      split at hcall
      · cases hs : DcpDriver.Stop o { d1 with vbState := d1.vbState.insert vbno true } with
        | none => simp [hs] at hcall
        | some r =>
          obtain ⟨d3, g⟩ := r
          simp only [hs, Option.map_some', Option.some.injEq] at hcall
          rw [← hcall]
          have hle := driverStop_state_le o _ d3 g hs
          exact hle
      · simp only [Option.some.injEq] at hcall
        subst hcall
        exact Nat.le_refl _
  | reportError err =>
    simp only [DcpDriver.call, Option.some.injEq] at hcall
    rw [← hcall]; exact Nat.le_refl _

/-- The witness of C3: the first `Start` on a fresh driver, which succeeds and moves the
state from New to Started. -/
theorem state_monotone_except_restart_witness :
    ((Call.Start = Call.Start → freshSingle.state ≠ DriverState.DriverStateStopped) →
      freshSingle.state.toNat ≤ startedSingle.state.toNat) ∧
    (Call.Start = Call.Start →
      ∀ g, DcpDriver.Start (sampleEnv 1) allSucceed freshSingle = some (startedSingle, g) →
      startedSingle.state =
        if g.isNone then DriverState.DriverStateStarted else freshSingle.state) :=
  state_monotone_except_restart (sampleEnv 1) [] "d" 1 1 { cap := 1, buf := [] } 1 true
    allSucceed Call.Start freshSingle startedSingle rfl rfl

/-- C4: assume that `utils.BalanceLoad(n, m)`, where `initializeDcpClients` and
`initializeDcpHandlers` call it, returns `n` consecutive half-open index ranges that
partition `[0, m)`, that `V <= 65536`, and that every client and handler starts.  Then
`initializeDcpClients` returns without error, and afterwards every vbucket number in
`[0, V)` occurs in the `vbList` of exactly one client and in the `vbList` of exactly one
handler of that client, and that client's `vbHandlerMap` maps the vbucket to that
handler. -/
theorem every_vbucket_has_one_client_and_one_handler (env : Env) (o : Outcomes)
    (d : DcpDriver)
    (hV : env.NumberOfVbuckets ≤ 65536)
    (hsplit : IsSplit (env.BalanceLoad d.numberOfClients env.NumberOfVbuckets)
      d.numberOfClients env.NumberOfVbuckets)
    (hsplitH : ∀ q ∈ env.BalanceLoad d.numberOfClients env.NumberOfVbuckets,
      IsSplit (env.BalanceLoad d.numberOfWorkers (q.2 - q.1)) d.numberOfWorkers (q.2 - q.1))
    (hstart : o.ClientsStart d.rbacSupported d.numberOfClients d.numberOfWorkers) :
    ∃ d1, DcpDriver.initializeDcpClients env o d = some (d1, none) ∧
      ∀ v, v < env.NumberOfVbuckets →
        ∃ (i : Nat) (c : DcpClient) (j : Nat) (h : DcpHandler),
          d1.client i = some c ∧ v ∈ c.vbList ∧
          (∀ i2 c2, d1.client i2 = some c2 → v ∈ c2.vbList → i2 = i) ∧
          c.dcpHandlers[j]? = some (some h) ∧ h.index = j ∧ v ∈ h.vbList ∧
          (∀ (j2 : Nat) (h2 : DcpHandler), c.dcpHandlers[j2]? = some (some h2) →
            v ∈ h2.vbList → j2 = j) ∧
          c.vbHandlerMap.lookup v = some j := by
  obtain ⟨d1, h1, _, hcl1, hinv1⟩ := initializeDcpClients_ok env o d hV hsplit hsplitH hstart
  refine ⟨d1, h1, ?_⟩
  intro v hv
  have hsV : isSplitFrom 0 (env.BalanceLoad d.numberOfClients env.NumberOfVbuckets)
      (List.range env.NumberOfVbuckets).length = true := by
    rw [List.length_range]; exact hsplit.2
  -- the client
  obtain ⟨i, p, hip, hvp⟩ := slice_exists (List.range env.NumberOfVbuckets) _ hsV v
    (List.mem_range.2 hv)
  have hiN : i < d.numberOfClients := by
    rw [← hsplit.1]
    exact (List.getElem?_eq_some_iff.1 hip).1
  obtain ⟨c, hc, ⟨hvl, hhl, hass⟩, _⟩ := hinv1 i p hiN hip
  have hpm : p ∈ env.BalanceLoad d.numberOfClients env.NumberOfVbuckets := by
    obtain ⟨hlt, hget⟩ := List.getElem?_eq_some_iff.1 hip
    rw [← hget]; exact List.getElem_mem hlt
  have hb := slice_bounds (List.range env.NumberOfVbuckets) _ hsV i p hip
  have hcl : c.vbList.length = p.2 - p.1 := by
    rw [hvl]; exact length_sliceOf _ p hb.1 hb.2
  have hnd : c.vbList.Nodup := by
    rw [hvl]; exact (slice_sublist _ p).nodup (List.nodup_range _)
  have hsH := hsplitH p hpm
  rw [← hcl] at hsH
  -- the handler
  have hvc : v ∈ c.vbList := by rw [hvl]; exact hvp
  obtain ⟨j, q, hjq, hvq⟩ := slice_exists c.vbList _ hsH.2 v hvc
  have hjM : j < d.numberOfWorkers := by
    rw [← hsH.1]
    exact (List.getElem?_eq_some_iff.1 hjq).1
  refine ⟨i, c, j, { index := j, vbList := sliceOf c.vbList q }, hc, hvc, ?_,
    hass.1 j q hjM hjq, rfl, hvq, ?_, hass.2 j q v hjM hjq hvq⟩
  · intro i2 c2 hc2 hv2
    have hi2 : i2 < d.numberOfClients := by
      rw [← hcl1]; exact client_lt_length d1 i2 c2 hc2
    have hi2l : i2 < (env.BalanceLoad d.numberOfClients env.NumberOfVbuckets).length := by
      rw [hsplit.1]; exact hi2
    have hp2 : (env.BalanceLoad d.numberOfClients env.NumberOfVbuckets)[i2]? =
        some (env.BalanceLoad d.numberOfClients env.NumberOfVbuckets)[i2] :=
      List.getElem?_eq_getElem hi2l
    obtain ⟨c3, hc3, ⟨hvl3, _, _⟩, _⟩ := hinv1 i2 _ hi2 hp2
    rw [hc2] at hc3
    simp only [Option.some.injEq] at hc3
    subst hc3
    rw [hvl3] at hv2
    exact slice_unique (List.range env.NumberOfVbuckets) (List.nodup_range _) _ hsV i2 i _ p v
      hp2 hip hv2 hvp
  · intro j2 h2 hj2 hv2
    have hj2l : j2 < c.dcpHandlers.length := (List.getElem?_eq_some_iff.1 hj2).1
    have hj2M : j2 < d.numberOfWorkers := by rw [← hhl]; exact hj2l
    have hj2b : j2 < (env.BalanceLoad d.numberOfWorkers c.vbList.length).length := by
      rw [hsH.1]; exact hj2M
    have hq2 : (env.BalanceLoad d.numberOfWorkers c.vbList.length)[j2]? =
        some (env.BalanceLoad d.numberOfWorkers c.vbList.length)[j2] :=
      List.getElem?_eq_getElem hj2b
    have hh2 := hass.1 j2 _ hj2M hq2
    rw [hj2] at hh2
    simp only [Option.some.injEq] at hh2
    subst hh2
    exact slice_unique c.vbList hnd _ hsH.2 j2 j _ q v hq2 hjq hv2 hvq

/-- The witness of C4: four vbuckets, two clients of two handlers each, the balanced
split, and collaborators that all succeed. -/
theorem every_vbucket_has_one_client_and_one_handler_witness :
    ∃ d1, DcpDriver.initializeDcpClients (sampleEnv 4) allSucceed freshSample
        = some (d1, none) ∧
      ∀ v, v < (sampleEnv 4).NumberOfVbuckets →
        ∃ (i : Nat) (c : DcpClient) (j : Nat) (h : DcpHandler),
          d1.client i = some c ∧ v ∈ c.vbList ∧
          (∀ i2 c2, d1.client i2 = some c2 → v ∈ c2.vbList → i2 = i) ∧
          c.dcpHandlers[j]? = some (some h) ∧ h.index = j ∧ v ∈ h.vbList ∧
          (∀ (j2 : Nat) (h2 : DcpHandler), c.dcpHandlers[j2]? = some (some h2) →
            v ∈ h2.vbList → j2 = j) ∧
          c.vbHandlerMap.lookup v = some j :=
  every_vbucket_has_one_client_and_one_handler (sampleEnv 4) allSucceed freshSample
    (by decide) (by decide) (by decide)
    (fun _ _ => ⟨rfl, fun _ => rfl, rfl, fun _ _ => ⟨rfl, rfl⟩⟩)

/-- C5: `handleVbucketCompletion(vbno, err)` with a non-nil `err` offers `err` to the
error channel, where it is queued behind the errors already there when the channel has
room and dropped when it is full, leaves the `vbState` map unchanged and does not trigger
`Stop` (the offer is the only call it makes); with a nil `err`, whenever it returns, `vbState[vbno]` is
true, every other entry of `vbState` is unchanged, the error channel is unchanged and
nothing is offered to it; and it does return unless it must stop a started driver on
which `Stop` cannot run to its end. -/
theorem handleVbucketCompletion_effects (env : Env) (o : Outcomes) (vbno : Nat)
    (d : DcpDriver) :
    (∀ e : String, ∃ d1,
      DcpDriver.handleVbucketCompletion env o vbno (some e) d = some d1 ∧
      d1.errChan = AddToErrorChan d.errChan (some e) ∧
      d1.errChan.cap = d.errChan.cap ∧
      d1.errChan.buf =
        (if d.errChan.buf.length < d.errChan.cap then d.errChan.buf ++ [some e]
         else d.errChan.buf) ∧
      d1.trace = d.trace ++ [Event.errOffer (some e)] ∧
      d1.vbState = d.vbState ∧ d1.state = d.state) ∧
    (∀ d1, DcpDriver.handleVbucketCompletion env o vbno none d = some d1 →
      d1.vbState.lookup vbno = some true ∧
      (∀ v, v ≠ vbno → d1.vbState.lookup v = d.vbState.lookup v) ∧
      d1.errChan = d.errChan ∧
      ∃ t, d1.trace = d.trace ++ t ∧ ∀ err, Event.errOffer err ∉ t) ∧
    ((d.state = DriverState.DriverStateStarted → StopReady d) →
      ∃ d1, DcpDriver.handleVbucketCompletion env o vbno none d = some d1) := by
  refine ⟨fun e => ⟨_, rfl, rfl, (offer_spec d.errChan (some e)).1,
    (offer_spec d.errChan (some e)).2, rfl, rfl, rfl⟩, ?_, ?_⟩
  · intro d1 h
    rw [handleVbucketCompletion_nil] at h
    have hkey : ∀ d2 : DcpDriver, d2.vbState = d.vbState.insert vbno true →
        d2.vbState.lookup vbno = some true ∧
        (∀ v, v ≠ vbno → d2.vbState.lookup v = d.vbState.lookup v) := by
      intro d2 h2
      rw [h2]
      exact ⟨AList.lookup_insert _, fun v hv => AList.lookup_insert_ne hv⟩
    split at h
    · cases hs : DcpDriver.Stop o { d with vbState := d.vbState.insert vbno true } with
      | none => rw [hs] at h; simp at h
      | some r =>
        obtain ⟨d2, g⟩ := r
        rw [hs] at h
        simp only [Option.map_some', Option.some.injEq] at h
        obtain ⟨b, a, _, _, _, t, c, e⟩ := driverStop_stopsTo o _ d2 g hs
        rw [← h]
        refine ⟨(hkey d2 a).1, (hkey d2 a).2, b, t, c, ?_⟩
        intro err hm
        have hstop := e _ hm
        simp [Event.isStopping] at hstop
    · simp only [Option.some.injEq] at h
      rw [← h]
      exact ⟨(hkey _ rfl).1, (hkey _ rfl).2, rfl, [], by simp, by simp⟩
  · intro hready
    rw [handleVbucketCompletion_nil]
    split
    · by_cases hs : d.state = DriverState.DriverStateStarted
      · obtain ⟨d1, t, h, _, _⟩ := driverStop_started o
          { d with vbState := d.vbState.insert vbno true } hs (hready hs)
        exact ⟨d1, by rw [h]; rfl⟩
      · rw [driverStop_not_started o { d with vbState := d.vbState.insert vbno true } hs]
        exact ⟨_, rfl⟩
    · exact ⟨_, rfl⟩

/-- The witness of C5: the single vbucket of the started sample driver completes with a
nil error, which also stops the driver; nothing is offered to the error channel.  Reported
with the error `lost` instead, the vbucket is not recorded and the error is in the
channel; a second error finds the channel of capacity one full and is dropped. -/
theorem handleVbucketCompletion_effects_witness :
    (∃ d1, DcpDriver.handleVbucketCompletion (sampleEnv 1) allSucceed 0 none startedSingle
        = some d1 ∧
      d1.vbState.lookup 0 = some true ∧
      (∀ v, v ≠ 0 → d1.vbState.lookup v = startedSingle.vbState.lookup v) ∧
      d1.errChan = startedSingle.errChan ∧
      ∃ t, d1.trace = startedSingle.trace ++ t ∧ ∀ err, Event.errOffer err ∉ t) ∧
    (DcpDriver.handleVbucketCompletion (sampleEnv 1) allSucceed 0 (some "lost")
        startedSingle).map
      (fun d1 => (d1.errChan.buf, d1.vbState.keys, d1.state,
        d1.trace.drop startedSingle.trace.length)) =
      some ([some "lost"], [], DriverState.DriverStateStarted,
        [Event.errOffer (some "lost")]) ∧
    (DcpDriver.run (sampleEnv 1)
        [(allSucceed, Call.handleVbucketCompletion 0 (some "lost")),
          (allSucceed, Call.handleVbucketCompletion 0 (some "late"))] startedSingle).map
      (fun d1 => d1.errChan.buf) = some [some "lost"] := by
  obtain ⟨d1, h⟩ := (handleVbucketCompletion_effects (sampleEnv 1) allSucceed 0
    startedSingle).2.2 (fun _ => by decide)
  exact ⟨⟨d1, h,
    (handleVbucketCompletion_effects (sampleEnv 1) allSucceed 0 startedSingle).2.1 d1 h⟩,
    by decide, by decide⟩

/-- The counterexample of C6: after a `Start` that succeeds and a second `Start` in which
client 1 of 3 fails, the state is Started and `d.clients[2]` is nil; `Stop` then does not
return nil, it panics on the nil client. -/
theorem stop_panics_after_failed_restart :
    (DcpDriver.run (sampleEnv 3) [(allSucceed, Call.Start), (connectFails 1, Call.Start)]
        freshTriple).map (fun d => (d.state, d.clients.map Option.isSome)) =
      some (DriverState.DriverStateStarted, [true, true, false]) ∧
    (DcpDriver.run (sampleEnv 3)
        [(allSucceed, Call.Start), (connectFails 1, Call.Start), (allSucceed, Call.Stop)]
        freshTriple).isNone = true := by
  decide

/-- C6, amended: on a driver in state Started that is ready to be stopped (every client in
place with its `finChan` open, the child wait group counting one per client, the parent
wait group counting the driver, as after a successful `Start`), `DcpDriver.Stop` returns
nil whatever the collaborators answer, sets the state to Stopped, takes one off the parent
wait group, and its lifecycle calls are, in this order: `Stop` of client 0 entered and
returned, .., `Stop` of the last client entered and returned, `Stop` of the checkpoint
manager, `Done` on the parent wait group; each exactly once. -/
theorem stop_of_started_driver (o : Outcomes) (d : DcpDriver)
    (hstate : d.state = DriverState.DriverStateStarted) (hready : StopReady d) :
    ∃ d1 t, DcpDriver.Stop o d = some (d1, none) ∧
      d1.state = DriverState.DriverStateStopped ∧
      d1.waitGroup + 1 = d.waitGroup ∧
      d1.trace = d.trace ++ Event.driverStop :: t ∧
      t.filter Event.isLifecycle =
        (List.range d.clients.length).flatMap
            (fun j => [Event.clientStop j, Event.clientStopped j]) ++
          [Event.checkpointManagerStop, Event.waitGroupDone] := by
  obtain ⟨d1, t, h, hd1, ht⟩ := driverStop_started o d hstate hready
  have hpw : d1.waitGroup = d.waitGroup - 1 := by rw [hd1]
  have hpos : 0 < d.waitGroup := hready.2.2
  refine ⟨d1, t, h, ?_, ?_, ?_, ?_⟩
  · rw [hd1]
  · omega
  · rw [hd1]
  · rw [ht, clientStopEvents, List.range_eq_range']

/-- The witness of C6: the started sample driver, stopped while every close request and
the checkpoint manager fail. -/
theorem stop_of_started_driver_witness :
    ∃ d1 t, DcpDriver.Stop stopFails startedSample = some (d1, none) ∧
      d1.state = DriverState.DriverStateStopped ∧
      d1.waitGroup + 1 = startedSample.waitGroup ∧
      d1.trace = startedSample.trace ++ Event.driverStop :: t ∧
      t.filter Event.isLifecycle =
        (List.range startedSample.clients.length).flatMap
            (fun j => [Event.clientStop j, Event.clientStopped j]) ++
          [Event.checkpointManagerStop, Event.waitGroupDone] :=
  stop_of_started_driver stopFails startedSample (by decide) (by decide)

/-- C7: with the driver error channel a bounded FIFO of capacity `c >= 1`, empty at first
and without consumer, after any sequence of calls to `DcpClient.reportError` the channel
holds exactly the first `min n c` of the `n` reported errors, in report order, so its head
is the first error reported; every call returns, also where a plain send would block; and
a call made when the channel is full leaves the channel unchanged. -/
theorem error_channel_keeps_first_errors (d : DcpDriver) (errs : List GoError) (c : Nat)
    (hc : 1 ≤ c) (hch : d.errChan = { cap := c, buf := [] }) :
    (errs.foldl DcpClient.reportError d).errChan =
      { cap := c, buf := errs.take (min errs.length c) } ∧
    (errs.foldl DcpClient.reportError d).errChan.buf.head? = errs.head? ∧
    (∀ (d1 : DcpDriver) (e : GoError), d1.errChan.cap ≤ d1.errChan.buf.length →
      d1.errChan.send e = none ∧ (DcpClient.reportError d1 e).errChan = d1.errChan) := by
  have hbuf := reportErrors_buf errs d (by rw [hch]; exact Nat.zero_le _)
  rw [hch] at hbuf
  simp only [List.nil_append] at hbuf
  have hmin : errs.take (min errs.length c) = errs.take c := by
    by_cases h : errs.length ≤ c
    · rw [Nat.min_eq_left h, List.take_of_length_le h, List.take_of_length_le (Nat.le_refl _)]
    · rw [Nat.min_eq_right (by omega)]
  refine ⟨by rw [hbuf, hmin], ?_, ?_⟩
  · rw [hbuf]
    cases errs with
    | nil => simp
    | cons e es =>
      obtain ⟨c1, rfl⟩ : ∃ c1, c = c1 + 1 := ⟨c - 1, by omega⟩
      simp
  · intro d1 e hfull
    have hs : d1.errChan.send e = none := by
      unfold ErrChan.send
      rw [if_neg (by omega)]
    refine ⟨hs, ?_⟩
    simp only [DcpClient.reportError, ErrChan.offer, hs]

/-- The witness of C7: three errors reported on a channel of capacity two. -/
theorem error_channel_keeps_first_errors_witness :
    ([some "e1", some "e2", some "e3"].foldl DcpClient.reportError
        (NewDcpDriver "d" 1 1 { cap := 2, buf := [] } 1 true)).errChan =
      { cap := 2, buf := [some "e1", some "e2", some "e3"].take (min 3 2) } ∧
    ([some "e1", some "e2", some "e3"].foldl DcpClient.reportError
        (NewDcpDriver "d" 1 1 { cap := 2, buf := [] } 1 true)).errChan.buf.head? =
      [some "e1", some "e2", some "e3"].head? ∧
    (∀ (d1 : DcpDriver) (e : GoError), d1.errChan.cap ≤ d1.errChan.buf.length →
      d1.errChan.send e = none ∧ (DcpClient.reportError d1 e).errChan = d1.errChan) :=
  error_channel_keeps_first_errors (NewDcpDriver "d" 1 1 { cap := 2, buf := [] } 1 true)
    [some "e1", some "e2", some "e3"] 2 (by decide) rfl

/-- C8: let client `i` have a bucket, on a driver on which a `Stop` triggered by a
completion can run to its end.  If, in `handleDcpStreams`, `OpenStream` returns an error
for the vbucket at position `k` of the shuffled vbucket order (every request made at an
earlier position having succeeded), then the `OpenStream` requests made are exactly those
for the vbuckets at the positions up to `k` that need a stream, so none for a later
position; `handleDcpStreams` returns after offering to the driver error channel the error
whose text is the client's `Name`, then `": "`, then the text of the original error, which
is queued behind the errors already in the channel when the channel has room and dropped
when it is full; and no `go` statement is executed, so neither the completion sweeper nor the active-stream
reporter is started. -/
theorem open_error_ends_stream_opening (env : Env) (o : Outcomes) (i : Nat) (d : DcpDriver)
    (c : DcpClient) (k v : Nat) (e : String)
    (hc : d.client i = some c) (hb : c.bucketOpen = true)
    (hready : d.state = DriverState.DriverStateStarted → StopReady d)
    (hk : (o.shuffleVbList c.vbList)[k]? = some v)
    (hbefore : ∀ j x, j < k → (o.shuffleVbList c.vbList)[j]? = some x →
      o.needsStream x = true → o.openStream i x = none)
    (hneed : o.needsStream v = true) (hfail : o.openStream i v = some e) :
    ∃ d1 t, DcpClient.handleDcpStreams env o Ready.startVbtsDone i d = some d1 ∧
      d1.trace = d.trace ++ t ++ [Event.errOffer (some (c.Name ++ ": " ++ e))] ∧
      d1.errChan = d.errChan.offer (some (c.Name ++ ": " ++ e)) ∧
      d1.errChan.cap = d.errChan.cap ∧
      d1.errChan.buf =
        (if d.errChan.buf.length < d.errChan.cap then
          d.errChan.buf ++ [some (c.Name ++ ": " ++ e)]
         else d.errChan.buf) ∧
      t.filterMap Event.openedVb =
        ((o.shuffleVbList c.vbList).take (k + 1)).filter o.needsStream ∧
      (∀ ev ∈ t, ∀ err, ev ≠ Event.errOffer err) ∧
      ∀ j task, Event.go j task ∉ t ++ [Event.errOffer (some (c.Name ++ ": " ++ e))] := by
  obtain ⟨d1, d2, t, _, h1, hd1, hop, ht, hf, hev⟩ :=
    handleDcpStreams_fail env o i d c k v e hc hb hready hk hbefore hneed hfail
  have hch : d1.errChan = d.errChan.offer (some (c.Name ++ ": " ++ e)) := by
    rw [hd1]
    simp only [DcpClient.reportError, hop.1]
  refine ⟨d1, t, h1, ?_, hch, ?_, ?_, hf, ?_, ?_⟩
  · rw [hd1]
    simp only [DcpClient.reportError, ht]
  · rw [hch]
    exact (offer_spec d.errChan _).1
  · rw [hch]
    exact (offer_spec d.errChan _).2
  · intro ev hm err hcon
    rw [hcon] at hm
    rcases hev _ hm with h | h <;> simp [Event.isStopping, Event.openedVb] at h
  · intro j task hm
    rcases List.mem_append.1 hm with hm | hm
    · rcases hev _ hm with h | h <;> simp [Event.isStopping, Event.openedVb] at h
    · simp at hm

/-- The witness of C8: client 0 of the started sample driver opens its streams for the
vbuckets 0 and 1 in this order, and the request for vbucket 1 fails; the wrapped error
`d_0: no stream` is then the one entry of the error channel, after the two requests and
without a `go` statement. -/
theorem open_error_ends_stream_opening_witness :
    (∃ d1 t, DcpClient.handleDcpStreams (sampleEnv 4) (openFails 1) Ready.startVbtsDone 0
        startedSample = some d1 ∧
      d1.trace = startedSample.trace ++ t ++
        [Event.errOffer (some (sampleClient.Name ++ ": " ++ "no stream"))] ∧
      d1.errChan = startedSample.errChan.offer
        (some (sampleClient.Name ++ ": " ++ "no stream")) ∧
      d1.errChan.cap = startedSample.errChan.cap ∧
      d1.errChan.buf =
        (if startedSample.errChan.buf.length < startedSample.errChan.cap then
          startedSample.errChan.buf ++ [some (sampleClient.Name ++ ": " ++ "no stream")]
         else startedSample.errChan.buf) ∧
      t.filterMap Event.openedVb =
        (((openFails 1).shuffleVbList sampleClient.vbList).take (1 + 1)).filter
          (openFails 1).needsStream ∧
      (∀ ev ∈ t, ∀ err, ev ≠ Event.errOffer err) ∧
      ∀ j task, Event.go j task ∉
        t ++ [Event.errOffer (some (sampleClient.Name ++ ": " ++ "no stream"))]) ∧
    (DcpClient.handleDcpStreams (sampleEnv 4) (openFails 1) Ready.startVbtsDone 0
        startedSample).map
      (fun d1 => (d1.errChan.buf, d1.trace.drop startedSample.trace.length)) =
      some ([some "d_0: no stream"],
        [Event.openStream 0 0 0 0 (2 ^ 64 - 1) 0 0 (some 0),
          Event.openStream 0 1 0 0 (2 ^ 64 - 1) 0 0 (some 1),
          Event.errOffer (some "d_0: no stream")]) :=
  ⟨open_error_ends_stream_opening (sampleEnv 4) (openFails 1) 0 startedSample sampleClient 1 1
    "no stream" rfl (by decide) (fun _ => by decide) (by decide)
    (by
      have hl : (openFails 1).shuffleVbList sampleClient.vbList = [0, 1] := by decide
      intro j x hj hx _
      rw [hl] at hx
      have hj0 : j = 0 := by omega
      subst hj0
      simp only [List.getElem?_cons_zero, Option.some.injEq] at hx
      subst hx
      rfl)
    (by decide) (by decide), by decide⟩

/-- The counterexample of C9: on the started single-vbucket driver, whose vbucket 0 is
`Pending`, the open callback is invoked with an error, and, separately, `OpenStream`
returns an error in `openDcpStreams`; each time the error reaches the error channel and
the state of vbucket 0 is still `Pending`, not `Failed`. -/
theorem open_failure_does_not_mark_failed :
    (DcpClient.openStreamFunc 0 (some "boom") startedSingle).map
        (fun d => (d.errChan.buf, d.getVbState 0)) =
      some ([some "d_0 openStreamCallback reported err: boom"], VBState.VBStatePending) ∧
    (DcpClient.handleDcpStreams (sampleEnv 1) (openFails 0) Ready.startVbtsDone 0
        startedSingle).map (fun d => (d.errChan.buf, d.getVbState 0)) =
      some ([some "d_0: no stream"], VBState.VBStatePending) := by
  decide

/-- C9, amended: a failed stream open is surfaced to the driver error channel and marks no
vbucket `Failed`.  When the open callback `openStreamFunc` is invoked with a non-nil error,
the error, wrapped with the client's name, is offered to the error channel and every
vbucket state is unchanged.  When `OpenStream` returns an error synchronously in
`openDcpStreams`, `handleDcpStreams` offers the error, wrapped with the client's name, to
the error channel, and every vbucket state is what it was or `StreamClosed` (the work of a
`Stop` that an earlier completion triggered). -/
theorem open_failure_is_reported (env : Env) (o : Outcomes) (i : Nat) (d : DcpDriver)
    (c : DcpClient) (hc : d.client i = some c) :
    (∀ e : String, ∃ d1, DcpClient.openStreamFunc i (some e) d = some d1 ∧
      d1.trace = d.trace ++
        [Event.errOffer (some (c.Name ++ " openStreamCallback reported err: " ++ e))] ∧
      d1.errChan = d.errChan.offer
        (some (c.Name ++ " openStreamCallback reported err: " ++ e)) ∧
      ∀ w, d1.getVbState w = d.getVbState w) ∧
    (∀ (k v : Nat) (e : String), c.bucketOpen = true →
      (d.state = DriverState.DriverStateStarted → StopReady d) →
      (o.shuffleVbList c.vbList)[k]? = some v →
      (∀ j x, j < k → (o.shuffleVbList c.vbList)[j]? = some x →
        o.needsStream x = true → o.openStream i x = none) →
      o.needsStream v = true → o.openStream i v = some e →
      ∃ d1 t, DcpClient.handleDcpStreams env o Ready.startVbtsDone i d = some d1 ∧
        d1.trace = d.trace ++ t ++ [Event.errOffer (some (c.Name ++ ": " ++ e))] ∧
        d1.errChan = d.errChan.offer (some (c.Name ++ ": " ++ e)) ∧
        ∀ w, d1.getVbState w = d.getVbState w ∨
          d1.getVbState w = VBState.VBStateStreamClosed) := by
  constructor
  · intro e
    refine ⟨DcpClient.reportError d
      (some (c.Name ++ " openStreamCallback reported err: " ++ e)), ?_, rfl, rfl,
      fun _ => rfl⟩
    unfold DcpClient.openStreamFunc
    rw [hc]
  · intro k v e hb hready hk hbefore hneed hfail
    obtain ⟨d1, d2, t, _, h1, hd1, hop, ht, _, _⟩ :=
      handleDcpStreams_fail env o i d c k v e hc hb hready hk hbefore hneed hfail
    refine ⟨d1, t, h1, ?_, ?_, ?_⟩
    · rw [hd1]
      simp only [DcpClient.reportError, ht]
    · rw [hd1]
      simp only [DcpClient.reportError, hop.1]
    · intro w
      rw [hd1]
      exact hop.2.2.1 w

/-- The witness of C9: client 0 of the started sample driver, whose `OpenStream` request
for vbucket 1, the second in order, fails. -/
theorem open_failure_is_reported_witness :
    (∀ e : String, ∃ d1, DcpClient.openStreamFunc 0 (some e) startedSample = some d1 ∧
      d1.trace = startedSample.trace ++
        [Event.errOffer (some (sampleClient.Name ++ " openStreamCallback reported err: " ++ e))] ∧
      d1.errChan = startedSample.errChan.offer
        (some (sampleClient.Name ++ " openStreamCallback reported err: " ++ e)) ∧
      ∀ w, d1.getVbState w = startedSample.getVbState w) ∧
    ∃ d1 t, DcpClient.handleDcpStreams (sampleEnv 4) (openFails 1) Ready.startVbtsDone 0
        startedSample = some d1 ∧
      d1.trace = startedSample.trace ++ t ++
        [Event.errOffer (some (sampleClient.Name ++ ": " ++ "no stream"))] ∧
      d1.errChan = startedSample.errChan.offer
        (some (sampleClient.Name ++ ": " ++ "no stream")) ∧
      ∀ w, d1.getVbState w = startedSample.getVbState w ∨
        d1.getVbState w = VBState.VBStateStreamClosed :=
  ⟨(open_failure_is_reported (sampleEnv 4) (openFails 1) 0 startedSample sampleClient rfl).1,
    (open_failure_is_reported (sampleEnv 4) (openFails 1) 0 startedSample sampleClient rfl).2
      1 1 "no stream" (by decide) (fun _ => by decide) (by decide)
      (by
        have hl : (openFails 1).shuffleVbList sampleClient.vbList = [0, 1] := by decide
        intro j x hj hx _
        rw [hl] at hx
        have hj0 : j = 0 := by omega
        subst hj0
        simp only [List.getElem?_cons_zero, Option.some.injEq] at hx
        subst hx
        rfl)
      (by decide) (by decide)⟩

/-- The counterexample of C10: vbucket 0 is `Failed`; `closeStreamIfOpen`, alone and as run
by `DcpClient.Stop`, leaves it `StreamClosed`. -/
theorem stop_closes_failed_vbucket :
    failedSingle.getVbState 0 = VBState.VBStateFailed ∧
    (DcpClient.closeStreamIfOpen allSucceed 0 0 failedSingle).map
        (fun d => d.getVbState 0) = some VBState.VBStateStreamClosed ∧
    (DcpClient.Stop allSucceed 0 failedSingle).map
        (fun r => r.1.getVbState 0) = some VBState.VBStateStreamClosed := by
  decide

/-- C10, amended: `StreamClosed` is a terminal vbucket state, `Failed` is not.  The sweep
step `closeStreamIfCompleted` changes the state of no vbucket that is `StreamClosed` or
`Failed`; `closeStreamIfOpen`, and `DcpClient.Stop` which runs it, change the state of no
vbucket that is `StreamClosed`; `closeStreamIfOpen` for a vbucket changes the state of no
other vbucket; but `closeStreamIfOpen` for a `Failed` vbucket makes it `StreamClosed`,
unless the client has a bucket and the close request returns an error. -/
theorem stream_closed_is_terminal (o : Outcomes) (i : Nat) (d : DcpDriver) :
    (∀ w v d1, DcpClient.closeStreamIfCompleted o i w d = some d1 →
      d.getVbState v = VBState.VBStateStreamClosed ∨ d.getVbState v = VBState.VBStateFailed →
      d1.getVbState v = d.getVbState v) ∧
    (∀ w v d1, DcpClient.closeStreamIfOpen o i w d = some d1 →
      d.getVbState v = VBState.VBStateStreamClosed →
      d1.getVbState v = VBState.VBStateStreamClosed) ∧
    (∀ v d1 g, DcpClient.Stop o i d = some (d1, g) →
      d.getVbState v = VBState.VBStateStreamClosed →
      d1.getVbState v = VBState.VBStateStreamClosed) ∧
    (∀ w v d1, DcpClient.closeStreamIfOpen o i w d = some d1 → v ≠ w →
      d1.getVbState v = d.getVbState v) ∧
    (∀ v c, d.client i = some c → d.getVbState v = VBState.VBStateFailed →
      ∃ d1, DcpClient.closeStreamIfOpen o i v d = some d1 ∧
        d1.getVbState v =
          if c.bucketOpen = true ∧ (o.closeStream i v).isSome = true
          then VBState.VBStateFailed else VBState.VBStateStreamClosed) := by
  refine ⟨?_, ?_, ?_, ?_, ?_⟩
  · intro w v d1 h hv
    unfold DcpClient.closeStreamIfCompleted at h
    split at h
    · rename_i hw
      have hvw : v ≠ w := by
        intro hcon
        rw [hcon, hw] at hv
        rcases hv with hv | hv <;> cases hv
      cases hcs : DcpClient.closeStream o i w d with
      | none => simp [hcs] at h
      | some r =>
        obtain ⟨d2, g⟩ := r
        have h2 := closeStream_vbStates o i w d d2 g hcs
        cases g with
        | none =>
          simp only [hcs, Option.some.injEq] at h
          rw [← h]
          simp [DcpDriver.getVbState, DcpDriver.setVbState, h2, hvw]
        | some e =>
          simp only [hcs, Option.some.injEq] at h
          rw [← h]
          simp [DcpDriver.getVbState, h2]
    · simp only [Option.some.injEq] at h
      rw [← h]
  · intro w v d1 h hv
    rcases closeStreamIfOpen_vbStates o i w d d1 h v with h1 | h1
    · exact h1.trans hv
    · exact h1
  · intro v d1 g h hv
    rcases (clientStop_stopsTo o i d d1 g h).2.2.2.1 v with h1 | h1
    · exact h1.trans hv
    · exact h1
  · intro w v d1 h hvw
    unfold DcpClient.closeStreamIfOpen at h
    split at h
    · cases hcs : DcpClient.closeStream o i w d with
      | none => simp [hcs] at h
      | some r =>
        obtain ⟨d2, g⟩ := r
        have h2 := closeStream_vbStates o i w d d2 g hcs
        cases g with
        | none =>
          simp only [hcs, Option.some.injEq] at h
          rw [← h]
          simp [DcpDriver.getVbState, DcpDriver.setVbState, h2, hvw]
        | some e =>
          simp only [hcs, Option.some.injEq] at h
          rw [← h]
          simp [DcpDriver.getVbState, h2]
    · simp only [Option.some.injEq] at h
      rw [← h]
  · intro v c hc hv
    unfold DcpClient.closeStreamIfOpen
    have hne : d.getVbState v ≠ VBState.VBStateStreamClosed := by
      rw [hv]; decide
    rw [if_pos hne, closeStream_eq o i v d c hc]
    by_cases hb : c.bucketOpen = true
    · rw [if_pos hb]
      cases ho : o.closeStream i v with
      | none =>
        refine ⟨_, rfl, ?_⟩
        simp [DcpDriver.getVbState, DcpDriver.setVbState]
      | some e =>
        refine ⟨_, rfl, ?_⟩
        simp only [hb, Option.isSome_some, and_self, if_true]
        exact hv
    · rw [if_neg hb]
      refine ⟨_, rfl, ?_⟩
      simp [DcpDriver.getVbState, DcpDriver.setVbState, hb]

/-- The witness of C10: the single client of `failedSingle`, whose vbucket 0 is `Failed`,
while every close request fails. -/
theorem stream_closed_is_terminal_witness :
    ∃ d1, DcpClient.closeStreamIfOpen stopFails 0 0 failedSingle = some d1 ∧
      d1.getVbState 0 =
        if singleClient.bucketOpen = true ∧ (stopFails.closeStream 0 0).isSome = true
        then VBState.VBStateFailed else VBState.VBStateStreamClosed :=
  (stream_closed_is_terminal stopFails 0 failedSingle).2.2.2.2 0 singleClient rfl
    (by decide)

/-- C11: on a client with an open streaming bucket whose `finChan` is still open and whose
wait group still counts it, `DcpClient.Stop` returns nil, and the calls it makes are, in this
order: the closing of `finChan`, one `CloseStream` request for each member of `reqs`, `Stop`
of every non-nil handler once, and `Done` on the wait group once.  The requested vbuckets
`reqs` form a sublist of `vbList` that holds exactly the vbuckets of `vbList` whose state
was not `StreamClosed` (with no duplicates in `vbList`, it is `vbList` filtered by that
condition); a vbucket whose request succeeded ends in `StreamClosed`, every other vbucket
keeps its state. -/
theorem client_stop_closes_open_streams (o : Outcomes) (i : Nat) (d : DcpDriver)
    (c : DcpClient) (hc : d.client i = some c) (hbucket : c.bucketOpen = true)
    (hfin : c.finClosed = false) (hwg : 0 < d.childWaitGroup) :
    ∃ (d1 : DcpDriver) (reqs : List Nat),
      DcpClient.Stop o i d = some (d1, none) ∧
      d1.trace = d.trace ++ ([Event.clientStop i, Event.finClose i] ++
        reqs.map (Event.closeStream i) ++
        (c.dcpHandlers.filterMap id).map (fun h => Event.handlerStop i h.index) ++
        [Event.clientStopped i]) ∧
      reqs.Sublist c.vbList ∧
      (∀ v, v ∈ reqs ↔ v ∈ c.vbList ∧ d.getVbState v ≠ VBState.VBStateStreamClosed) ∧
      (c.vbList.Nodup → reqs = c.vbList.filter
        (fun v => decide (d.getVbState v ≠ VBState.VBStateStreamClosed))) ∧
      (∀ v, d1.getVbState v =
        if v ∈ reqs ∧ o.closeStream i v = none then VBState.VBStateStreamClosed
        else d.getVbState v) ∧
      (∃ c1, d1.client i = some c1 ∧ c1.finClosed = true) ∧
      d1.childWaitGroup + 1 = d.childWaitGroup := by
  have hlen : i < d.clients.length := client_lt_length d i c hc
  have hc2 := client_setClient_self
    (((d.record (Event.clientStop i)).setClient i { c with finClosed := true }).record
      (Event.finClose i)) i
    { c with finClosed := true, numberClosing := c.vbList.length % 2 ^ 32 }
    (by simpa [DcpDriver.setClient, DcpDriver.record] using hlen)
  obtain ⟨d3, reqs, h3, hd3, hsub, hmem, hst⟩ :=
    closeStreams_requests o i c.vbList _ _ hc2 hbucket
  unfold DcpClient.Stop
  simp only [hc, hfin]
  simp only [h3]
  have hwg3 : d3.childWaitGroup = d.childWaitGroup := by rw [hd3]; rfl
  have hwg4 : ¬ (DcpClient.stopHandlers i c.dcpHandlers d3).childWaitGroup = 0 := by
    simp only [DcpClient.stopHandlers]; omega
  simp only [Bool.false_eq_true, if_false, if_neg hwg4]
  refine ⟨_, reqs, rfl, ?_, hsub, hmem, ?_, hst, ?_, ?_⟩
  · simp only [DcpClient.stopHandlers, DcpDriver.record]
    rw [hd3]
    simp [DcpDriver.setClient, DcpDriver.record, List.append_assoc]
  · intro hnd
    exact sublist_eq_filter _ reqs c.vbList hsub hnd (by simpa using hmem)
  · refine ⟨{ c with finClosed := true, numberClosing := c.vbList.length % 2 ^ 32 }, ?_, rfl⟩
    simp only [DcpClient.stopHandlers, DcpDriver.record]
    rw [hd3]
    simp [DcpDriver.client, DcpDriver.setClient, DcpDriver.record, hlen]
  · simp only [DcpClient.stopHandlers, DcpDriver.record]
    omega

/-- The witness of C11: client 0 of `oneClosedSample`, whose vbucket 1 is `StreamClosed`
already, with a transport that fails every `CloseStream` request; the one request is for
vbucket 0. -/
theorem client_stop_closes_open_streams_witness :
    (∃ (d1 : DcpDriver) (reqs : List Nat),
      DcpClient.Stop stopFails 0 oneClosedSample = some (d1, none) ∧
      d1.trace = oneClosedSample.trace ++ ([Event.clientStop 0, Event.finClose 0] ++
        reqs.map (Event.closeStream 0) ++
        (sampleClient.dcpHandlers.filterMap id).map (fun h => Event.handlerStop 0 h.index) ++
        [Event.clientStopped 0]) ∧
      reqs.Sublist sampleClient.vbList ∧
      (∀ v, v ∈ reqs ↔
        v ∈ sampleClient.vbList ∧ oneClosedSample.getVbState v ≠ VBState.VBStateStreamClosed) ∧
      (sampleClient.vbList.Nodup → reqs = sampleClient.vbList.filter
        (fun v => decide (oneClosedSample.getVbState v ≠ VBState.VBStateStreamClosed))) ∧
      (∀ v, d1.getVbState v =
        if v ∈ reqs ∧ stopFails.closeStream 0 v = none then VBState.VBStateStreamClosed
        else oneClosedSample.getVbState v) ∧
      (∃ c1, d1.client 0 = some c1 ∧ c1.finClosed = true) ∧
      d1.childWaitGroup + 1 = oneClosedSample.childWaitGroup) ∧
    sampleClient.vbList.filter
      (fun v => decide (oneClosedSample.getVbState v ≠ VBState.VBStateStreamClosed)) = [0] :=
  ⟨client_stop_closes_open_streams stopFails 0 oneClosedSample sampleClient rfl rfl rfl
    (by decide), by decide⟩

/-- C12: on a client with a bucket and assigned handlers, whose `vbList` has no duplicates,
when the shuffle permutes its argument and no `OpenStream` call fails, `openDcpStreams`
returns nil, and for every vbucket of `vbList` whose start cursor needs a stream the trace
holds exactly one `OpenStream` request for it: with the vbuuid and the seqno of the cursor,
the end seqno `2^64 - 1`, both snapshot seqnos equal to the start seqno, and the handler
that `vbHandlerMap` gives, which is the one handler whose own `vbList` holds the vbucket. -/
theorem open_request_per_vbucket (env : Env) (o : Outcomes) (i : Nat) (d : DcpDriver)
    (c : DcpClient) (ld : List (Nat × Nat)) (hc : d.client i = some c)
    (hbucket : c.bucketOpen = true)
    (hready : d.state = DriverState.DriverStateStarted → StopReady d)
    (hnd : c.vbList.Nodup) (hperm : (o.shuffleVbList c.vbList).Perm c.vbList)
    (hok : ∀ v ∈ c.vbList, o.needsStream v = true → o.openStream i v = none)
    (hsplit : IsSplit ld c.dcpHandlers.length c.vbList.length)
    (hassigned : c.HandlersAssigned ld c.dcpHandlers.length) :
    ∃ d1 t, DcpClient.openDcpStreams env o i d = some (d1, none) ∧ d1.trace = d.trace ++ t ∧
      ∀ v ∈ c.vbList, o.needsStream v = true →
        ∃ (j : Nat) (h : DcpHandler),
          t.filter (fun e => decide (e.openedVb = some v)) =
            [Event.openStream i v (o.getStartVBTS v).Vbuuid (o.getStartVBTS v).Seqno
              (2 ^ 64 - 1) (o.getStartVBTS v).Seqno (o.getStartVBTS v).Seqno (some j)] ∧
          c.vbHandlerMap.lookup v = some j ∧
          c.dcpHandlers[j]? = some (some h) ∧ h.index = j ∧ v ∈ h.vbList ∧
          ∀ (j2 : Nat) (h2 : DcpHandler), c.dcpHandlers[j2]? = some (some h2) →
            v ∈ h2.vbList → j2 = j := by
  have hcan : d.CanOpen i := ⟨hready, c, hc, hbucket⟩
  obtain ⟨d1, t, h1, _, _, ht, hf, _⟩ := openLoop_requests env o i c.vbHandlerMap
    (o.shuffleVbList c.vbList) d hcan ⟨c, hc, rfl⟩
    (fun x hx => hok x (hperm.mem_iff.1 hx))
  refine ⟨d1, t, ?_, ht, ?_⟩
  · unfold DcpClient.openDcpStreams
    rw [hc]
    exact h1
  · intro v hv hneed
    obtain ⟨j, h, hl, hh, hidx, hvh, huniq⟩ := handler_of_vbucket c ld hnd hsplit hassigned v hv
    refine ⟨j, h, ?_, hl, hh, hidx, hvh, huniq⟩
    have hvs : v ∈ (o.shuffleVbList c.vbList).filter o.needsStream :=
      List.mem_filter.2 ⟨hperm.mem_iff.2 hv, hneed⟩
    have hnds : ((o.shuffleVbList c.vbList).filter o.needsStream).Nodup :=
      (hperm.nodup_iff.2 hnd).filter _
    have hsub : t.filter (fun e => decide (e.openedVb = some v)) =
        (t.filter (fun e => (e.openedVb).isSome)).filter
          (fun e => decide (e.openedVb = some v)) := by
      rw [List.filter_filter]
      congr 1
      funext e
      cases hov : e.openedVb <;> simp
    rw [hsub, hf, filter_openRequests o i c.vbHandlerMap _ hnds v hvs]
    simp [DcpClient.openRequest, hl]

/-- The witness of C12: client 0 of `startedSample`, with the vbuckets 0 and 1 and one handler
for each. -/
theorem open_request_per_vbucket_witness :
    ∃ d1 t, DcpClient.openDcpStreams (sampleEnv 4) allSucceed 0 startedSample
        = some (d1, none) ∧ d1.trace = startedSample.trace ++ t ∧
      ∀ v ∈ sampleClient.vbList, allSucceed.needsStream v = true →
        ∃ (j : Nat) (h : DcpHandler),
          t.filter (fun e => decide (e.openedVb = some v)) =
            [Event.openStream 0 v (allSucceed.getStartVBTS v).Vbuuid
              (allSucceed.getStartVBTS v).Seqno (2 ^ 64 - 1) (allSucceed.getStartVBTS v).Seqno
              (allSucceed.getStartVBTS v).Seqno (some j)] ∧
          sampleClient.vbHandlerMap.lookup v = some j ∧
          sampleClient.dcpHandlers[j]? = some (some h) ∧ h.index = j ∧ v ∈ h.vbList ∧
          ∀ (j2 : Nat) (h2 : DcpHandler), sampleClient.dcpHandlers[j2]? = some (some h2) →
            v ∈ h2.vbList → j2 = j :=
  open_request_per_vbucket (sampleEnv 4) allSucceed 0 startedSample sampleClient
    (balanceLoad 2 2) rfl rfl (fun _ => by decide) (by decide) (List.Perm.refl _)
    (fun _ _ _ => rfl) (by decide)
    ⟨fun j p hj hp => by
      have hj2 : j = 0 ∨ j = 1 := by
        have : j < 2 := hj
        omega
      rcases hj2 with rfl | rfl
      · have hp0 : p = (0, 1) := by
          have : (balanceLoad 2 2)[0]? = some (0, 1) := by decide
          rw [this] at hp
          exact (Option.some.inj hp).symm
        subst hp0
        rfl
      · have hp1 : p = (1, 2) := by
          have : (balanceLoad 2 2)[1]? = some (1, 2) := by decide
          rw [this] at hp
          exact (Option.some.inj hp).symm
        subst hp1
        rfl,
    fun j p v hj hp hv => by
      have hj2 : j = 0 ∨ j = 1 := by
        have : j < 2 := hj
        omega
      rcases hj2 with rfl | rfl
      · have hp0 : p = (0, 1) := by
          have : (balanceLoad 2 2)[0]? = some (0, 1) := by decide
          rw [this] at hp
          exact (Option.some.inj hp).symm
        subst hp0
        have hv0 : v = 0 := by
          have : sliceOf sampleClient.vbList (0, 1) = [0] := by decide
          rw [this] at hv
          simpa using hv
        subst hv0
        rfl
      · have hp1 : p = (1, 2) := by
          have : (balanceLoad 2 2)[1]? = some (1, 2) := by decide
          rw [this] at hp
          exact (Option.some.inj hp).symm
        subst hp1
        have hv1 : v = 1 := by
          have : sliceOf sampleClient.vbList (1, 2) = [1] := by decide
          rw [this] at hv
          simpa using hv
        subst hv1
        rfl⟩

/-- The counterexample of C13: client 0 of `startedSample` has the vbuckets 0 and 1, the
cursor of vbucket 1 is marked `NoNeedToStartDcpStream`, and the `OpenStream` request for
vbucket 0 fails.  `openDcpStreams` returns that error after the one request; the completion
of vbucket 1 is not reported, and `vbState` has no entry for it. -/
theorem open_failure_skips_later_no_need_vbucket :
    sampleClient.vbList = [0, 1] ∧
    (openFailsThenNoNeed.getStartVBTS 1).NoNeedToStartDcpStream = true ∧
    (DcpClient.openDcpStreams (sampleEnv 4) openFailsThenNoNeed 0 startedSample).map
        (fun r => (r.2, r.1.vbState.lookup 1, r.1.vbState.keys,
          r.1.trace.drop startedSample.trace.length)) =
      some (some "no stream", none, [],
        [Event.openStream 0 0 7 5 (2 ^ 64 - 1) 5 5 (some 0)]) := by
  decide

/-- C13, amended: for a vbucket `v` whose start cursor is marked `NoNeedToStartDcpStream`,
on a driver on which a triggered `Stop` can run.  The round of `v` in the loop of
`openDcpStreams` is the call `handleVbucketCompletion(v, nil)`: it makes no `OpenStream`
request, leaves `vbState[v] = true`, returns no error, and the loop goes on with the
remaining vbuckets.  A run of `openDcpStreams` makes no `OpenStream` request for `v` at
all.  When `v` stands at position `k` of the shuffled list and no `OpenStream` request of
an earlier round failed, the loop reaches that round, and `vbState[v] = true` holds
whenever `openDcpStreams` returns. -/
theorem no_need_vbucket_is_reported_complete (env : Env) (o : Outcomes) (i v : Nat)
    (d : DcpDriver) (hno : (o.getStartVBTS v).NoNeedToStartDcpStream = true)
    (hready : d.state = DriverState.DriverStateStarted → StopReady d) :
    (∃ d1 t, DcpDriver.handleVbucketCompletion env o v none d = some d1 ∧
      DcpClient.openDcpStream env o i v d = some (d1, none) ∧
      d1.trace = d.trace ++ t ∧ (∀ e ∈ t, e.openedVb = none) ∧
      d1.vbState.lookup v = some true ∧
      ∀ rest, forErr (DcpClient.openDcpStream env o i) (v :: rest) d =
        forErr (DcpClient.openDcpStream env o i) rest d1) ∧
    (∀ d2 g, DcpClient.openDcpStreams env o i d = some (d2, g) →
      ∃ t2, d2.trace = d.trace ++ t2 ∧ ∀ e ∈ t2, e.openedVb ≠ some v) ∧
    (∀ (c : DcpClient) (k : Nat), d.client i = some c → c.bucketOpen = true →
      (o.shuffleVbList c.vbList)[k]? = some v →
      (∀ j x, j < k → (o.shuffleVbList c.vbList)[j]? = some x →
        o.needsStream x = true → o.openStream i x = none) →
      ∃ d0 d1,
        forErr (DcpClient.openDcpStream env o i) ((o.shuffleVbList c.vbList).take k) d
          = some (d0, none) ∧
        DcpDriver.handleVbucketCompletion env o v none d0 = some d1 ∧
        d1.vbState.lookup v = some true ∧
        DcpClient.openDcpStreams env o i d =
          forErr (DcpClient.openDcpStream env o i) ((o.shuffleVbList c.vbList).drop (k + 1))
            d1 ∧
        ∀ d2 g, DcpClient.openDcpStreams env o i d = some (d2, g) →
          d2.vbState.lookup v = some true) := by
  have hns : o.needsStream v = false := by simp [Outcomes.needsStream, hno]
  have hround : ∀ s : DcpDriver, (s.state = DriverState.DriverStateStarted → StopReady s) →
      ∃ s1 t, DcpDriver.handleVbucketCompletion env o v none s = some s1 ∧
        DcpClient.openDcpStream env o i v s = some (s1, none) ∧
        s1.trace = s.trace ++ t ∧ (∀ e ∈ t, e.openedVb = none) ∧
        s1.vbState.lookup v = some true ∧
        ∀ rest, forErr (DcpClient.openDcpStream env o i) (v :: rest) s =
          forErr (DcpClient.openDcpStream env o i) rest s1 := by
    intro s hs
    obtain ⟨s1, t, h, _, hvb, ht, hev, _⟩ := handleVbucketCompletion_nil_spec env o v s hs
    have hr : DcpClient.openDcpStream env o i v s = some (s1, none) := by
      unfold DcpClient.openDcpStream
      simp only [hno, if_true, h, Option.map_some']
    refine ⟨s1, t, h, hr, ht, ?_, ?_, ?_⟩
    · intro e he
      have := hev e he
      cases e <;> simp [Event.isStopping] at this <;> rfl
    · rw [hvb]
      simp [AList.lookup_insert]
    · intro rest
      simp only [forErr, hr]
  refine ⟨hround d hready, ?_, ?_⟩
  · intro d2 g h
    unfold DcpClient.openDcpStreams at h
    cases hc : d.client i with
    | none => rw [hc] at h; simp at h
    | some c =>
      rw [hc] at h
      obtain ⟨_, _, t2, ht2, hev⟩ := openLoop_frame env o i _ d d2 g h
      refine ⟨t2, ht2, ?_⟩
      intro e he hcon
      rcases hev e he with hst | ⟨x, hx, hneed⟩
      · cases e <;> simp [Event.isStopping] at hst <;> simp [Event.openedVb] at hcon
      · rw [hcon] at hx
        cases hx
        rw [hns] at hneed
        cases hneed
  · intro c k hc hb hk hbefore
    obtain ⟨hsplit, _⟩ := split_at_position _ k v hk
    have hpre : ∀ x ∈ (o.shuffleVbList c.vbList).take k,
        o.needsStream x = true → o.openStream i x = none := by
      intro x hx
      obtain ⟨j, hj, hjx⟩ := List.getElem_of_mem hx
      have hjk : j < k := by
        rw [List.length_take] at hj
        omega
      refine hbefore j x hjk ?_
      rw [List.getElem_take] at hjx
      rw [← hjx]
      exact List.getElem?_eq_getElem _
    obtain ⟨d0, _, h0, _, hcan0, _, _, _⟩ := openLoop_ok env o i _ d ⟨hready, c, hc, hb⟩ hpre
    obtain ⟨d1, _, h1, _, _, _, hvb1, hrest⟩ := hround d0 hcan0.1
    have hopen : DcpClient.openDcpStreams env o i d =
        forErr (DcpClient.openDcpStream env o i) ((o.shuffleVbList c.vbList).drop (k + 1))
          d1 := by
      unfold DcpClient.openDcpStreams
      rw [hc]
      simp only
      conv_lhs => rw [hsplit]
      rw [forErr_append_ok _ _ _ d d0 h0, hrest]
    refine ⟨d0, d1, h0, h1, hvb1, hopen, ?_⟩
    intro d2 g h
    rw [hopen] at h
    exact (openLoop_frame env o i _ d1 d2 g h).2.1 v hvb1

/-- The witness of C13: client 0 of `startedSample` when the cursor of vbucket 1 is marked
`NoNeedToStartDcpStream`; the run makes the one request for vbucket 0 and leaves
`vbState[1] = true`. -/
theorem no_need_vbucket_is_reported_complete_witness :
    ((∃ d1 t, DcpDriver.handleVbucketCompletion (sampleEnv 4) (noStreamNeeded 1) 1 none
          startedSample = some d1 ∧
      DcpClient.openDcpStream (sampleEnv 4) (noStreamNeeded 1) 0 1 startedSample
        = some (d1, none) ∧
      d1.trace = startedSample.trace ++ t ∧ (∀ e ∈ t, e.openedVb = none) ∧
      d1.vbState.lookup 1 = some true ∧
      ∀ rest, forErr (DcpClient.openDcpStream (sampleEnv 4) (noStreamNeeded 1) 0) (1 :: rest)
          startedSample =
        forErr (DcpClient.openDcpStream (sampleEnv 4) (noStreamNeeded 1) 0) rest d1) ∧
    (∀ d2 g, DcpClient.openDcpStreams (sampleEnv 4) (noStreamNeeded 1) 0 startedSample
        = some (d2, g) →
      ∃ t2, d2.trace = startedSample.trace ++ t2 ∧ ∀ e ∈ t2, e.openedVb ≠ some 1) ∧
    (∀ (c : DcpClient) (k : Nat), startedSample.client 0 = some c → c.bucketOpen = true →
      ((noStreamNeeded 1).shuffleVbList c.vbList)[k]? = some 1 →
      (∀ j x, j < k → ((noStreamNeeded 1).shuffleVbList c.vbList)[j]? = some x →
        (noStreamNeeded 1).needsStream x = true → (noStreamNeeded 1).openStream 0 x = none) →
      ∃ d0 d1,
        forErr (DcpClient.openDcpStream (sampleEnv 4) (noStreamNeeded 1) 0)
          (((noStreamNeeded 1).shuffleVbList c.vbList).take k) startedSample
          = some (d0, none) ∧
        DcpDriver.handleVbucketCompletion (sampleEnv 4) (noStreamNeeded 1) 1 none d0
          = some d1 ∧
        d1.vbState.lookup 1 = some true ∧
        DcpClient.openDcpStreams (sampleEnv 4) (noStreamNeeded 1) 0 startedSample =
          forErr (DcpClient.openDcpStream (sampleEnv 4) (noStreamNeeded 1) 0)
            (((noStreamNeeded 1).shuffleVbList c.vbList).drop (k + 1)) d1 ∧
        ∀ d2 g, DcpClient.openDcpStreams (sampleEnv 4) (noStreamNeeded 1) 0 startedSample
            = some (d2, g) →
          d2.vbState.lookup 1 = some true)) ∧
    (((DcpClient.openDcpStreams (sampleEnv 4) (noStreamNeeded 1) 0 startedSample).map
        (fun r => (r.1.trace.drop startedSample.trace.length, r.1.vbState.lookup 1, r.2))) =
      some ([Event.openStream 0 0 7 5 (2 ^ 64 - 1) 5 5 (some 0)], some true, none)) :=
  ⟨no_need_vbucket_is_reported_complete (sampleEnv 4) (noStreamNeeded 1) 0 1 startedSample
    rfl (fun _ => by decide), by decide⟩

/-- C14: one step `closeStreamIfCompleted(vbno)` of the completion sweep of a client with a
bucket.  In the state `Completed` one `CloseStream` request is made: when it succeeds the
state of `vbno` becomes `StreamClosed`, when it fails the state stays `Completed`.  In any
other state the step changes nothing and makes no request.  The states of the other
vbuckets are the same after the step.  A run of `handleDcpStreams` starts the sweeper task
exactly when it took the `startVbtsDoneChan` case, `openDcpStreams` returned nil and
`completeBySeqno` is true. -/
theorem sweep_step_closes_completed_only (o : Outcomes) (i vbno : Nat) (d : DcpDriver)
    (c : DcpClient) (hc : d.client i = some c) (hb : c.bucketOpen = true) :
    (d.getVbState vbno = VBState.VBStateCompleted → o.closeStream i vbno = none →
      ∃ d1, DcpClient.closeStreamIfCompleted o i vbno d = some d1 ∧
        d1 = { d with vbStates := d1.vbStates, trace := d.trace ++ [Event.closeStream i vbno] } ∧
        d1.getVbState vbno = VBState.VBStateStreamClosed ∧
        ∀ w, w ≠ vbno → d1.getVbState w = d.getVbState w) ∧
    (d.getVbState vbno = VBState.VBStateCompleted → ∀ e, o.closeStream i vbno = some e →
      ∃ d1, DcpClient.closeStreamIfCompleted o i vbno d = some d1 ∧
        d1 = { d with vbStates := d1.vbStates, trace := d.trace ++ [Event.closeStream i vbno] } ∧
        d1.getVbState vbno = VBState.VBStateCompleted ∧
        ∀ w, w ≠ vbno → d1.getVbState w = d.getVbState w) ∧
    (d.getVbState vbno ≠ VBState.VBStateCompleted →
      DcpClient.closeStreamIfCompleted o i vbno d = some d) ∧
    (∀ (env : Env) (ready : Ready) (d1 : DcpDriver),
      DcpClient.handleDcpStreams env o ready i d = some d1 →
      ∃ t, d1.trace = d.trace ++ t ∧
        (Event.go i Task.closeCompletedStreams ∈ t ↔
          ready = Ready.startVbtsDone ∧ d.completeBySeqno = true ∧
            ∃ d2, DcpClient.openDcpStreams env o i d = some (d2, none))) := by
  refine ⟨?_, ?_, ?_, ?_⟩
  · intro hs ho
    unfold DcpClient.closeStreamIfCompleted
    rw [closeStream_eq o i vbno d c hc, if_pos hb, if_pos hs, ho]
    refine ⟨_, rfl, rfl, ?_, ?_⟩
    · simp [DcpDriver.getVbState, DcpDriver.setVbState]
    · intro w hw
      simp [DcpDriver.getVbState, DcpDriver.setVbState, DcpDriver.record, hw]
  · intro hs e ho
    unfold DcpClient.closeStreamIfCompleted
    rw [closeStream_eq o i vbno d c hc, if_pos hb, if_pos hs, ho]
    exact ⟨_, rfl, rfl, hs, fun w _ => rfl⟩
  · intro hs
    unfold DcpClient.closeStreamIfCompleted
    rw [if_neg hs]
  · intro env ready d1 h
    unfold DcpClient.handleDcpStreams at h
    cases ready with
    | fin =>
      simp only [Option.some.injEq] at h
      subst h
      exact ⟨[], by simp, by simp⟩
    | startVbtsDone =>
      simp only [hc] at h
      cases hop : DcpClient.openDcpStreams env o i d with
      | none => rw [hop] at h; simp at h
      | some r =>
        obtain ⟨d2, g⟩ := r
        rw [hop] at h
        have hop2 := hop
        unfold DcpClient.openDcpStreams at hop2
        rw [hc] at hop2
        obtain ⟨hcb, _, t2, ht2, hev⟩ := openLoop_frame env o i _ d d2 g hop2
        have hnot : Event.go i Task.closeCompletedStreams ∉ t2 := by
          intro hmem
          rcases hev _ hmem with hst | ⟨x, hx, _⟩
          · simp [Event.isStopping] at hst
          · simp [Event.openedVb] at hx
        cases g with
        | some e =>
          simp only [Option.some.injEq] at h
          subst h
          refine ⟨t2 ++ [Event.errOffer (some (c.Name ++ ": " ++ e))], ?_, ?_⟩
          · simp [DcpClient.reportError, ht2]
          · simp [hnot]
        | none =>
          simp only [Option.some.injEq] at h
          subst h
          by_cases hcs : d.completeBySeqno = true
          · have hcs2 : d2.completeBySeqno = true := by rw [hcb]; exact hcs
            refine ⟨t2 ++ [Event.go i Task.closeCompletedStreams,
              Event.go i Task.reportActiveStreams], ?_, ?_⟩
            · simp [hcs2, DcpDriver.record, ht2]
            · simp [hcs]
          · have hcs2 : ¬ d2.completeBySeqno = true := by rw [hcb]; exact hcs
            refine ⟨t2 ++ [Event.go i Task.reportActiveStreams], ?_, ?_⟩
            · simp [hcs2, DcpDriver.record, ht2]
            · simp [hcs, hnot]

/-- The witness of C14: the single client of `completedSingle`, whose vbucket 0 is
`Completed`, with a transport that closes the stream and with one that does not, and the
same client with the vbucket `Pending`. -/
theorem sweep_step_closes_completed_only_witness :
    ((completedSingle.getVbState 0 = VBState.VBStateCompleted →
        allSucceed.closeStream 0 0 = none →
      ∃ d1, DcpClient.closeStreamIfCompleted allSucceed 0 0 completedSingle = some d1 ∧
        d1 = { completedSingle with
          vbStates := d1.vbStates
          trace := completedSingle.trace ++ [Event.closeStream 0 0] } ∧
        d1.getVbState 0 = VBState.VBStateStreamClosed ∧
        ∀ w, w ≠ 0 → d1.getVbState w = completedSingle.getVbState w) ∧
    (completedSingle.getVbState 0 = VBState.VBStateCompleted →
        ∀ e, allSucceed.closeStream 0 0 = some e →
      ∃ d1, DcpClient.closeStreamIfCompleted allSucceed 0 0 completedSingle = some d1 ∧
        d1 = { completedSingle with
          vbStates := d1.vbStates
          trace := completedSingle.trace ++ [Event.closeStream 0 0] } ∧
        d1.getVbState 0 = VBState.VBStateCompleted ∧
        ∀ w, w ≠ 0 → d1.getVbState w = completedSingle.getVbState w) ∧
    (completedSingle.getVbState 0 ≠ VBState.VBStateCompleted →
      DcpClient.closeStreamIfCompleted allSucceed 0 0 completedSingle = some completedSingle) ∧
    (∀ (env : Env) (ready : Ready) (d1 : DcpDriver),
      DcpClient.handleDcpStreams env allSucceed ready 0 completedSingle = some d1 →
      ∃ t, d1.trace = completedSingle.trace ++ t ∧
        (Event.go 0 Task.closeCompletedStreams ∈ t ↔
          ready = Ready.startVbtsDone ∧ completedSingle.completeBySeqno = true ∧
            ∃ d2, DcpClient.openDcpStreams env allSucceed 0 completedSingle
              = some (d2, none)))) ∧
    (DcpClient.closeStreamIfCompleted allSucceed 0 0 completedSingle).map
        (fun d1 => (d1.getVbState 0, d1.trace.drop completedSingle.trace.length)) =
      some (VBState.VBStateStreamClosed, [Event.closeStream 0 0]) ∧
    (DcpClient.closeStreamIfCompleted stopFails 0 0 completedSingle).map
        (fun d1 => (d1.getVbState 0, d1.trace.drop completedSingle.trace.length)) =
      some (VBState.VBStateCompleted, [Event.closeStream 0 0]) ∧
    (DcpClient.closeStreamIfCompleted allSucceed 0 0 startedSingle).map
        (fun d1 => (d1.getVbState 0, d1.trace.drop startedSingle.trace.length)) =
      some (VBState.VBStatePending, []) :=
  ⟨sweep_step_closes_completed_only allSucceed 0 0 completedSingle singleClient rfl rfl,
    by decide, by decide, by decide⟩

/-- C15: a sequence of `handleVbucketCompletion` calls with vbuckets below `V`, on a driver
created by `NewDcpDriver`, runs to its end, and then the completed count `len(vbState)` is
the number of distinct vbuckets reported with a nil error, and is at most `V`.  A further
nil completion of a vbucket reported before leaves the count as it is.  A further call
enters `Stop` only with a nil error and only when, that call included, every vbucket below
`V` has been reported with a nil error and has `vbState[w] = true`. -/
theorem completed_count_counts_distinct_vbuckets (env : Env) (name : String) (n m : Nat)
    (errChan : ErrChan) (waitGroup : Nat) (completeBySeqno : Bool)
    (calls : List (Outcomes × Nat × GoError))
    (hvb : ∀ x ∈ calls, x.2.1 < env.NumberOfVbuckets) :
    ∃ d1, DcpDriver.run env (completionCalls calls)
        (NewDcpDriver name n m errChan waitGroup completeBySeqno) = some d1 ∧
      d1.vbState.keys.length = (reportedComplete calls).dedup.length ∧
      d1.vbState.keys.length ≤ env.NumberOfVbuckets ∧
      (∀ (o : Outcomes) (v : Nat), v ∈ reportedComplete calls →
        ∃ d2, DcpDriver.handleVbucketCompletion env o v none d1 = some d2 ∧
          d2.vbState.keys.length = d1.vbState.keys.length) ∧
      (∀ (o : Outcomes) (v : Nat) (e : GoError) (d2 : DcpDriver) (t : List Event),
        v < env.NumberOfVbuckets →
        DcpDriver.handleVbucketCompletion env o v e d1 = some d2 → d2.trace = d1.trace ++ t →
        Event.driverStop ∈ t →
        e = none ∧ ∀ w, w < env.NumberOfVbuckets →
          w ∈ reportedComplete (calls ++ [(o, v, e)]) ∧ d2.vbState.lookup w = some true) := by
  obtain ⟨d1, hrun, hnew, hlook0⟩ := completions_on_new env calls
    (NewDcpDriver name n m errChan waitGroup completeBySeqno) rfl
  have hlook : ∀ w, d1.vbState.lookup w =
      if w ∈ reportedComplete calls then some true else none := by
    intro w
    rw [hlook0 w]
    rfl
  have hmem : ∀ w, w ∈ d1.vbState.keys ↔ w ∈ reportedComplete calls := by
    intro w
    rw [mem_keys_iff_lookup, hlook w]
    by_cases hw : w ∈ reportedComplete calls <;> simp [hw]
  have hlt : ∀ w ∈ reportedComplete calls, w < env.NumberOfVbuckets := by
    intro w hw
    simp only [reportedComplete, List.mem_map, List.mem_filter] at hw
    obtain ⟨x, ⟨hx, _⟩, rfl⟩ := hw
    exact hvb x hx
  have hnd : d1.vbState.keys.Nodup := AList.keys_nodup _
  refine ⟨d1, hrun, ?_, ?_, ?_, ?_⟩
  · have hperm : d1.vbState.keys.Perm (reportedComplete calls).dedup := by
      rw [List.perm_ext_iff_of_nodup hnd (List.nodup_dedup _)]
      intro w
      rw [hmem w, List.mem_dedup]
    exact hperm.length_eq
  · exact length_le_of_nodup_lt _ _ hnd (fun w hw => hlt w ((hmem w).1 hw))
  · intro o v hv
    obtain ⟨d2, _, h2, _, hvb2, _, _⟩ := completion_on_new env o v none d1 hnew
    refine ⟨d2, h2, ?_⟩
    rw [hvb2]
    have hvk : v ∈ d1.vbState.keys := (hmem v).2 hv
    simp only [Option.isNone_none, if_true, AList.keys_insert, List.length_cons]
    rw [List.length_erase_of_mem hvk]
    have : 0 < d1.vbState.keys.length := List.length_pos_of_mem hvk
    omega
  · intro o v e d2 t hv h ht hstop
    obtain ⟨d3, t3, h3, _, hvb3, ht3, hiff⟩ := completion_on_new env o v e d1 hnew
    rw [h3] at h
    simp only [Option.some.injEq] at h
    subst h
    have htt : t3 = t := List.append_cancel_left (ht3.symm.trans ht)
    subst htt
    obtain ⟨he, hcount⟩ := hiff.1 hstop
    subst he
    refine ⟨rfl, ?_⟩
    simp only [Option.isNone_none, if_true] at hvb3
    have hlook3 : ∀ w, d3.vbState.lookup w =
        if w = v ∨ w ∈ reportedComplete calls then some true else none := by
      intro w
      rw [hvb3]
      by_cases hwv : w = v
      · subst hwv
        simp [AList.lookup_insert]
      · rw [AList.lookup_insert_ne hwv, hlook w]
        simp [hwv]
    have hkeys : ∀ w, w ∈ (d1.vbState.insert v true).keys →
        w = v ∨ w ∈ reportedComplete calls := by
      intro w hw
      rw [← hvb3, mem_keys_iff_lookup, hlook3 w] at hw
      by_cases hc : w = v ∨ w ∈ reportedComplete calls
      · exact hc
      · simp [hc] at hw
    intro w hw
    have hwk : w ∈ (d1.vbState.insert v true).keys :=
      mem_of_nodup_full env.NumberOfVbuckets _ (AList.keys_nodup _)
        (fun x hx => by
          rcases hkeys x hx with h | h
          · rw [h]; exact hv
          · exact hlt x h)
        hcount w hw
    have hor := hkeys w hwk
    refine ⟨?_, ?_⟩
    · simp only [reportedComplete, List.filter_append, List.map_append, List.mem_append]
      rcases hor with h | h
      · right
        simp [h]
      · left
        exact h
    · rw [hlook3 w, if_pos hor]

/-- The witness of C15: two vbuckets; vbucket 0 is reported twice and vbucket 1 with an
error, which counts one; when vbucket 1 is then reported with nil the count is two, and
that call and the repeated one after it each enter `Stop`. -/
theorem completed_count_counts_distinct_vbuckets_witness :
    (∃ d1, DcpDriver.run (sampleEnv 2)
        (completionCalls [(allSucceed, 0, none), (allSucceed, 0, none),
          (allSucceed, 1, some "gone")])
        (NewDcpDriver "d" 1 1 { cap := 1, buf := [] } 1 true) = some d1 ∧
      d1.vbState.keys.length =
        (reportedComplete [(allSucceed, 0, none), (allSucceed, 0, none),
          (allSucceed, 1, some "gone")]).dedup.length ∧
      d1.vbState.keys.length ≤ (sampleEnv 2).NumberOfVbuckets ∧
      (∀ (o : Outcomes) (v : Nat),
        v ∈ reportedComplete [(allSucceed, 0, none), (allSucceed, 0, none),
          (allSucceed, 1, some "gone")] →
        ∃ d2, DcpDriver.handleVbucketCompletion (sampleEnv 2) o v none d1 = some d2 ∧
          d2.vbState.keys.length = d1.vbState.keys.length) ∧
      (∀ (o : Outcomes) (v : Nat) (e : GoError) (d2 : DcpDriver) (t : List Event),
        v < (sampleEnv 2).NumberOfVbuckets →
        DcpDriver.handleVbucketCompletion (sampleEnv 2) o v e d1 = some d2 →
        d2.trace = d1.trace ++ t →
        Event.driverStop ∈ t →
        e = none ∧ ∀ w, w < (sampleEnv 2).NumberOfVbuckets →
          w ∈ reportedComplete ([(allSucceed, 0, none), (allSucceed, 0, none),
            (allSucceed, 1, some "gone")] ++ [(o, v, e)]) ∧
          d2.vbState.lookup w = some true)) ∧
    (DcpDriver.run (sampleEnv 2)
        (completionCalls [(allSucceed, 0, none), (allSucceed, 0, none),
          (allSucceed, 1, some "gone")])
        (NewDcpDriver "d" 1 1 { cap := 1, buf := [] } 1 true)).map
      (fun d1 => (d1.vbState.keys.length, d1.trace)) =
      some (1, [Event.errOffer (some "gone")]) ∧
    (DcpDriver.run (sampleEnv 2)
        (completionCalls [(allSucceed, 0, none), (allSucceed, 0, none),
          (allSucceed, 1, some "gone"), (allSucceed, 1, none), (allSucceed, 0, none)])
        (NewDcpDriver "d" 1 1 { cap := 1, buf := [] } 1 true)).map
      (fun d1 => (d1.vbState.keys.length, d1.trace)) =
      some (2, [Event.errOffer (some "gone"), Event.driverStop, Event.driverStop]) :=
  ⟨completed_count_counts_distinct_vbuckets (sampleEnv 2) "d" 1 1 { cap := 1, buf := [] } 1
    true
    [(allSucceed, 0, none), (allSucceed, 0, none), (allSucceed, 1, some "gone")]
    (by
      intro x hx
      simp only [List.mem_cons, List.mem_singleton, List.not_mem_nil, or_false] at hx
      rcases hx with h | h | h <;> rw [h] <;> decide),
    by decide, by decide⟩

/-- The counterexample of C16: client 0 of `sparseSample` has a bucket and an empty
`vbList`, so no entry is in `StreamClosed` (`k = 0`); `Stop` makes no `CloseStream` request
and leaves the counter at 0, so no callback arrives and no send on `closeStreamsDoneCh` is
made, where the claim has the signal sent once. -/
theorem empty_vbList_sends_no_done_signal :
    (sparseSample.client 0).map
        (fun c => (c.vbList, c.bucketOpen, closedCount sparseSample c.vbList)) =
      some ([], true, 0) ∧
    (DcpClient.Stop allSucceed 0 sparseSample).map
        (fun r => ((r.1.client 0).map (fun c => c.numberClosing),
          (r.1.trace.drop sparseSample.trace.length).filterMap Event.closedVb, r.2)) =
      some (some 0, [], none) := by
  decide

/-- C16, amended: `DcpClient.Stop` on a client with a bucket and a `vbList` without
duplicates sets `numberClosing` to the length of `vbList` and makes `CloseStream` requests
for the vbuckets not in `StreamClosed` only, so for `len - k` of them when `k` entries are
in `StreamClosed`.  When every request gets one `closeStreamFunc` callback: callback number
`j` (from 0) takes the counter from `len - j` to `len - j - 1`, and reaches the send on
`closeStreamsDoneCh`, in which it stays, exactly when `j + 1 = len`.  So with `k >= 1` every
callback returns and the counter ends at `k`; with `k = 0` and a list that is not empty
the last callback, and only it, brings the counter to zero and reaches the send; with an
empty list there is no callback. -/
theorem close_counter_counts_whole_list (o : Outcomes) (i : Nat) (d : DcpDriver)
    (c : DcpClient) (errs : List GoError) (hc : d.client i = some c)
    (hbucket : c.bucketOpen = true) (hfin : c.finClosed = false) (hwg : 0 < d.childWaitGroup)
    (hnd : c.vbList.Nodup) (hlen : c.vbList.length < 2 ^ 32)
    (herrs : errs.length + closedCount d c.vbList = c.vbList.length) :
    ∃ (d1 : DcpDriver) (c1 : DcpClient) (t : List Event),
      DcpClient.Stop o i d = some (d1, none) ∧ d1.client i = some c1 ∧
      c1.numberClosing = c.vbList.length ∧ d1.trace = d.trace ++ t ∧
      t.filterMap Event.closedVb = c.vbList.filter
        (fun v => decide (d.getVbState v ≠ VBState.VBStateStreamClosed)) ∧
      (t.filterMap Event.closedVb).length = errs.length ∧
      (∀ j, j < errs.length →
        ∃ dj cj dj1, forEach (DcpClient.closeStreamFunc i) (errs.take j) d1 = some dj ∧
          dj.client i = some cj ∧ cj.numberClosing = c.vbList.length - j ∧
          DcpClient.addNumberClosing i dj = some (dj1, c.vbList.length - j - 1) ∧
          ∀ err, DcpClient.closeStreamFunc i err dj =
            if j + 1 = c.vbList.length then none else some dj1) ∧
      (0 < closedCount d c.vbList →
        ∃ d2 c2, forEach (DcpClient.closeStreamFunc i) errs d1 = some d2 ∧
          d2.client i = some c2 ∧ c2.numberClosing = closedCount d c.vbList ∧
          d2.trace = d1.trace) ∧
      (closedCount d c.vbList = 0 → c.vbList ≠ [] →
        forEach (DcpClient.closeStreamFunc i) errs d1 = none) ∧
      (c.vbList = [] → errs = [] ∧ forEach (DcpClient.closeStreamFunc i) errs d1 = some d1) := by
  obtain ⟨d1, reqs, hstop, hd1, hsub, hmem, _⟩ :=
    clientStop_requests o i d c hc hbucket hfin hwg
  have hil : i < d.clients.length := client_lt_length d i c hc
  have hreqs : reqs = c.vbList.filter
      (fun v => decide (d.getVbState v ≠ VBState.VBStateStreamClosed)) :=
    sublist_eq_filter _ reqs c.vbList hsub hnd (by simpa using hmem)
  have hcount : reqs.length + closedCount d c.vbList = c.vbList.length := by
    have h := length_filter_add
      (fun v => decide (d.getVbState v = VBState.VBStateStreamClosed)) c.vbList
    have hf : (fun v => !decide (d.getVbState v = VBState.VBStateStreamClosed)) =
        (fun v => decide (d.getVbState v ≠ VBState.VBStateStreamClosed)) := by
      funext v
      simp
    rw [hf, ← hreqs] at h
    unfold closedCount
    omega
  have hnum : c.vbList.length % 2 ^ 32 = c.vbList.length := Nat.mod_eq_of_lt hlen
  have hc1 : d1.client i =
      some { c with finClosed := true, numberClosing := c.vbList.length } := by
    rw [hd1]
    simp only [DcpDriver.client, hnum]
    simp [hil]
  have htr : d1.trace = d.trace ++ ([Event.clientStop i, Event.finClose i] ++
      reqs.map (Event.closeStream i) ++
      (c.dcpHandlers.filterMap id).map (fun h => Event.handlerStop i h.index) ++
      [Event.clientStopped i]) := by
    rw [hd1]
  have hfm : ([Event.clientStop i, Event.finClose i] ++
      reqs.map (Event.closeStream i) ++
      (c.dcpHandlers.filterMap id).map (fun h => Event.handlerStop i h.index) ++
      [Event.clientStopped i]).filterMap Event.closedVb = reqs := by
    have h1 : (reqs.map (Event.closeStream i)).filterMap Event.closedVb = reqs := by
      rw [List.filterMap_map]
      have : (Event.closedVb ∘ Event.closeStream i) = some := by
        funext v
        rfl
      rw [this, List.filterMap_some]
    have h2 : ((c.dcpHandlers.filterMap id).map
        (fun h => Event.handlerStop i h.index)).filterMap Event.closedVb = [] := by
      rw [List.filterMap_eq_nil_iff]
      intro e he
      obtain ⟨h, _, rfl⟩ := List.mem_map.1 he
      rfl
    simp only [List.filterMap_append, h1, h2]
    simp [Event.closedVb]
  have hbefore : ∀ (l : List GoError), l.length < c.vbList.length →
      ∃ dj, forEach (DcpClient.closeStreamFunc i) l d1 = some dj ∧
        dj.client i = some { c with
          finClosed := true
          numberClosing := c.vbList.length - l.length } ∧ dj.trace = d1.trace := by
    intro l hl
    obtain ⟨dj, h1, h2, h3, _⟩ := closeCallbacks_count i l d1 _ hc1 hl hlen
    exact ⟨dj, h1, h2, h3⟩
  have hat : ∀ j, j < errs.length →
      ∃ dj cj dj1, forEach (DcpClient.closeStreamFunc i) (errs.take j) d1 = some dj ∧
        dj.client i = some cj ∧ cj.numberClosing = c.vbList.length - j ∧
        DcpClient.addNumberClosing i dj = some (dj1, c.vbList.length - j - 1) ∧
        ∀ err, DcpClient.closeStreamFunc i err dj =
          if j + 1 = c.vbList.length then none else some dj1 := by
    intro j hj
    have hlj : (errs.take j).length = j := by
      rw [List.length_take]
      omega
    obtain ⟨dj, h1, h2, _⟩ := hbefore (errs.take j) (by rw [hlj]; omega)
    rw [hlj] at h2
    have hpos : 0 < c.vbList.length - j := by omega
    have hlt2 : c.vbList.length - j < 2 ^ 32 := by omega
    refine ⟨dj, _, _, h1, h2, rfl, addNumberClosing_step i dj _ h2 hpos hlt2, ?_⟩
    intro err
    rw [closeStreamFunc_step i err dj _ h2 hpos hlt2]
    by_cases hlast : j + 1 = c.vbList.length
    · rw [if_pos hlast, if_pos (by show c.vbList.length - j - 1 = 0; omega)]
    · rw [if_neg hlast, if_neg (by show ¬ c.vbList.length - j - 1 = 0; omega)]
  refine ⟨d1, _, _, hstop, hc1, rfl, htr, ?_, ?_, hat, ?_, ?_, ?_⟩
  · rw [hfm, hreqs]
  · rw [hfm]
    omega
  · intro hk
    obtain ⟨d2, h1, h2, h3⟩ := hbefore errs (by omega)
    refine ⟨d2, _, h1, h2, ?_, h3⟩
    show c.vbList.length - errs.length = closedCount d c.vbList
    omega
  · intro hk hne
    have hl : errs.length = c.vbList.length := by omega
    have hpos : 0 < c.vbList.length := List.length_pos.2 hne
    rcases List.eq_nil_or_concat errs with hnil | ⟨L, b, hLb⟩
    · rw [hnil] at hl
      simp at hl
      omega
    · rw [List.concat_eq_append] at hLb
      have hLl : L.length + 1 = c.vbList.length := by
        rw [← hl, hLb]
        simp
      obtain ⟨dj, _, _, h1, _, _, _, h5⟩ := hat L.length (by rw [hLb]; simp)
      have htake : errs.take L.length = L := by
        rw [hLb]
        simp
      rw [htake] at h1
      have hnone : DcpClient.closeStreamFunc i b dj = none := by
        rw [h5 b, if_pos hLl]
      rw [hLb]
      exact forEach_none_at _ b [] L d1 dj h1 hnone
  · intro hnil
    have hl : errs.length = 0 := by
      have h0 : errs.length + closedCount d c.vbList = 0 := by
        rw [herrs, hnil]
        rfl
      omega
    have he : errs = [] := List.eq_nil_of_length_eq_zero hl
    exact ⟨he, by rw [he]; rfl⟩

/-- The witness of C16: client 0 of `oneClosedSample`, with one of its two vbuckets in
`StreamClosed`: there is one request, and after its callback the counter is 1; on
`startedSample`, with none closed, the first of the two callbacks leaves the counter at 1
and the second does not return. -/
theorem close_counter_counts_whole_list_witness :
    (∃ (d1 : DcpDriver) (c1 : DcpClient) (t : List Event),
      DcpClient.Stop allSucceed 0 oneClosedSample = some (d1, none) ∧
      d1.client 0 = some c1 ∧
      c1.numberClosing = sampleClient.vbList.length ∧ d1.trace = oneClosedSample.trace ++ t ∧
      t.filterMap Event.closedVb = sampleClient.vbList.filter
        (fun v => decide (oneClosedSample.getVbState v ≠ VBState.VBStateStreamClosed)) ∧
      (t.filterMap Event.closedVb).length = [(none : GoError)].length ∧
      (∀ j, j < [(none : GoError)].length →
        ∃ dj cj dj1, forEach (DcpClient.closeStreamFunc 0) ([(none : GoError)].take j) d1
            = some dj ∧
          dj.client 0 = some cj ∧ cj.numberClosing = sampleClient.vbList.length - j ∧
          DcpClient.addNumberClosing 0 dj = some (dj1, sampleClient.vbList.length - j - 1) ∧
          ∀ err, DcpClient.closeStreamFunc 0 err dj =
            if j + 1 = sampleClient.vbList.length then none else some dj1) ∧
      (0 < closedCount oneClosedSample sampleClient.vbList →
        ∃ d2 c2, forEach (DcpClient.closeStreamFunc 0) [(none : GoError)] d1 = some d2 ∧
          d2.client 0 = some c2 ∧
          c2.numberClosing = closedCount oneClosedSample sampleClient.vbList ∧
          d2.trace = d1.trace) ∧
      (closedCount oneClosedSample sampleClient.vbList = 0 → sampleClient.vbList ≠ [] →
        forEach (DcpClient.closeStreamFunc 0) [(none : GoError)] d1 = none) ∧
      (sampleClient.vbList = [] → [(none : GoError)] = [] ∧
        forEach (DcpClient.closeStreamFunc 0) [(none : GoError)] d1 = some d1)) ∧
    closedCount oneClosedSample sampleClient.vbList = 1 ∧
    ((DcpClient.Stop allSucceed 0 oneClosedSample).bind
        (fun r => forEach (DcpClient.closeStreamFunc 0) [none] r.1)).map
      (fun d2 => (d2.client 0).map (fun c2 => c2.numberClosing)) = some (some 1) ∧
    ((DcpClient.Stop allSucceed 0 startedSample).bind
        (fun r => forEach (DcpClient.closeStreamFunc 0) [none] r.1)).map
      (fun d2 => (d2.client 0).map (fun c2 => c2.numberClosing)) = some (some 1) ∧
    ((DcpClient.Stop allSucceed 0 startedSample).bind
        (fun r => forEach (DcpClient.closeStreamFunc 0) [none, none] r.1)).isNone = true :=
  ⟨close_counter_counts_whole_list allSucceed 0 oneClosedSample sampleClient [none] rfl rfl rfl
    (by decide) (by decide) (by decide) (by decide), by decide, by decide, by decide,
    by decide⟩

/-- C17: `DcpDriver.Start` on a driver in the state `New`.  When the credentials are found,
the checkpoint manager starts, the rounds of the clients `0, .., i - 1` return nil and
`Start` of client `i` returns an error, then `Start` returns that error, the state is still
`New`, the clients before `i` are in place, started (`Start` entered, `go` statement made)
and with their `finChan` open, no call of stopping has been made, and a following `Stop` is
the no-op of a driver that is not started.  When the credentials are not found or the
checkpoint manager fails, `Start` returns that error, the state is still `New`, and
`d.clients` is as it was, no client having been created or started. -/
theorem start_failure_leaves_driver_new (env : Env) (d : DcpDriver)
    (hnew : d.state = DriverState.DriverStateNew) :
    (∀ (o : Outcomes) (i : Nat) (e : String) (s s1 : DcpDriver),
      o.getRBACSupportedAndBucketPassword.2.2 = none → o.cmInitialize = none →
      o.cmStart = none → i < d.numberOfClients →
      DcpDriver.startClients env o i
        (DcpDriver.initializeAndStartCheckpointManager o
          (DcpDriver.populateCredentials o d).1).1 = some (s, none) →
      DcpDriver.initializeDcpClient env o
        (env.BalanceLoad d.numberOfClients env.NumberOfVbuckets) i s = some (s1, some e) →
      DcpDriver.Start env o d = some (s1, some e) ∧
        s1.state = DriverState.DriverStateNew ∧
        (∀ j, j < i → ∃ c, s1.client j = some c ∧ c.finClosed = false) ∧
        (∃ t, s1.trace = d.trace ++ t ∧
          (∀ j, j < i → Event.clientStart j ∈ t ∧ Event.go j Task.handleDcpStreams ∈ t) ∧
          Event.clientStart i ∈ t ∧ Event.go i Task.handleDcpStreams ∉ t ∧
          ∀ ev ∈ t, ev.isStopping = false) ∧
        ∀ o2, DcpDriver.Stop o2 s1 = some (s1.record Event.driverStop, none)) ∧
    (∀ (o : Outcomes) (e : String),
      (o.getRBACSupportedAndBucketPassword.2.2 = some e ∨
        (o.getRBACSupportedAndBucketPassword.2.2 = none ∧ o.cmInitialize = some e) ∨
        (o.getRBACSupportedAndBucketPassword.2.2 = none ∧ o.cmInitialize = none ∧
          o.cmStart = some e)) →
      ∃ d1 t, DcpDriver.Start env o d = some (d1, some e) ∧
        d1.state = DriverState.DriverStateNew ∧ d1.clients = d.clients ∧
        d1.trace = d.trace ++ t ∧
        (∀ ev ∈ t, ev = Event.checkpointManagerInitialize ∨
          ev = Event.checkpointManagerStart) ∧
        ∀ o2, DcpDriver.Stop o2 d1 = some (d1.record Event.driverStop, none)) := by
  have hnoop : ∀ (x : DcpDriver), x.state = DriverState.DriverStateNew →
      ∀ o2, DcpDriver.Stop o2 x = some (x.record Event.driverStop, none) := by
    intro x hx o2
    apply driverStop_not_started
    rw [hx]
    decide
  refine ⟨?_, ?_⟩
  · intro o i e s s1 hcred hcmi hcms hi hpre hfail
    obtain ⟨hdc, hstart⟩ := driverStart_clients env o d hcred hcmi hcms
    rw [hdc] at hpre hstart
    have hsplit := split_at_position (List.range d.numberOfClients) i i
      (by simp [List.getElem?_range hi])
    have htake : (List.range d.numberOfClients).take i = List.range i := by
      rw [List.take_range, Nat.min_eq_left (Nat.le_of_lt hi)]
    rw [htake] at hsplit
    have hloop : DcpDriver.startClients env o d.numberOfClients
        { d with
          rbacSupported := o.getRBACSupportedAndBucketPassword.1
          bucketPassword := o.getRBACSupportedAndBucketPassword.2.1
          trace := d.trace ++
            [Event.checkpointManagerInitialize, Event.checkpointManagerStart] } =
        some (s1, some e) := by
      unfold DcpDriver.startClients
      simp only
      rw [hsplit.1]
      exact forErr_error_at _ _ i _ _ s s1 e hpre hfail
    have hres : DcpDriver.Start env o d = some (s1, some e) := by
      rw [hstart, hloop]
    have hstate : s1.state = DriverState.DriverStateNew := by
      have := driverStart_state env o d s1 (some e) hres
      simpa [hnew] using this
    obtain ⟨p1, p2, tp, htp, hst, hns, hidx⟩ := startRounds_frame env o _ (List.range i) _ s hpre
    obtain ⟨r1, _, ti, hti, hevi⟩ := initializeDcpClient_frame env o _ i s s1 (some e) hfail
    refine ⟨hres, hstate, ?_, ?_, hnoop s1 hstate⟩
    · intro j hj
      rw [r1 j (Nat.ne_of_lt hj)]
      exact p2 j (List.mem_range.2 hj)
    · refine ⟨[Event.checkpointManagerInitialize, Event.checkpointManagerStart] ++ tp ++
        (Event.clientStart i :: ti), ?_, ?_, ?_, ?_, ?_⟩
      · rw [hti, htp]
        simp
      · intro j hj
        obtain ⟨q1, q2⟩ := hst j (List.mem_range.2 hj)
        exact ⟨List.mem_append_left _ (List.mem_append_right _ q1),
          List.mem_append_left _ (List.mem_append_right _ q2)⟩
      · exact List.mem_append_right _ (List.mem_cons_self _ _)
      · intro hmem
        rcases List.mem_append.1 hmem with h1 | h1
        · rcases List.mem_append.1 h1 with h2 | h2
          · simp at h2
          · have := hidx _ h2 i (Or.inr rfl)
            simp at this
        · rcases List.mem_cons.1 h1 with h2 | h2
          · cases h2
          · obtain ⟨j, hj⟩ := hevi _ h2
            cases hj
      · intro ev hev
        rcases List.mem_append.1 hev with h1 | h1
        · rcases List.mem_append.1 h1 with h2 | h2
          · simp only [List.mem_cons, List.mem_singleton, List.not_mem_nil, or_false] at h2
            rcases h2 with h3 | h3 <;> rw [h3] <;> rfl
          · exact hns ev h2
        · rcases List.mem_cons.1 h1 with h2 | h2
          · rw [h2]; rfl
          · obtain ⟨j, hj⟩ := hevi _ h2
            rw [hj]; rfl
  · intro o e hcause
    rcases hcause with hc | ⟨hc, hi⟩ | ⟨hc, hi, hs⟩
    · have hp : DcpDriver.populateCredentials o d =
          ((DcpDriver.populateCredentials o d).1, some e) := Prod.ext rfl hc
      refine ⟨(DcpDriver.populateCredentials o d).1, [], ?_, hnew, rfl, by simp [DcpDriver.populateCredentials],
        by simp, hnoop _ hnew⟩
      unfold DcpDriver.Start
      rw [hp]
    · have hp : DcpDriver.populateCredentials o d =
          ((DcpDriver.populateCredentials o d).1, none) := Prod.ext rfl hc
      have hcm : DcpDriver.initializeAndStartCheckpointManager o
          (DcpDriver.populateCredentials o d).1 =
          ((DcpDriver.populateCredentials o d).1.record Event.checkpointManagerInitialize,
            some e) := by
        unfold DcpDriver.initializeAndStartCheckpointManager
        simp [hi]
      refine ⟨(DcpDriver.populateCredentials o d).1.record Event.checkpointManagerInitialize,
        [Event.checkpointManagerInitialize], ?_, hnew, rfl, rfl, by simp, hnoop _ hnew⟩
      unfold DcpDriver.Start
      rw [hp]
      simp only
      rw [hcm]
    · have hp : DcpDriver.populateCredentials o d =
          ((DcpDriver.populateCredentials o d).1, none) := Prod.ext rfl hc
      have hcm : DcpDriver.initializeAndStartCheckpointManager o
          (DcpDriver.populateCredentials o d).1 =
          (((DcpDriver.populateCredentials o d).1.record
              Event.checkpointManagerInitialize).record Event.checkpointManagerStart,
            some e) := by
        unfold DcpDriver.initializeAndStartCheckpointManager
        simp [hi, hs]
      refine ⟨((DcpDriver.populateCredentials o d).1.record
          Event.checkpointManagerInitialize).record Event.checkpointManagerStart,
        [Event.checkpointManagerInitialize, Event.checkpointManagerStart], ?_, hnew,
        rfl, by simp [DcpDriver.record, DcpDriver.populateCredentials], by simp,
        hnoop _ hnew⟩
      unfold DcpDriver.Start
      rw [hp]
      simp only
      rw [hcm]

/-- The witness of C17: two clients, the connection of client 1 is refused; and a checkpoint
manager that does not initialize. -/
theorem start_failure_leaves_driver_new_witness :
    (DcpDriver.Start (sampleEnv 4) (connectFails 1) freshSample
        = some (secondFailedSample, some "refused") ∧
      secondFailedSample.state = DriverState.DriverStateNew ∧
      (∀ j, j < 1 → ∃ c, secondFailedSample.client j = some c ∧ c.finClosed = false) ∧
      (∃ t, secondFailedSample.trace = freshSample.trace ++ t ∧
        (∀ j, j < 1 → Event.clientStart j ∈ t ∧ Event.go j Task.handleDcpStreams ∈ t) ∧
        Event.clientStart 1 ∈ t ∧ Event.go 1 Task.handleDcpStreams ∉ t ∧
        ∀ ev ∈ t, ev.isStopping = false) ∧
      ∀ o2, DcpDriver.Stop o2 secondFailedSample
        = some (secondFailedSample.record Event.driverStop, none)) ∧
    (∃ d1 t, DcpDriver.Start (sampleEnv 4) checkpointFails freshSample
        = some (d1, some "no checkpoints") ∧
      d1.state = DriverState.DriverStateNew ∧ d1.clients = freshSample.clients ∧
      d1.trace = freshSample.trace ++ t ∧
      (∀ ev ∈ t, ev = Event.checkpointManagerInitialize ∨
        ev = Event.checkpointManagerStart) ∧
      ∀ o2, DcpDriver.Stop o2 d1 = some (d1.record Event.driverStop, none)) ∧
    secondFailedSample.trace =
      [Event.checkpointManagerInitialize, Event.checkpointManagerStart, Event.clientStart 0,
        Event.handlerStart 0 0, Event.handlerStart 0 1, Event.go 0 Task.handleDcpStreams,
        Event.clientStart 1] :=
  ⟨(start_failure_leaves_driver_new (sampleEnv 4) freshSample rfl).1 (connectFails 1) 1
      "refused" firstStartedSample secondFailedSample rfl rfl rfl (by decide) rfl rfl,
    (start_failure_leaves_driver_new (sampleEnv 4) freshSample rfl).2 checkpointFails
      "no checkpoints" (Or.inr (Or.inl ⟨rfl, rfl⟩)),
    by decide⟩

end XdcrDiffer
